import Mathlib

/-!
# data-solectrus: tick runner, scheduler, throttled logging, formula length guard, object registry

A shallow embedding of `src/lib/services/tickRunner.js`, of
`src/lib/services/stateRegistry.js` and of the parts of `src/main.js` the tick
runner relies on (`warnOnce`, `debugOnce`, `evalFormula`, `onUnload`), with
the properties of the specification proved about it.

Modelling conventions

* JavaScript numbers are `JsNum`: `NaN`, the two infinities, or an exact
  rational.  Finite arithmetic is exact (no rounding, no overflow, no `-0`);
  clock values and durations are whole numbers of milliseconds.
* Mutable `Map`s are functions `String → Option _`; `Set`s are duplicate-free
  lists in insertion order, so that `.size` is `List.length`.
* Everything the tick runner cannot decide itself (the clock, whether a state
  write raises, the evaluator, the snapshot builder, the item compiler, the
  output identifier of an item) is an oracle in `Env`, one `Env` per tick.
  Clock reads and state writes are addressed by the source line of the call
  and the loop index, which is unique within a tick.
* An `async` function body is a function `Adapter → Res _`: it ends normally
  or raises an error message, and in both cases hands back the mutated
  adapter.  Raises come from the awaited collaborators and from state writes;
  the logger, `getItemOutputId` and `getZeroValueForItem` do not raise, and
  `adapter.config` is always an object.
* The adapter records what the host can observe: the state store, every state
  write issued (`writeLog`), every log line, every evaluation issued
  (`evalLog`), the armed timers.
* A tick runs without interleaving; an unload that arrives while a tick is in
  flight takes effect when the tick has settled.
-/

namespace DataSolectrus

/-! ## JavaScript values -/

/-- A JavaScript number with exact finite arithmetic. -/
inductive JsNum where
  | nan
  | posInf
  | negInf
  | fin (q : ℚ)
deriving DecidableEq

/-- The primitive values that occur in configuration and state writes. -/
inductive JsVal where
  | undefined
  | null
  | bool (b : Bool)
  | num (n : JsNum)
  | str (s : String)
deriving DecidableEq

/-- The JavaScript conversion `Number(v)`.  The numeric reading of a string
(the `StringToNumber` grammar) is a parameter. -/
def toNumber (stringToNumber : String → JsNum) : JsVal → JsNum
  | .undefined => .nan
  | .null => .fin 0
  | .bool true => .fin 1
  | .bool false => .fin 0
  | .num n => n
  | .str s => stringToNumber s

/-- The function `Math.round` on a finite number: the nearest integer, ties
towards plus infinity. -/
def mathRound (q : ℚ) : Int := ⌊q + 1 / 2⌋

/-- The function `Math.floor` on a finite number. -/
def mathFloor (q : ℚ) : Int := ⌊q⌋

/-- A whole number as a JavaScript value. -/
def JsVal.ofInt (i : Int) : JsVal := .num (.fin i)

/-! ## Configuration -/

/-- One named input of a formula item. -/
structure ItemInput where
  key : String := ""
  sourceState : String := ""
  noNegative : Bool := false
deriving DecidableEq

/-- A configured item.  Absent string properties are the empty string, absent
flags are `false`. -/
structure Item where
  enabled : Bool := false
  name : String := ""
  group : String := ""
  targetId : String := ""
  mode : String := ""
  type : String := ""
  role : String := ""
  unit : String := ""
  formula : String := ""
  inputs : List ItemInput := []
  sourceState : String := ""
  jsonPath : String := ""
  noNegative : Bool := false
  clamp : Bool := false
  min : JsVal := .undefined
  max : JsVal := .undefined
deriving DecidableEq

/-- An entry of `config.items`: an object, or anything else (`null`, a number,
a string), which the filters `it && typeof it === 'object'` drop. -/
inductive ConfigEntry where
  | other
  | obj (it : Item)
deriving DecidableEq

/-- The adapter configuration.  `items = none` stands for a value that is not
an array. -/
structure Config where
  pollIntervalSeconds : JsVal := .undefined
  errorRetriesBeforeZero : JsVal := .undefined
  items : Option (List ConfigEntry) := none

/-- A tick snapshot: input identifier to raw value. -/
abbrev Snapshot := List (String × JsVal)

/-- Severity of a log line. -/
inductive LogLevel where
  | debug
  | info
  | warn
  | error
deriving DecidableEq

/-- The adapter object: the fields of the `DataSolectrus` instance the tick
runner touches, followed by the observable state of the host (state store,
log, timers) and records of the calls made to collaborators. -/
structure Adapter where
  config : Config := {}
  MAX_FORMULA_LENGTH : Nat := 8000
  MAX_AST_NODES : Nat := 2000
  MAX_AST_DEPTH : Nat := 60
  TICK_TIME_BUDGET_RATIO : JsVal := .num (.fin (4 / 5))
  lastGoodValue : String → Option JsVal := fun _ => none
  lastGoodTs : String → Option Int := fun _ => none
  consecutiveErrorCounts : String → Option Nat := fun _ => none
  currentSnapshot : Option Snapshot := none
  tickTimer : Option Nat := none
  isUnloading : Bool := false
  jsonPathWarned : List String := []
  debugOnceKeys : List String := []
  /-- Host state store: the last value successfully written per identifier. -/
  states : String → Option JsVal := fun _ => none
  /-- Every `setStateAsync` / `setState` call issued, oldest first. -/
  writeLog : List (String × JsVal) := []
  /-- Every log line emitted, oldest first. -/
  logLines : List (LogLevel × String) := []
  /-- Every `computeItemValue` call issued, oldest first. -/
  evalLog : List (Item × Snapshot) := []
  /-- Timers currently armed in the host: handle and delay. -/
  armedTimers : List (Nat × JsNum) := []
  /-- Next fresh timer handle. -/
  nextTimerId : Nat := 1
  /-- Number of `scheduleNextTick` invocations so far. -/
  scheduleCalls : Nat := 0

/-- The oracles of one tick. -/
structure Env where
  /-- Numeric reading of a string by `Number(..)`. -/
  stringToNumber : String → JsNum
  /-- Value of `Date.now()` at the call on source line `line` in loop
  iteration `idx` (0 outside the loop). -/
  now : (line idx : Nat) → Int
  /-- Rendering of `new Date(t).toISOString()`. -/
  toISOString : Int → String
  /-- Whether the state write on source line `line` in loop iteration `idx`
  raises, and with which message. -/
  writeRaises : (line idx : Nat) → Option String
  /-- Outcome of `itemManager.ensureCompiledForCurrentConfig`. -/
  ensureCompiledForCurrentConfig : List ConfigEntry → Except String Unit
  /-- Outcome of `snapshotService.buildSnapshotForTick`. -/
  buildSnapshotForTick : List ConfigEntry → Except String Snapshot
  /-- Resolved output identifier, the empty string when there is none. -/
  getItemOutputId : Item → String
  computeItemValue : Item → Snapshot → Except String JsVal
  isNumericOutputItem : Item → Bool
  applyResultRules : Item → JsVal → Except String JsVal
  castValueForItemType : Item → JsVal → Except String JsVal
  getZeroValueForItem : Item → JsVal
  /-- Whether `onUnload` runs while the tick is in flight. -/
  unloadDuringTick : Bool

/-! ## Interval, budget and retry settings -/

/-- Source: `getTickIntervalMs` (tickRunner.js 12-22).  `adapter.config` is
always present. -/
def getTickIntervalMs (env : Env) (adapter : Adapter) : Int :=
  let fallbackSeconds : ℚ := 5
  let cfgSecondsRaw : JsVal :=
    if adapter.config.pollIntervalSeconds ≠ .undefined
    then adapter.config.pollIntervalSeconds
    else .num (.fin fallbackSeconds)
  let cfgSeconds := toNumber env.stringToNumber cfgSecondsRaw
  let seconds : ℚ :=
    match cfgSeconds with
    | .fin q => if 0 < q then q else fallbackSeconds
    | _ => fallbackSeconds
  mathRound (seconds * 1000)

/-- Source: `getTickTimeBudgetMs` (tickRunner.js 24-29). -/
def getTickTimeBudgetMs (env : Env) (adapter : Adapter) : Int :=
  let interval := getTickIntervalMs env adapter
  let ratioRaw := toNumber env.stringToNumber adapter.TICK_TIME_BUDGET_RATIO
  let ratio : ℚ :=
    match ratioRaw with
    | .fin q => if 0 < q ∧ q ≤ 1 then q else 4 / 5
    | _ => 4 / 5
  max 0 (mathFloor ((interval : ℚ) * ratio))

/-- Source: `getErrorRetriesBeforeZero` (tickRunner.js 31-38). -/
def getErrorRetriesBeforeZero (env : Env) (adapter : Adapter) : Int :=
  let raw : JsVal :=
    if adapter.config.errorRetriesBeforeZero ≠ .undefined
    then adapter.config.errorRetriesBeforeZero
    else .num (.fin 3)
  match toNumber env.stringToNumber raw with
  | .fin n => if n < 0 then 3 else min 100 (mathRound n)
  | _ => 3

/-! ## Async bodies -/

/-- How an async body ends: normally with a result, or by raising an error
message; either way the adapter carries the mutations made so far. -/
inductive Res (α : Type) where
  | ok (a : α) (s : Adapter)
  | raise (e : String) (s : Adapter)

/-- The adapter a body leaves behind. -/
def Res.state {α : Type} : Res α → Adapter
  | .ok _ s => s
  | .raise _ s => s

/-- Whether a body ended normally. -/
def Res.isOk {α : Type} : Res α → Bool
  | .ok _ _ => true
  | .raise _ _ => false

/-- An async body over the adapter. -/
def Eff (α : Type) : Type := Adapter → Res α

/-- A body that ends normally with `a`. -/
def Eff.pure {α : Type} (a : α) : Eff α := fun s => .ok a s

/-- Sequencing: a raise in the first body skips the second. -/
def Eff.bind {α β : Type} (x : Eff α) (f : α → Eff β) : Eff β := fun s =>
  match x s with
  | .ok a s1 => f a s1
  | .raise e s1 => .raise e s1

instance : Monad Eff where
  pure := Eff.pure
  bind := Eff.bind

/-- The statement `try { body } catch (e) { handler e }`. -/
def tryCatch {α : Type} (body : Eff α) (handler : String → Eff α) : Eff α := fun s =>
  match body s with
  | .ok a s1 => .ok a s1
  | .raise e s1 => handler e s1

/-- The statement `try { body } catch { /* ignore */ }`. -/
def tryIgnore (body : Eff Unit) : Eff Unit :=
  tryCatch body (fun _ => Eff.pure ())

/-- A mutation of the adapter that cannot raise. -/
def mutate (f : Adapter → Adapter) : Eff Unit := fun s => .ok () (f s)

/-- Reads the adapter. -/
def getAdapter : Eff Adapter := fun s => .ok s s

/-- Awaits a collaborator whose outcome is given by an oracle. -/
def await {α : Type} : Except String α → Eff α
  | .ok a => Eff.pure a
  | .error e => fun s => .raise e s

/-- The method `Map.prototype.set`. -/
def mapSet {β : Type} (m : String → Option β) (k : String) (v : β) : String → Option β :=
  fun x => if x = k then some v else m x

/-- Host call `adapter.setStateAsync(id, val, true)` issued on source line
`line` in loop iteration `idx`: the call is recorded, then it either raises or
stores the value. -/
def setStateAsync (env : Env) (line idx : Nat) (id : String) (val : JsVal) : Eff Unit := fun s =>
  let s1 := { s with writeLog := s.writeLog ++ [(id, val)] }
  match env.writeRaises line idx with
  | some e => .raise e s1
  | none => .ok () { s1 with states := mapSet s1.states id val }

/-- Host call `adapter.log.<level>(msg)`. -/
def logLine (level : LogLevel) (msg : String) (adapter : Adapter) : Adapter :=
  { adapter with logLines := adapter.logLines ++ [(level, msg)] }

/-! ## Throttled logging (main.js 68-82) -/

/-- Source: `DataSolectrus.warnOnce`. -/
def warnOnce (key msg : String) (adapter : Adapter) : Adapter :=
  let k := key
  let adapter :=
    if adapter.jsonPathWarned.length > 500 then { adapter with jsonPathWarned := [] } else adapter
  if k ∈ adapter.jsonPathWarned then adapter
  else logLine .warn msg { adapter with jsonPathWarned := adapter.jsonPathWarned ++ [k] }

/-- Source: `DataSolectrus.debugOnce`. -/
def debugOnce (key msg : String) (adapter : Adapter) : Adapter :=
  let k := key
  let adapter :=
    if adapter.debugOnceKeys.length > 500 then { adapter with debugOnceKeys := [] } else adapter
  if k ∈ adapter.debugOnceKeys then adapter
  else logLine .debug msg { adapter with debugOnceKeys := adapter.debugOnceKeys ++ [k] }

/-! ## The tick (tickRunner.js 40-172) -/

/-- Source: `stateRegistry.getItemInfoBaseId`. -/
def getItemInfoBaseId (outputId : String) : String := "items." ++ outputId

/-- Decimal rendering of a whole number inside a template string. -/
def showInt (i : Int) : String := toString i

/-- The `try` block of the loop body (lines 104-123). -/
def tickItemTry (env : Env) (snapshot : Snapshot) (item : Item) (idx : Nat)
    (targetId : String) (itemStart : Int) (itemInfoBase : String) : Eff Unit := do
  mutate (fun a => { a with evalLog := a.evalLog ++ [(item, snapshot)] })
  let raw ← await (env.computeItemValue item snapshot)
  let shaped ←
    if env.isNumericOutputItem item then await (env.applyResultRules item raw)
    else Eff.pure raw
  let value ← await (env.castValueForItemType item shaped)
  setStateAsync env 110 idx targetId value
  mutate (fun a => { a with lastGoodValue := mapSet a.lastGoodValue targetId value })
  mutate (fun a => { a with lastGoodTs := mapSet a.lastGoodTs targetId (env.now 112 idx) })
  mutate (fun a => { a with consecutiveErrorCounts := mapSet a.consecutiveErrorCounts targetId 0 })
  tryIgnore (do
    setStateAsync env 117 idx (itemInfoBase ++ ".lastOkTs") (.str (env.toISOString (env.now 117 idx)))
    setStateAsync env 118 idx (itemInfoBase ++ ".lastEvalMs") (JsVal.ofInt (env.now 118 idx - itemStart))
    setStateAsync env 119 idx (itemInfoBase ++ ".lastError") (.str "")
    setStateAsync env 120 idx (itemInfoBase ++ ".consecutiveErrors") (JsVal.ofInt 0))

/-- The `catch (e)` block of the loop body (lines 124-160). -/
def tickItemCatch (env : Env) (retriesBeforeZero : Int) (item : Item) (idx : Nat)
    (targetId : String) (itemStart : Int) (itemInfoBase : String) (e : String) : Eff Unit := do
  let name := if item.name ≠ "" then item.name else targetId
  let errMsg := e
  let msg := name ++ ": " ++ errMsg
  mutate (warnOnce ("compute_failed|" ++ targetId) ("Compute failed (will retry/keep last): " ++ msg))
  tryIgnore (setStateAsync env 130 idx "info.lastError" (.str msg))
  let a ← getAdapter
  let prev := (a.consecutiveErrorCounts targetId).getD 0
  let next := prev + 1
  mutate (fun a => { a with consecutiveErrorCounts := mapSet a.consecutiveErrorCounts targetId next })
  tryIgnore (do
    setStateAsync env 139 idx (itemInfoBase ++ ".lastError") (.str errMsg)
    setStateAsync env 140 idx (itemInfoBase ++ ".lastEvalMs") (JsVal.ofInt (env.now 140 idx - itemStart))
    setStateAsync env 141 idx (itemInfoBase ++ ".consecutiveErrors") (JsVal.ofInt next))
  let a ← getAdapter
  if (a.lastGoodValue targetId).isSome ∧ (next : Int) ≤ retriesBeforeZero then
    tryIgnore (setStateAsync env 149 idx targetId ((a.lastGoodValue targetId).getD .undefined))
  else if (next : Int) > retriesBeforeZero then
    tryIgnore (setStateAsync env 155 idx targetId (env.getZeroValueForItem item))
  else
    Eff.pure ()

/-- The loop body after the budget check (lines 98-160). -/
def tickItem (env : Env) (retriesBeforeZero : Int) (snapshot : Snapshot) (item : Item)
    (idx : Nat) : Eff Unit :=
  let targetId := env.getItemOutputId item
  if targetId = "" then Eff.pure ()
  else
    let itemStart := env.now 100 idx
    let itemInfoBase := getItemInfoBaseId targetId
    tryCatch (tickItemTry env snapshot item idx targetId itemStart itemInfoBase)
      (tickItemCatch env retriesBeforeZero item idx targetId itemStart itemInfoBase)

/-- The `for` loop over `enabledItems` (lines 87-161), entered at index `idx`
with the items from `idx` on still to do; `total` is `enabledItems.length`.
Returns the final value of `skippedItems`. -/
def tickLoop (env : Env) (start timeBudgetMs retriesBeforeZero : Int) (snapshot : Snapshot)
    (total : Nat) : Nat → List Item → Eff Int
  | _, [] => Eff.pure 0
  | idx, item :: rest =>
    if timeBudgetMs > 0 ∧ env.now 89 idx - start > timeBudgetMs then do
      let skippedItems : Int := (total : Int) - idx
      mutate (warnOnce ("tick_budget_exceeded|" ++ showInt (env.now 92 idx / 60000))
        ("Tick time budget exceeded (" ++ showInt timeBudgetMs ++ "ms). Skipping "
          ++ showInt skippedItems ++ " remaining item(s) this tick."))
      Eff.pure skippedItems
    else do
      tickItem env retriesBeforeZero snapshot item idx
      tickLoop env start timeBudgetMs retriesBeforeZero snapshot total (idx + 1) rest

/-- The array `config.items`, or the empty array when it is not one. -/
def configItems (adapter : Adapter) : List ConfigEntry :=
  match adapter.config.items with
  | some items => items
  | none => []

/-- The filter `it => it && typeof it === 'object'`. -/
def objectItems (items : List ConfigEntry) : List Item :=
  items.filterMap (fun it => match it with
    | .obj i => some i
    | .other => none)

/-- The filter `it => it && typeof it === 'object' && it.enabled`. -/
def enabledItemsOf (items : List ConfigEntry) : List Item :=
  (objectItems items).filter (fun it => it.enabled)

/-- Source: `runTick` (tickRunner.js 40-172). -/
def runTick (env : Env) : Eff Unit := do
  let adapter ← getAdapter
  let start := env.now 41 0
  let items := configItems adapter
  let enabledItems := enabledItemsOf items
  let retriesBeforeZero := getErrorRetriesBeforeZero env adapter
  let timeBudgetMs := getTickTimeBudgetMs env adapter
  tryCatch (await (env.ensureCompiledForCurrentConfig items)) (fun e => do
    let msg := e
    mutate (logLine .warn ("Prepare items failed: " ++ msg))
    tryIgnore (setStateAsync env 55 0 "info.lastError" (.str msg)))
  tryIgnore (do
    setStateAsync env 63 0 "info.itemsConfigured" (JsVal.ofInt (objectItems items).length)
    setStateAsync env 64 0 "info.itemsEnabled" (JsVal.ofInt enabledItems.length)
    setStateAsync env 65 0 "info.status"
      (.str (if enabledItems.length ≠ 0 then "ok" else "no_items_enabled"))
    setStateAsync env 66 0 "info.timeBudgetMs" (JsVal.ofInt timeBudgetMs)
    setStateAsync env 67 0 "info.skippedItems" (JsVal.ofInt 0))
  let snapshot ← tryCatch (await (env.buildSnapshotForTick items)) (fun e => do
    let msg := e
    mutate (logLine .warn ("Snapshot build failed: " ++ msg))
    tryIgnore (setStateAsync env 79 0 "info.lastError" (.str msg))
    Eff.pure [])
  mutate (fun a => { a with currentSnapshot := some snapshot })
  let skippedItems ←
    tickLoop env start timeBudgetMs retriesBeforeZero snapshot enabledItems.length 0 enabledItems
  mutate (fun a => { a with currentSnapshot := none })
  tryIgnore (do
    setStateAsync env 166 0 "info.skippedItems" (JsVal.ofInt skippedItems)
    setStateAsync env 167 0 "info.lastRun" (.str (env.toISOString (env.now 167 0)))
    setStateAsync env 168 0 "info.evalTimeMs" (JsVal.ofInt (env.now 168 0 - start)))

/-! ## The scheduler (tickRunner.js 174-194, main.js 168-179) -/

/-- The expression `interval - (now % interval)`.  The operator `%` keeps the
sign of the dividend and yields `NaN` when the divisor is zero. -/
def alignDelay (interval now : Int) : JsNum :=
  if interval = 0 then .nan else .fin ((interval - Int.tmod now interval : Int) : ℚ)

/-- Host call `clearTimeout(handle)`. -/
def clearTimeout (handle : Nat) (adapter : Adapter) : Adapter :=
  { adapter with armedTimers := adapter.armedTimers.filter (fun t => t.1 ≠ handle) }

/-- Source: `scheduleNextTick` (tickRunner.js 174-194), up to the point where
the timer is armed; the timer callback is `timerCallback`. -/
def scheduleNextTick (env : Env) (adapter : Adapter) : Adapter :=
  let adapter := { adapter with scheduleCalls := adapter.scheduleCalls + 1 }
  if adapter.isUnloading then adapter
  else
    let interval := getTickIntervalMs env adapter
    let now := env.now 177 0
    let delay := alignDelay interval now
    let adapter :=
      match adapter.tickTimer with
      | some handle => { clearTimeout handle adapter with tickTimer := none }
      | none => adapter
    let handle := adapter.nextTimerId
    { adapter with
      tickTimer := some handle
      armedTimers := adapter.armedTimers ++ [(handle, delay)]
      nextTimerId := handle + 1 }

/-- Source: `DataSolectrus.onUnload` (main.js 168-179). -/
def onUnload (adapter : Adapter) : Adapter :=
  let adapter := { adapter with isUnloading := true }
  match adapter.tickTimer with
  | some handle => { clearTimeout handle adapter with tickTimer := none }
  | none => adapter

/-- The `.catch` handler of the timer callback (lines 187-191); the state
write may raise, which the following `.finally` does not depend on. -/
def tickFailed (env : Env) (e : String) (adapter : Adapter) : Adapter :=
  let msg := e
  let adapter := logLine .error ("Tick failed: " ++ msg) adapter
  (setStateAsync env 190 0 "info.lastError" (.str msg) adapter).state

/-- What the timer callback does once the promise of `runTick` has settled as
`r` (lines 187-192): the `.catch` handler if it rejected, then `.finally`.  An
unload arriving while the tick was in flight is applied at this point; the
tick reads neither `isUnloading` nor `tickTimer`. -/
def afterTick (env : Env) (r : Res Unit) : Adapter :=
  let settled :=
    match r with
    | .ok _ s => s
    | .raise e s => tickFailed env e s
  let settled := if env.unloadDuringTick then onUnload settled else settled
  scheduleNextTick env settled

/-- The timer callback of `scheduleNextTick` (lines 185-193), run by the host
when timer `handle` expires. -/
def timerCallback (env : Env) (handle : Nat) (adapter : Adapter) : Adapter :=
  afterTick env (runTick env (clearTimeout handle adapter))

/-- What can happen to a running adapter. -/
inductive Event where
  /-- The call `scheduleNextTick(this)` at the end of `onReady`. -/
  | ready (env : Env)
  /-- The armed timer expires. -/
  | timer (env : Env)
  /-- The host unloads the adapter. -/
  | unload

/-- One event.  A timer event without an armed timer does nothing. -/
def step (adapter : Adapter) : Event → Adapter
  | .ready env => scheduleNextTick env adapter
  | .timer env =>
    match adapter.armedTimers with
    | [] => adapter
    | t :: _ => timerCallback env t.1 adapter
  | .unload => onUnload adapter

/-- A sequence of events, oldest first. -/
def runEvents (adapter : Adapter) (events : List Event) : Adapter :=
  events.foldl step adapter

/-- The ratio the budget is taken with, in the words of the specification:
`TICK_TIME_BUDGET_RATIO`, read as a number, when it is a finite number in
`(0, 1]`, else `0.8`. -/
def budgetRatio (env : Env) (adapter : Adapter) : ℚ :=
  match toNumber env.stringToNumber adapter.TICK_TIME_BUDGET_RATIO with
  | .fin q => if 0 < q ∧ q ≤ 1 then q else 4 / 5
  | _ => 4 / 5

/-- An environment in which no collaborator raises and the clock stands at
12 345 ms; the output identifier of an item is its `targetId`. -/
def quietEnv : Env where
  stringToNumber := fun _ => .nan
  now := fun _ _ => 12345
  toISOString := fun _ => "1970-01-01T00:00:12.345Z"
  writeRaises := fun _ _ => none
  ensureCompiledForCurrentConfig := fun _ => .ok ()
  buildSnapshotForTick := fun _ => .ok []
  getItemOutputId := fun it => it.targetId
  computeItemValue := fun _ _ => .ok (JsVal.ofInt 42)
  isNumericOutputItem := fun _ => false
  applyResultRules := fun _ v => .ok v
  castValueForItemType := fun _ v => .ok v
  getZeroValueForItem := fun _ => JsVal.ofInt 0
  unloadDuringTick := false

/-! ## The formula length guard (main.js 128-136) -/

/-- The functions `evalFormula` imports from `./lib/formula`; `Ast` is the
parser's tree type. -/
structure FormulaLib (Ast : Type) where
  normalizeFormulaExpression : String → String
  parseExpression : String → Except String Ast
  analyzeAst : Ast → (maxNodes maxDepth : Nat) → Except String Unit
  evalFormulaAst : Ast → List (String × JsVal) → Except String JsVal

/-- The property `.length` of a JavaScript string: UTF-16 code units. -/
def jsLength (s : String) : Nat :=
  (s.data.map (fun c => if c.val < 0x10000 then 1 else 2)).sum

/-- What a call of `evalFormula` does: the library functions it invoked after
normalisation, in order, and how it ended. -/
structure FormulaRun where
  calls : List String
  result : Except String JsVal

/-- Source: `DataSolectrus.evalFormula` (main.js 128-136). -/
def evalFormula {Ast : Type} (lib : FormulaLib Ast) (adapter : Adapter) (expr : String)
    (vars : List (String × JsVal)) : FormulaRun :=
  let normalized := lib.normalizeFormulaExpression expr
  if normalized ≠ "" ∧ jsLength normalized > adapter.MAX_FORMULA_LENGTH then
    { calls := []
      result := .error ("Formula too long (>" ++ toString adapter.MAX_FORMULA_LENGTH ++ " chars)") }
  else
    match lib.parseExpression normalized with
    | .error e => { calls := ["parseExpression"], result := .error e }
    | .ok ast =>
      match lib.analyzeAst ast adapter.MAX_AST_NODES adapter.MAX_AST_DEPTH with
      | .error e => { calls := ["parseExpression", "analyzeAst"], result := .error e }
      | .ok _ =>
        { calls := ["parseExpression", "analyzeAst", "evalFormulaAst"]
          result := lib.evalFormulaAst ast vars }

/-- A character of a word: letter, digit or underscore. -/
def isWordChar (c : Char) : Bool := c.isAlphanum || c == '_'

/-- The replacement of a whole word: `AND`, `OR`, `NOT` in any letter case
become `&&`, `||`, `!`. -/
def rewriteWord (w : List Char) : List Char :=
  let u := w.map Char.toUpper
  if u = ['A', 'N', 'D'] then ['&', '&']
  else if u = ['O', 'R'] then ['|', '|']
  else if u = ['N', 'O', 'T'] then ['!']
  else w

/-- The scan of the normaliser: `quote` is the open quote character if any,
`word` the word being read, `prev` the previous input character. -/
def normalizeChars : (quote : Option Char) → (word : List Char) → (prev : Option Char) →
    List Char → List Char
  | _, word, _, [] => rewriteWord word
  | some q, _, _, c :: cs => c :: normalizeChars (if c = q then none else some q) [] (some c) cs
  | none, word, prev, c :: cs =>
    if isWordChar c then normalizeChars none (word ++ [c]) (some c) cs
    else
      rewriteWord word ++
        (if c = Char.ofNat 34 ∨ c = Char.ofNat 39 then c :: normalizeChars (some c) [] (some c) cs
         else if c = '=' then
           if prev ∈ [some '=', some '!', some '<', some '>'] ∨ cs.head? = some '=' then
             c :: normalizeChars none [] (some c) cs
           else c :: c :: normalizeChars none [] (some c) cs
         else c :: normalizeChars none [] (some c) cs)

/-- Modelled from the spec: `normalizeFormulaExpression` of `./lib/formula`,
which is not among the sources.  Section 4.1 and the comment above
`normalizeFormulaExpression` in main.js: outside quoted string literals only,
the whole words `AND`, `OR`, `NOT` (case-insensitive) become `&&`, `||`, `!`,
and a single `=` that is not part of `==`, `!=`, `<=`, `>=` becomes `==`. -/
def specNormalize (expr : String) : String :=
  String.mk (normalizeChars none [] none expr.data)

/-- A formula library with the normaliser of the specification and a parser,
analyser and evaluator that accept everything. -/
def specFormulaLib : FormulaLib Unit where
  normalizeFormulaExpression := specNormalize
  parseExpression := fun _ => .ok ()
  analyzeAst := fun _ _ _ => .ok ()
  evalFormulaAst := fun _ _ => .ok .null

/-- A formula text of 8001 characters: `1 AND 1` followed by 7994 blanks. -/
def paddedAndFormula : String := String.mk ("1 AND 1".data ++ List.replicate 7994 ' ')

/-- A formula text of 8000 characters: `a=1` followed by 7997 blanks. -/
def paddedEqFormula : String := String.mk ("a=1".data ++ List.replicate 7997 ' ')

/-! ## Sequences of throttled log calls -/

/-- A stretch of `warnOnce(key, msg)` calls, oldest first. -/
def warnAll (calls : List (String × String)) (adapter : Adapter) : Adapter :=
  calls.foldl (fun a c => warnOnce c.1 c.2 a) adapter

/-- A stretch of `debugOnce(key, msg)` calls, oldest first. -/
def debugAll (calls : List (String × String)) (adapter : Adapter) : Adapter :=
  calls.foldl (fun a c => debugOnce c.1 c.2 a) adapter

/-- The calls of a stretch whose key was not seen before: neither in `seen`
nor in an earlier call of the stretch. -/
def firstSeen (seen : List String) : List (String × String) → List (String × String)
  | [] => []
  | c :: cs => if c.1 ∈ seen then firstSeen seen cs else c :: firstSeen (seen ++ [c.1]) cs

/-- Whether the warn key set is never cleared during a stretch of calls: at
every call it holds at most 500 keys. -/
def warnKeysKept : Adapter → List (String × String) → Bool
  | _, [] => true
  | a, c :: cs => decide (a.jsonPathWarned.length ≤ 500) && warnKeysKept (warnOnce c.1 c.2 a) cs

/-- Whether the debug key set is never cleared during a stretch of calls. -/
def debugKeysKept : Adapter → List (String × String) → Bool
  | _, [] => true
  | a, c :: cs => decide (a.debugOnceKeys.length ≤ 500) && debugKeysKept (debugOnce c.1 c.2 a) cs

/-- The key set a throttled call tests its key against: the stored set, or
the empty set when the stored one held more than 500 keys and was cleared. -/
def keysAtTest (keys : List String) : List String :=
  if keys.length > 500 then [] else keys

/-! ## Normal forms used in the proofs -/

/-- The adapter after the host recorded a state write, stored (`ok`) or not. -/
def wrote (id : String) (val : JsVal) (ok : Bool) (s : Adapter) : Adapter :=
  if ok then
    { s with writeLog := s.writeLog ++ [(id, val)], states := mapSet s.states id val }
  else { s with writeLog := s.writeLog ++ [(id, val)] }

/-- The state writes of one `try` block, each with the source line of its
call: they are issued in order until one raises. -/
def writeSeq (env : Env) (idx : Nat) : List (Nat × String × JsVal) → Eff Unit
  | [] => Eff.pure ()
  | [w] => setStateAsync env w.1 idx w.2.1 w.2.2
  | w :: rest => do
    setStateAsync env w.1 idx w.2.1 w.2.2
    writeSeq env idx rest

/-- The adapter after a `try { writes } catch { }` block. -/
def hostWrites (env : Env) (idx : Nat) : List (Nat × String × JsVal) → Adapter → Adapter
  | [], s => s
  | w :: rest, s =>
    match env.writeRaises w.1 idx with
    | some _ => wrote w.2.1 w.2.2 false s
    | none => hostWrites env idx rest (wrote w.2.1 w.2.2 true s)

/-- The value an item evaluates to: `computeItemValue`, result rules for a
numeric output, cast (lines 104-108). -/
def evalOutcome (env : Env) (item : Item) (snapshot : Snapshot) : Except String JsVal :=
  match env.computeItemValue item snapshot with
  | .error e => .error e
  | .ok raw =>
    match (if env.isNumericOutputItem item then env.applyResultRules item raw else .ok raw) with
    | .error e => .error e
    | .ok shaped => env.castValueForItemType item shaped

/-- The adapter after the `catch (e)` block of the loop body. -/
def itemFailed (env : Env) (retriesBeforeZero : Int) (item : Item) (idx : Nat)
    (targetId : String) (itemStart : Int) (e : String) (s : Adapter) : Adapter :=
  let name := if item.name ≠ "" then item.name else targetId
  let msg := name ++ ": " ++ e
  let s1 := warnOnce ("compute_failed|" ++ targetId)
    ("Compute failed (will retry/keep last): " ++ msg) s
  let s2 := hostWrites env idx [(130, "info.lastError", .str msg)] s1
  let next := (s2.consecutiveErrorCounts targetId).getD 0 + 1
  let s3 := { s2 with consecutiveErrorCounts := mapSet s2.consecutiveErrorCounts targetId next }
  let s4 := hostWrites env idx
    [(139, getItemInfoBaseId targetId ++ ".lastError", .str e),
     (140, getItemInfoBaseId targetId ++ ".lastEvalMs", JsVal.ofInt (env.now 140 idx - itemStart)),
     (141, getItemInfoBaseId targetId ++ ".consecutiveErrors", JsVal.ofInt next)] s3
  if (s4.lastGoodValue targetId).isSome ∧ (next : Int) ≤ retriesBeforeZero then
    hostWrites env idx [(149, targetId, (s4.lastGoodValue targetId).getD .undefined)] s4
  else if (next : Int) > retriesBeforeZero then
    hostWrites env idx [(155, targetId, env.getZeroValueForItem item)] s4
  else s4

/-- The adapter after the statements of the `try` block that follow a
successful write of the output (lines 111-123). -/
def itemSucceeded (env : Env) (idx : Nat) (targetId : String) (itemStart : Int)
    (value : JsVal) (s : Adapter) : Adapter :=
  hostWrites env idx
    [(117, getItemInfoBaseId targetId ++ ".lastOkTs", .str (env.toISOString (env.now 117 idx))),
     (118, getItemInfoBaseId targetId ++ ".lastEvalMs", JsVal.ofInt (env.now 118 idx - itemStart)),
     (119, getItemInfoBaseId targetId ++ ".lastError", .str ""),
     (120, getItemInfoBaseId targetId ++ ".consecutiveErrors", JsVal.ofInt 0)]
    { s with
      lastGoodValue := mapSet s.lastGoodValue targetId value
      lastGoodTs := mapSet s.lastGoodTs targetId (env.now 112 idx)
      consecutiveErrorCounts := mapSet s.consecutiveErrorCounts targetId 0 }

/-- The adapter after one pass of the loop body. -/
def itemStep (env : Env) (retriesBeforeZero : Int) (snapshot : Snapshot) (item : Item)
    (idx : Nat) (s : Adapter) : Adapter :=
  let targetId := env.getItemOutputId item
  if targetId = "" then s
  else
    let itemStart := env.now 100 idx
    let s1 := { s with evalLog := s.evalLog ++ [(item, snapshot)] }
    match evalOutcome env item snapshot with
    | .error e => itemFailed env retriesBeforeZero item idx targetId itemStart e s1
    | .ok value =>
      match env.writeRaises 110 idx with
      | some e =>
        itemFailed env retriesBeforeZero item idx targetId itemStart e (wrote targetId value false s1)
      | none => itemSucceeded env idx targetId itemStart value (wrote targetId value true s1)

/-- Whether the budget check of loop iteration `idx` (line 89) fires. -/
def budgetExceeded (env : Env) (start timeBudgetMs : Int) (idx : Nat) : Bool :=
  decide (timeBudgetMs > 0 ∧ env.now 89 idx - start > timeBudgetMs)

/-- The adapter after the loop, entered at index `idx`. -/
def loopState (env : Env) (start timeBudgetMs retriesBeforeZero : Int) (snapshot : Snapshot)
    (total : Nat) : Nat → List Item → Adapter → Adapter
  | _, [], s => s
  | idx, item :: rest, s =>
    if budgetExceeded env start timeBudgetMs idx then
      warnOnce ("tick_budget_exceeded|" ++ showInt (env.now 92 idx / 60000))
        ("Tick time budget exceeded (" ++ showInt timeBudgetMs ++ "ms). Skipping "
          ++ showInt ((total : Int) - idx) ++ " remaining item(s) this tick.") s
    else
      loopState env start timeBudgetMs retriesBeforeZero snapshot total (idx + 1) rest
        (itemStep env retriesBeforeZero snapshot item idx s)

/-- The number of items the loop reaches before the budget check fires, when
it is entered at index `idx`. -/
def reached (env : Env) (start timeBudgetMs : Int) : Nat → List Item → Nat
  | _, [] => 0
  | idx, _ :: rest =>
    if budgetExceeded env start timeBudgetMs idx then 0
    else reached env start timeBudgetMs (idx + 1) rest + 1

/-- The final value of `skippedItems`: the items not reached if the budget
check fired, else 0. -/
def skippedCount (env : Env) (start timeBudgetMs : Int) (total : Nat) : Nat → List Item → Int
  | _, [] => 0
  | idx, _ :: rest =>
    if budgetExceeded env start timeBudgetMs idx then (total : Int) - idx
    else skippedCount env start timeBudgetMs total (idx + 1) rest

/-- The snapshot a tick works with: the one built, or the empty map when
building it raised. -/
def tickSnapshot (env : Env) (adapter : Adapter) : Snapshot :=
  match env.buildSnapshotForTick (configItems adapter) with
  | .ok snapshot => snapshot
  | .error _ => []

/-- The adapter at loop entry (after lines 41-85). -/
def tickPrelude (env : Env) (s : Adapter) : Adapter :=
  let items := configItems s
  let enabledItems := enabledItemsOf items
  let timeBudgetMs := getTickTimeBudgetMs env s
  let s1 :=
    match env.ensureCompiledForCurrentConfig items with
    | .ok _ => s
    | .error e =>
      hostWrites env 0 [(55, "info.lastError", .str e)]
        (logLine .warn ("Prepare items failed: " ++ e) s)
  let s2 := hostWrites env 0
    [(63, "info.itemsConfigured", JsVal.ofInt (objectItems items).length),
     (64, "info.itemsEnabled", JsVal.ofInt enabledItems.length),
     (65, "info.status", .str (if enabledItems.length ≠ 0 then "ok" else "no_items_enabled")),
     (66, "info.timeBudgetMs", JsVal.ofInt timeBudgetMs),
     (67, "info.skippedItems", JsVal.ofInt 0)] s1
  let s3 :=
    match env.buildSnapshotForTick items with
    | .ok _ => s2
    | .error e =>
      hostWrites env 0 [(79, "info.lastError", .str e)]
        (logLine .warn ("Snapshot build failed: " ++ e) s2)
  { s3 with currentSnapshot := some (tickSnapshot env s) }

/-- The adapter after the loop of a tick. -/
def tickLoopState (env : Env) (s : Adapter) : Adapter :=
  let enabledItems := enabledItemsOf (configItems s)
  loopState env (env.now 41 0) (getTickTimeBudgetMs env s) (getErrorRetriesBeforeZero env s)
    (tickSnapshot env s) enabledItems.length 0 enabledItems (tickPrelude env s)

/-- The final value of `skippedItems` of a tick. -/
def tickSkipped (env : Env) (s : Adapter) : Int :=
  let enabledItems := enabledItemsOf (configItems s)
  skippedCount env (env.now 41 0) (getTickTimeBudgetMs env s) enabledItems.length 0 enabledItems

/-- The adapter after a tick. -/
def tickState (env : Env) (s : Adapter) : Adapter :=
  hostWrites env 0
    [(166, "info.skippedItems", JsVal.ofInt (tickSkipped env s)),
     (167, "info.lastRun", .str (env.toISOString (env.now 167 0))),
     (168, "info.evalTimeMs", JsVal.ofInt (env.now 168 0 - env.now 41 0))]
    { tickLoopState env s with currentSnapshot := none }

/-- Successive ticks, each with its own oracles, oldest first. -/
def runTicks (envs : List Env) (adapter : Adapter) : Adapter :=
  envs.foldl (fun a env => (runTick env a).state) adapter

/-- The writes of a `try { writes } catch { }` block that reach the host: all
up to and including the first that raises. -/
def issued (env : Env) (idx : Nat) : List (Nat × String × JsVal) → List (String × JsVal)
  | [] => []
  | w :: rest =>
    match env.writeRaises w.1 idx with
    | some _ => [(w.2.1, w.2.2)]
    | none => (w.2.1, w.2.2) :: issued env idx rest

/-- The state store after a `try { writes } catch { }` block. -/
def stored (env : Env) (idx : Nat) :
    List (Nat × String × JsVal) → (String → Option JsVal) → String → Option JsVal
  | [], st => st
  | w :: rest, st =>
    match env.writeRaises w.1 idx with
    | some _ => st
    | none => stored env idx rest (mapSet st w.2.1 w.2.2)

/-- The writes a tick issued: the part of the write log it appended. -/
def tickWrites (env : Env) (adapter : Adapter) : List (String × JsVal) :=
  (runTick env adapter).state.writeLog.drop adapter.writeLog.length

/-- The evaluations a tick issued: the part of the evaluation log it
appended. -/
def tickEvals (env : Env) (adapter : Adapter) : List (Item × Snapshot) :=
  (runTick env adapter).state.evalLog.drop adapter.evalLog.length

/-- The value a tick published last to identifier `id`, if any. -/
def lastPublished (env : Env) (adapter : Adapter) (id : String) : Option JsVal :=
  (((tickWrites env adapter).filter (fun w => w.1 = id)).getLast?).map (fun w => w.2)

/-- The enabled items of the adapter's configuration. -/
def enabledItems (adapter : Adapter) : List Item := enabledItemsOf (configItems adapter)

/-- The enabled items that have an output identifier, each paired with the
snapshot: the evaluations a tick issues when it reaches all of them. -/
def evalsOf (env : Env) (snapshot : Snapshot) (items : List Item) : List (Item × Snapshot) :=
  (items.filter (fun it => env.getItemOutputId it ≠ "")).map (fun it => (it, snapshot))

/-- The write of the retry policy after a failure (lines 146-159), given the
adapter before the failure was counted: the last good value while one exists
and the new count is at most the threshold, the fallback value once the new
count exceeds the threshold, else nothing. -/
def retryWrite (env : Env) (retriesBeforeZero : Int) (item : Item) (targetId : String)
    (s : Adapter) : List (String × JsVal) :=
  let next := (s.consecutiveErrorCounts targetId).getD 0 + 1
  if (s.lastGoodValue targetId).isSome ∧ (next : Int) ≤ retriesBeforeZero then
    [(targetId, (s.lastGoodValue targetId).getD .undefined)]
  else if (next : Int) > retriesBeforeZero then [(targetId, env.getZeroValueForItem item)]
  else []

/-- The metadata writes of the `catch (e)` block that precede the retry
policy (lines 130 and 139-141), as far as they reach the host. -/
def failureInfoWrites (env : Env) (item : Item) (idx : Nat) (targetId : String)
    (itemStart : Int) (e : String) (s : Adapter) : List (String × JsVal) :=
  issued env idx
      [(130, "info.lastError",
        .str ((if item.name ≠ "" then item.name else targetId) ++ ": " ++ e))]
    ++ issued env idx
      [(139, getItemInfoBaseId targetId ++ ".lastError", .str e),
       (140, getItemInfoBaseId targetId ++ ".lastEvalMs",
        JsVal.ofInt (env.now 140 idx - itemStart)),
       (141, getItemInfoBaseId targetId ++ ".consecutiveErrors",
        JsVal.ofInt (((s.consecutiveErrorCounts targetId).getD 0 + 1 : Nat) : Int))]

/-- The fields of the adapter that belong to the configuration and to the
scheduler. -/
def schedView (s : Adapter) :
    Config × JsVal × Option Nat × Bool × List (Nat × JsNum) × Nat × Nat × List String :=
  (s.config, Adapter.TICK_TIME_BUDGET_RATIO s, s.tickTimer, s.isUnloading, s.armedTimers,
    s.nextTimerId, s.scheduleCalls, s.debugOnceKeys)

/-- The runtime state of output identifier `t`: last good value, last good
timestamp, consecutive-error counter. -/
def runtimeAt (t : String) (s : Adapter) : Option JsVal × Option Int × Option Nat :=
  (s.lastGoodValue t, s.lastGoodTs t, s.consecutiveErrorCounts t)

/-! ## Sample inputs -/

/-- An environment in which every collaborator raises: the item compiler, the
snapshot builder, every evaluation and every state write. -/
def failingEnv : Env where
  stringToNumber := fun _ => .nan
  now := fun _ _ => 12345
  toISOString := fun _ => "1970-01-01T00:00:12.345Z"
  writeRaises := fun _ _ => some "write failed"
  ensureCompiledForCurrentConfig := fun _ => .error "compile failed"
  buildSnapshotForTick := fun _ => .error "read failed"
  getItemOutputId := fun it => it.targetId
  computeItemValue := fun _ _ => .error "no value"
  isNumericOutputItem := fun _ => true
  applyResultRules := fun _ v => .ok v
  castValueForItemType := fun _ v => .ok v
  getZeroValueForItem := fun _ => JsVal.ofInt 0
  unloadDuringTick := false

/-- An environment in which no collaborator raises and the clock jumps from 0
to 5000 ms before the second item is reached. -/
def slowEnv : Env where
  stringToNumber := fun _ => .nan
  now := fun line idx => if line = 89 ∧ 1 ≤ idx then 5000 else 0
  toISOString := fun _ => "1970-01-01T00:00:00.000Z"
  writeRaises := fun _ _ => none
  ensureCompiledForCurrentConfig := fun _ => .ok ()
  buildSnapshotForTick := fun _ => .ok []
  getItemOutputId := fun it => it.targetId
  computeItemValue := fun _ _ => .ok (JsVal.ofInt 42)
  isNumericOutputItem := fun _ => false
  applyResultRules := fun _ v => .ok v
  castValueForItemType := fun _ v => .ok v
  getZeroValueForItem := fun _ => JsVal.ofInt 0
  unloadDuringTick := false

/-- An enabled item with output identifier `a`. -/
def itemA : Item := { enabled := true, name := "A", targetId := "a" }

/-- An enabled item with output identifier `b`. -/
def itemB : Item := { enabled := true, name := "B", targetId := "b" }

/-- A fresh adapter configured with the items `itemA` and `itemB`, a junk
entry between them. -/
def demoAdapter : Adapter :=
  { config := { items := some [.obj itemA, .other, .obj itemB] } }

/-- An environment in which every evaluation raises and nothing else does. -/
def evalFailEnv : Env where
  stringToNumber := fun _ => .nan
  now := fun _ _ => 12345
  toISOString := fun _ => "1970-01-01T00:00:12.345Z"
  writeRaises := fun _ _ => none
  ensureCompiledForCurrentConfig := fun _ => .ok ()
  buildSnapshotForTick := fun _ => .ok []
  getItemOutputId := fun it => it.targetId
  computeItemValue := fun _ _ => .error "no value"
  isNumericOutputItem := fun _ => false
  applyResultRules := fun _ v => .ok v
  castValueForItemType := fun _ v => .ok v
  getZeroValueForItem := fun _ => JsVal.ofInt 0
  unloadDuringTick := false

/-- The sample adapter with `errorRetriesBeforeZero` set to 1. -/
def retryAdapter : Adapter :=
  { config := { items := some [.obj itemA, .other, .obj itemB],
                errorRetriesBeforeZero := .num (.fin 1) } }

/-- The timers of an adapter are in order: none is armed, or exactly one is,
and `tickTimer` holds its handle. -/
def TimersInOrder (s : Adapter) : Prop :=
  s.armedTimers = [] ∨ ∃ h d, s.armedTimers = [(h, d)] ∧ s.tickTimer = some h

/-- An adapter whose `pollIntervalSeconds` is the positive number 0.0004. -/
def tinyPollAdapter : Adapter :=
  { config := { pollIntervalSeconds := .num (.fin (1 / 2500)) } }

/-- An adapter whose warn key set holds the 501 keys `0`, ..., `500`. -/
def fullKeysAdapter : Adapter :=
  { jsonPathWarned := (List.range 501).map (fun n => toString n) }

/-- The identifiers of the aggregate metadata a tick writes. -/
def infoIds : List String :=
  ["info.lastError", "info.itemsConfigured", "info.itemsEnabled", "info.status",
    "info.timeBudgetMs", "info.skippedItems", "info.lastRun", "info.evalTimeMs"]

/-- The identifiers of the per-item metadata a tick writes for the item with
output identifier `id`. -/
def metaIdsOf (id : String) : List String :=
  [getItemInfoBaseId id ++ ".lastOkTs", getItemInfoBaseId id ++ ".lastEvalMs",
    getItemInfoBaseId id ++ ".lastError", getItemInfoBaseId id ++ ".consecutiveErrors"]

/-- Identifier `t` is none of the metadata identifiers a tick writes: neither
an aggregate one nor a per-item one of an enabled item. -/
def NoMetaClash (env : Env) (adapter : Adapter) (t : String) : Prop :=
  t ∉ infoIds ∧ ∀ it ∈ enabledItems adapter, t ∉ metaIdsOf (env.getItemOutputId it)

/-- The writes issued so far to identifier `t`. -/
def writesTo (t : String) (s : Adapter) : List (String × JsVal) :=
  s.writeLog.filter (fun w => w.1 = t)

/-- The writes a tick issued to identifier `t`. -/
def tickWritesTo (env : Env) (adapter : Adapter) (t : String) : List (String × JsVal) :=
  (tickWrites env adapter).filter (fun w => w.1 = t)

/-- An environment in which the write of an item's output (line 110) raises
and nothing else does. -/
def writeFailEnv : Env where
  stringToNumber := fun _ => .nan
  now := fun _ _ => 12345
  toISOString := fun _ => "1970-01-01T00:00:12.345Z"
  writeRaises := fun line _ => if line = 110 then some "write failed" else none
  ensureCompiledForCurrentConfig := fun _ => .ok ()
  buildSnapshotForTick := fun _ => .ok []
  getItemOutputId := fun it => it.targetId
  computeItemValue := fun _ _ => .ok (JsVal.ofInt 42)
  isNumericOutputItem := fun _ => false
  applyResultRules := fun _ v => .ok v
  castValueForItemType := fun _ v => .ok v
  getZeroValueForItem := fun _ => JsVal.ofInt 0
  unloadDuringTick := false

/-- An adapter whose configuration lists the item `itemA` twice. -/
def twiceAdapter : Adapter :=
  { config := { items := some [.obj itemA, .obj itemA] } }

/-! ## The object registry (stateRegistry.js)

The object store of the host follows the in-memory adapter of
`src/scripts/smoke-runtime.js` (lines 184-199): a `Map` from identifier to
object, whose calls do not raise.  Objects are property maps; a property holds
a primitive or again an object.  `item.type` names no inherited property of
`Object.prototype`, so that the lookup in `typeMap` sees own keys only. -/

/-- A JavaScript value inside a stored object. -/
inductive JsTree where
  | prim (v : JsVal)
  | obj (props : String → Option JsTree)

/-- A JavaScript object: own property name to value. -/
abbrev JsObject := String → Option JsTree

/-- The object store of the host. -/
abbrev ObjectStore := String → Option JsObject

/-- An object literal; the properties are listed with distinct names. -/
def objOf (props : List (String × JsTree)) : JsObject := fun k => props.lookup k

/-- Host call `setObjectNotExistsAsync` (smoke-runtime.js 184-186). -/
def setObjectNotExistsAsync (id : String) (obj : JsObject) (store : ObjectStore) : ObjectStore :=
  if (store id).isSome then store else mapSet store id obj

/-- Host call `setObjectAsync` (smoke-runtime.js 188-190). -/
def setObjectAsync (id : String) (obj : JsObject) (store : ObjectStore) : ObjectStore :=
  mapSet store id obj

/-- Host call `getObjectAsync` (smoke-runtime.js 197-199); `none` is `null`. -/
def getObjectAsync (id : String) (store : ObjectStore) : Option JsObject := store id

/-- The properties copied by `{...(v || {})}` for a property `v` that may be
absent: those of an object, the code units by index of a non-empty string,
none for any other value.  The code units of a string are a parameter. -/
def spreadOrEmpty (codeUnits : String → String → Option JsVal) : Option JsTree → JsObject
  | some (.obj props) => props
  | some (.prim (.str s)) =>
    if s = "" then fun _ => none else fun k => (codeUnits s k).map JsTree.prim
  | _ => fun _ => none

/-- The object `{...a, ...b}`. -/
def spread (a b : JsObject) : JsObject := fun k =>
  match b k with
  | some v => some v
  | none => a k

/-- The object `{ ...prev, ...obj, common: { ...(prev.common || {}),
...(obj.common || {}) } }`. -/
def extendedObject (codeUnits : String → String → Option JsVal) (prev obj : JsObject) :
    JsObject :=
  mapSet (spread prev obj) "common"
    (.obj (spread (spreadOrEmpty codeUnits (prev "common"))
      (spreadOrEmpty codeUnits (obj "common"))))

/-- Host call `extendObjectAsync` (smoke-runtime.js 192-195). -/
def extendObjectAsync (codeUnits : String → String → Option JsVal) (id : String) (obj : JsObject)
    (store : ObjectStore) : ObjectStore :=
  mapSet store id (extendedObject codeUnits ((store id).getD (fun _ => none)) obj)

/-- White space and line terminators, which `String.prototype.trim` strips. -/
def isJsSpace (c : Char) : Bool :=
  c.val = 0x09 || c.val = 0x0A || c.val = 0x0B || c.val = 0x0C || c.val = 0x0D || c.val = 0x20
    || c.val = 0xA0 || c.val = 0x1680 || (0x2000 ≤ c.val && c.val ≤ 0x200A) || c.val = 0x2028
    || c.val = 0x2029 || c.val = 0x202F || c.val = 0x205F || c.val = 0x3000 || c.val = 0xFEFF

/-- The method `String.prototype.trim`. -/
def jsTrim (s : String) : String :=
  String.mk ((s.data.dropWhile isJsSpace).reverse.dropWhile isJsSpace).reverse

/-- The channel object created for the path segment `part`. -/
def channelObject (part : String) : JsObject :=
  objOf [("type", .prim (.str "channel")),
    ("common", .obj (objOf [("name", .prim (.str part))])),
    ("native", .obj (objOf []))]

/-- The loop of `ensureChannelPath` (lines 19-26) over the segments not yet
visited, `pre` being the path built so far; the last segment gets no
channel. -/
def channelLoop : String → List String → ObjectStore → ObjectStore
  | _, [], store => store
  | _, [_], store => store
  | pre, part :: next :: rest, store =>
    channelLoop (if pre ≠ "" then pre ++ "." ++ part else part) (next :: rest)
      (setObjectNotExistsAsync (if pre ≠ "" then pre ++ "." ++ part else part)
        (channelObject part) store)

/-- Source: `ensureChannelPath` (stateRegistry.js 12-27). -/
def ensureChannelPath (id : String) (store : ObjectStore) : ObjectStore :=
  let raw := if id ≠ "" then jsTrim id else ""
  if raw = "" then store
  else
    let parts := (raw.split (fun c => c = '.')).filter (fun p => p ≠ "")
    if parts.length ≤ 1 then store else channelLoop "" parts store

/-- The object `ensureOutputState` declares for an item with output
identifier `id` (lines 43-57). -/
def outputObject (item : Item) (id : String) : JsObject :=
  objOf [("type", .prim (.str "state")),
    ("common", .obj (objOf
      [("name", .prim (.str (if item.name ≠ "" then item.name else id))),
       ("type", .prim (.str
          (if item.type ∈ ["number", "boolean", "string", "mixed"] then item.type
            else "number"))),
       ("role", .prim (.str (if item.role ≠ "" then item.role else "value"))),
       ("unit", .prim (if item.unit ≠ "" then .str item.unit else .undefined)),
       ("read", .prim (.bool true)),
       ("write", .prim (.bool false))])),
    ("native", .obj (objOf
      [("mode", .prim (.str (if item.mode ≠ "" then item.mode else "formula")))]))]

/-- Source: `ensureOutputState` (stateRegistry.js 29-65).  The output
identifier of an item is a parameter, the empty string when there is none. -/
def ensureOutputState (getItemOutputId : Item → String)
    (codeUnits : String → String → Option JsVal) (item : Item) (store : ObjectStore) :
    ObjectStore :=
  let id := getItemOutputId item
  if id = "" then store
  else
    let store1 := ensureChannelPath id store
    match getObjectAsync id store1 with
    | none => setObjectAsync id (outputObject item id) store1
    | some _ => extendObjectAsync codeUnits id (outputObject item id) store1

/-- A read-only state object with the given `common` attributes and empty
`native`; `unit` is left out when it is the empty string. -/
def infoObject (name type role unit : String) : JsObject :=
  objOf [("type", .prim (.str "state")),
    ("common", .obj (objOf
      ([("name", .prim (.str name)), ("type", .prim (.str type)), ("role", .prim (.str role)),
        ("read", .prim (.bool true)), ("write", .prim (.bool false))]
        ++ (if unit ≠ "" then [("unit", JsTree.prim (.str unit))] else [])))),
    ("native", .obj (objOf []))]

/-- A compiled item, as far as the registry reads it. -/
structure CompiledItem where
  outputId : String := ""

/-- Source: `ensureItemInfoStatesForCompiled` (stateRegistry.js 67-145);
`none` is a missing `compiled`. -/
def ensureItemInfoStatesForCompiled (compiled : Option CompiledItem) (store : ObjectStore) :
    ObjectStore :=
  match compiled with
  | none => store
  | some c =>
    if c.outputId = "" then store
    else
      let base := getItemInfoBaseId c.outputId
      let s0 := ensureChannelPath (base ++ ".compiledOk") store
      let s1 := setObjectNotExistsAsync (base ++ ".compiledOk")
        (infoObject "Compiled OK" "boolean" "indicator" "") s0
      let s2 := setObjectNotExistsAsync (base ++ ".compileError")
        (infoObject "Compile Error" "string" "text" "") s1
      let s3 := setObjectNotExistsAsync (base ++ ".lastError")
        (infoObject "Last Error" "string" "text" "") s2
      let s4 := setObjectNotExistsAsync (base ++ ".lastOkTs")
        (infoObject "Last OK Timestamp" "string" "date" "") s3
      let s5 := setObjectNotExistsAsync (base ++ ".lastEvalMs")
        (infoObject "Last Evaluation Time (ms)" "number" "value" "ms") s4
      setObjectNotExistsAsync (base ++ ".consecutiveErrors")
        (infoObject "Consecutive Errors" "number" "value" "") s5

/-- Source: `createInfoStates` (stateRegistry.js 147-253), on the object store
and the state store of the host. -/
def createInfoStates (host : ObjectStore × (String → Option JsVal)) :
    ObjectStore × (String → Option JsVal) :=
  let o1 := setObjectNotExistsAsync "info.status" (infoObject "Status" "string" "text" "") host.1
  let o2 := setObjectNotExistsAsync "info.itemsConfigured"
    (infoObject "Configured items" "number" "value" "") o1
  let o3 := setObjectNotExistsAsync "info.itemsEnabled"
    (infoObject "Enabled items" "number" "value" "") o2
  let o4 := setObjectNotExistsAsync "info.lastError"
    (infoObject "Last Error" "string" "text" "") o3
  let o5 := setObjectNotExistsAsync "info.lastRun" (infoObject "Last Run" "string" "date" "") o4
  let o6 := setObjectNotExistsAsync "info.evalTimeMs"
    (infoObject "Evaluation time (ms)" "number" "value" "") o5
  let o7 := setObjectNotExistsAsync "info.timeBudgetMs"
    (infoObject "Tick time budget (ms)" "number" "value" "ms") o6
  let o8 := setObjectNotExistsAsync "info.skippedItems"
    (infoObject "Skipped items (last tick)" "number" "value" "") o7
  let t1 := mapSet host.2 "info.status" (.str "starting")
  let t2 := mapSet t1 "info.itemsConfigured" (JsVal.ofInt 0)
  let t3 := mapSet t2 "info.itemsEnabled" (JsVal.ofInt 0)
  let t4 := mapSet t3 "info.lastError" (.str "")
  let t5 := mapSet t4 "info.lastRun" (.str "")
  let t6 := mapSet t5 "info.evalTimeMs" (JsVal.ofInt 0)
  let t7 := mapSet t6 "info.timeBudgetMs" (JsVal.ofInt 0)
  (o8, mapSet t7 "info.skippedItems" (JsVal.ofInt 0))

/-- A list of `setObjectNotExistsAsync` calls, applied in order. -/
def applyOps (ops : List (String × JsObject)) (store : ObjectStore) : ObjectStore :=
  ops.foldl (fun st op => setObjectNotExistsAsync op.1 op.2 st) store

/-- The calls `channelLoop` makes. -/
def channelOps : String → List String → List (String × JsObject)
  | _, [] => []
  | _, [_] => []
  | pre, part :: next :: rest =>
    (if pre ≠ "" then pre ++ "." ++ part else part, channelObject part)
      :: channelOps (if pre ≠ "" then pre ++ "." ++ part else part) (next :: rest)

/-- The calls `ensureChannelPath` makes. -/
def pathOps (id : String) : List (String × JsObject) :=
  let raw := if id ≠ "" then jsTrim id else ""
  if raw = "" then []
  else
    let parts := (raw.split (fun c => c = '.')).filter (fun p => p ≠ "")
    if parts.length ≤ 1 then [] else channelOps "" parts

/-- The calls of `ensureItemInfoStatesForCompiled` that follow the channel
path, for the base identifier `base`. -/
def itemInfoOps (base : String) : List (String × JsObject) :=
  [(base ++ ".compiledOk", infoObject "Compiled OK" "boolean" "indicator" ""),
   (base ++ ".compileError", infoObject "Compile Error" "string" "text" ""),
   (base ++ ".lastError", infoObject "Last Error" "string" "text" ""),
   (base ++ ".lastOkTs", infoObject "Last OK Timestamp" "string" "date" ""),
   (base ++ ".lastEvalMs", infoObject "Last Evaluation Time (ms)" "number" "value" "ms"),
   (base ++ ".consecutiveErrors", infoObject "Consecutive Errors" "number" "value" "")]

/-- The object creations of `createInfoStates`. -/
def infoOps : List (String × JsObject) :=
  [("info.status", infoObject "Status" "string" "text" ""),
   ("info.itemsConfigured", infoObject "Configured items" "number" "value" ""),
   ("info.itemsEnabled", infoObject "Enabled items" "number" "value" ""),
   ("info.lastError", infoObject "Last Error" "string" "text" ""),
   ("info.lastRun", infoObject "Last Run" "string" "date" ""),
   ("info.evalTimeMs", infoObject "Evaluation time (ms)" "number" "value" ""),
   ("info.timeBudgetMs", infoObject "Tick time budget (ms)" "number" "value" "ms"),
   ("info.skippedItems", infoObject "Skipped items (last tick)" "number" "value" "")]

/-! ## The evaluator, modelled from the specification

The modules `evaluator`, `itemIds`, `snapshot` and `lib/formula` are not part
of the sources at hand.  What the tick of the simulation
(`src/scripts/check-simulate-30s.js`) needs of them is modelled from sections
3, 4.2, 4.4, 4.7 and 4.8 of the specification: formulas that are sums of input
names, inputs read once per tick into the snapshot, no live cache. -/

/-- Modelled from the spec: the resolved output identifier of an item is its
group and its output id fragment joined by a dot (section 3; the simulation
reads `house.power` for group `house` and fragment `power`), the fragment
alone when there is no group, and none when there is no fragment. -/
def specOutputId (item : Item) : String :=
  if item.targetId = "" then ""
  else if item.group = "" then item.targetId
  else item.group ++ "." ++ item.targetId

/-- Modelled from the spec: the AST nodes of section 3 that a sum of input
names needs, identifier reference and binary `+`. -/
inductive SumExpr where
  | ident (name : String)
  | add (l r : SumExpr)
deriving DecidableEq

/-- The pieces of a character list between occurrences of `sep`. -/
def splitAtChar (sep : Char) : List Char → List (List Char)
  | [] => [[]]
  | c :: cs =>
    if c = sep then [] :: splitAtChar sep cs
    else
      match splitAtChar sep cs with
      | [] => [[c]]
      | seg :: segs => (c :: seg) :: segs

/-- Modelled from the spec: an identifier token of section 4.2, with the
white space around it skipped: a letter or underscore followed by letters,
digits and underscores. -/
def parseIdent (cs : List Char) : Except String SumExpr :=
  match ((cs.dropWhile Char.isWhitespace).reverse.dropWhile Char.isWhitespace).reverse with
  | [] => .error "ParseError: unterminated expression"
  | c :: rest =>
    if (c.isAlpha || c == '_') && rest.all isWordChar then .ok (.ident (String.mk (c :: rest)))
    else .error "ParseError: unexpected token"

/-- Modelled from the spec: the parser of section 4.2 on the fragment of its
grammar made of identifiers joined by `+`, which associates to the left. -/
def parseSum (formula : String) : Except String SumExpr :=
  match splitAtChar '+' formula.data with
  | [] => .error "ParseError: unterminated expression"
  | first :: more =>
    more.foldl
      (fun acc seg =>
        match acc, parseIdent seg with
        | .ok l, .ok r => .ok (.add l r)
        | .error e, _ => .error e
        | _, .error e => .error e)
      (parseIdent first)

/-- Modelled from the spec: the coercion of an operand by a numeric operator
(section 4.4): its numeric reading, and the fallback zero when that is not
finite. -/
def finiteOrZero (stringToNumber : String → JsNum) (v : JsVal) : ℚ :=
  match toNumber stringToNumber v with
  | .fin q => q
  | _ => 0

/-- Modelled from the spec: the evaluator of section 4.4 on sums: an
identifier is looked up in the binding table and fails when unbound, `+` adds
the coerced operands. -/
def evalSum (stringToNumber : String → JsNum) (vars : List (String × JsVal)) :
    SumExpr → Except String JsVal
  | .ident name =>
    match vars.lookup name with
    | some v => .ok v
    | none => .error ("UnboundVariableError: " ++ name)
  | .add l r =>
    match evalSum stringToNumber vars l, evalSum stringToNumber vars r with
    | .ok a, .ok b =>
      .ok (.num (.fin (finiteOrZero stringToNumber a + finiteOrZero stringToNumber b)))
    | .error e, _ => .error e
    | _, .error e => .error e

/-- Modelled from the spec: the binding of one named input (sections 3, 4.4
and 4.8): the numeric value of its identifier in the snapshot, zero when it is
absent, clamped to zero from below when the input carries the no-negative
flag. -/
def specBindInput (stringToNumber : String → JsNum) (snapshot : Snapshot) (input : ItemInput) :
    String × JsVal :=
  let q := finiteOrZero stringToNumber ((snapshot.lookup input.sourceState).getD .undefined)
  (input.key, .num (.fin (if input.noNegative then max 0 q else q)))

/-- Modelled from the spec: the evaluation of a formula item (section 4.8):
the inputs are bound, no-negative inputs clamped, then the formula runs. -/
def specComputeItemValue (stringToNumber : String → JsNum) (item : Item) (snapshot : Snapshot) :
    Except String JsVal :=
  match parseSum item.formula with
  | .error e => .error e
  | .ok ast => evalSum stringToNumber (item.inputs.map (specBindInput stringToNumber snapshot)) ast

/-- Modelled from the spec: output shaping (section 4.8): the non-negative
clamp, then the hard clamp to `min` and `max` where these are finite numbers,
in that order. -/
def specApplyResultRules (stringToNumber : String → JsNum) (item : Item) (raw : JsVal) :
    Except String JsVal :=
  let q := finiteOrZero stringToNumber raw
  let q1 := if item.noNegative then max 0 q else q
  let q2 :=
    if item.clamp then
      match toNumber stringToNumber item.min with
      | .fin lo => max lo q1
      | _ => q1
    else q1
  let q3 :=
    if item.clamp then
      match toNumber stringToNumber item.max with
      | .fin hi => min hi q2
      | _ => q2
    else q2
  .ok (.num (.fin q3))

/-- Modelled from the spec: the input identifiers of the enabled items, each
once (section 4.7). -/
def specInputIds (items : List ConfigEntry) : List String :=
  ((enabledItemsOf items).flatMap (fun it => it.inputs.map (fun i => i.sourceState))).dedup

/-- Modelled from the spec: the snapshot builder of section 4.7: every input
identifier of an enabled item is read once; an identifier whose read yields
nothing is absent from the snapshot. -/
def specBuildSnapshot (read : String → Option JsVal) (items : List ConfigEntry) : Snapshot :=
  (specInputIds items).filterMap (fun id => (read id).map (fun v => (id, v)))

/-- Modelled from the spec: the oracles of a tick whose evaluator, snapshot
builder and output identifiers are the ones modelled above; the clock, the
outcome of state writes and the item compiler are those of `base`, and `read`
is the point read of the host. -/
def specEnv (base : Env) (read : String → Option JsVal) : Env :=
  { base with
    buildSnapshotForTick := fun items => .ok (specBuildSnapshot read items)
    getItemOutputId := specOutputId
    computeItemValue := specComputeItemValue base.stringToNumber
    isNumericOutputItem := fun it => it.type = "number" ∨ it.type = ""
    applyResultRules := specApplyResultRules base.stringToNumber
    castValueForItemType := fun _ v => .ok v }

/-- The item `PV-Gesamt` of the simulation (check-simulate-30s.js 203-220). -/
def pvItem : Item :=
  { enabled := true, name := "PV-Gesamt", group := "pv", targetId := "power", mode := "formula",
    inputs := [{ key := "Enpal", sourceState := "src.enpal", noNegative := true },
               { key := "Zendure", sourceState := "src.zendure" },
               { key := "BKW", sourceState := "src.bkw" }],
    formula := "Enpal + Zendure + BKW", type := "number", role := "value.power", unit := "W",
    noNegative := true, clamp := false }

/-- The item `Hausverbrauch` of the simulation (check-simulate-30s.js
221-243). -/
def houseItem : Item :=
  { enabled := true, name := "Hausverbrauch", group := "house", targetId := "power",
    mode := "formula",
    inputs := [{ key := "Enpal", sourceState := "src.enpal", noNegative := true },
               { key := "Zendure", sourceState := "src.zendure" },
               { key := "BKW", sourceState := "src.bkw" },
               { key := "Lesekopf", sourceState := "src.gridSigned" }],
    formula := "Enpal + Zendure + BKW + Lesekopf", type := "number", role := "value.power",
    unit := "W", noNegative := true, clamp := true,
    min := .num (.fin 0), max := .num (.fin 20000) }

/-- The adapter of the simulation (check-simulate-30s.js 27-37, 201-244). -/
def simAdapter : Adapter :=
  { config := { pollIntervalSeconds := .num (.fin 5), errorRetriesBeforeZero := .num (.fin 0),
                items := some [.obj pvItem, .obj houseItem] } }

/-- The point read of the simulation for one tick (check-simulate-30s.js
254-267). -/
def simRead (enpal zendure bkw gridSigned : ℚ) (id : String) : Option JsVal :=
  if id = "src.enpal" then some (.num (.fin enpal))
  else if id = "src.zendure" then some (.num (.fin zendure))
  else if id = "src.bkw" then some (.num (.fin bkw))
  else if id = "src.gridSigned" then some (.num (.fin gridSigned))
  else some (.num (.fin 0))

/-! # Properties -/

/-! ## Async bodies: sequencing laws -/

theorem bind_run {α β : Type} (x : Eff α) (f : α → Eff β) (s : Adapter) :
    (x >>= f) s = match x s with
      | .ok a s1 => f a s1
      | .raise e s1 => .raise e s1 := rfl

theorem pure_run {α : Type} (a : α) (s : Adapter) : (pure a : Eff α) s = .ok a s := rfl

/-- A body that never raises. -/
theorem total_pure {α : Type} (a : α) (s : Adapter) : ((Eff.pure a : Eff α) s).isOk = true := rfl

theorem isOk_bind {α β : Type} {x : Eff α} {f : α → Eff β}
    (hx : ∀ s, (x s).isOk = true) (hf : ∀ a s, (f a s).isOk = true) (s : Adapter) :
    ((x >>= f) s).isOk = true := by
  rw [bind_run]
  have := hx s
  cases h : x s with
  | ok a s1 => exact hf a s1
  | raise e s1 => rw [h] at this; exact absurd this (by simp [Res.isOk])

theorem isOk_tryCatch {α : Type} (body : Eff α) {handler : String → Eff α}
    (hh : ∀ e s, (handler e s).isOk = true) (s : Adapter) :
    (tryCatch body handler s).isOk = true := by
  unfold tryCatch
  cases h : body s with
  | ok a s1 => rfl
  | raise e s1 => exact hh e s1

theorem isOk_tryIgnore (body : Eff Unit) (s : Adapter) : (tryIgnore body s).isOk = true :=
  @isOk_tryCatch Unit body (fun _ => Eff.pure ()) (fun _ s1 => total_pure () s1) s

theorem isOk_mutate (f : Adapter → Adapter) (s : Adapter) : (mutate f s).isOk = true := rfl

theorem isOk_getAdapter (s : Adapter) : (getAdapter s).isOk = true := rfl

theorem isOk_tickItemCatch (env : Env) (retries : Int) (item : Item) (idx : Nat)
    (targetId : String) (itemStart : Int) (base e : String) (s : Adapter) :
    (tickItemCatch env retries item idx targetId itemStart base e s).isOk = true := by
  unfold tickItemCatch
  refine isOk_bind (isOk_mutate _) (fun _ => ?_) s
  refine isOk_bind (isOk_tryIgnore _) (fun _ => ?_)
  refine isOk_bind isOk_getAdapter (fun a => ?_)
  refine isOk_bind (isOk_mutate _) (fun _ => ?_)
  refine isOk_bind (isOk_tryIgnore _) (fun _ => ?_)
  refine isOk_bind isOk_getAdapter (fun a2 => ?_)
  intro s2
  dsimp only
  split
  · exact isOk_tryIgnore _ _
  · split
    · exact isOk_tryIgnore _ _
    · rfl

theorem isOk_tickItem (env : Env) (retries : Int) (snapshot : Snapshot) (item : Item)
    (idx : Nat) (s : Adapter) : (tickItem env retries snapshot item idx s).isOk = true := by
  unfold tickItem
  dsimp only
  split
  · rfl
  · exact isOk_tryCatch _ (fun e s1 => isOk_tickItemCatch env retries item idx _ _ _ e s1) s

theorem isOk_tickLoop (env : Env) (start budget retries : Int) (snapshot : Snapshot)
    (total : Nat) (items : List Item) (idx : Nat) (s : Adapter) :
    (tickLoop env start budget retries snapshot total idx items s).isOk = true := by
  induction items generalizing idx s with
  | nil => rfl
  | cons item rest ih =>
    unfold tickLoop
    split
    · exact isOk_bind (isOk_mutate _) (fun _ s1 => total_pure _ s1) s
    · exact isOk_bind (isOk_tickItem env retries snapshot item idx) (fun _ s1 => ih (idx + 1) s1) s

theorem isOk_runTick (env : Env) (s : Adapter) : (runTick env s).isOk = true := by
  unfold runTick
  refine isOk_bind isOk_getAdapter (fun a => ?_) s
  dsimp only
  refine isOk_bind (isOk_tryCatch _ (fun e => ?_)) (fun _ => ?_)
  · exact isOk_bind (isOk_mutate _) (fun _ => isOk_tryIgnore _)
  refine isOk_bind (isOk_tryIgnore _) (fun _ => ?_)
  refine isOk_bind (isOk_tryCatch _ (fun e => ?_)) (fun snapshot => ?_)
  · refine isOk_bind (isOk_mutate _) (fun _ => ?_)
    exact isOk_bind (isOk_tryIgnore _) (fun _ s1 => total_pure _ s1)
  refine isOk_bind (isOk_mutate _) (fun _ => ?_)
  refine isOk_bind (isOk_tickLoop env _ _ _ _ _ _ _) (fun skipped => ?_)
  refine isOk_bind (isOk_mutate _) (fun _ => ?_)
  exact isOk_tryIgnore _

/-! ## Normal forms -/

theorem setStateAsync_run (env : Env) (line idx : Nat) (id : String) (val : JsVal)
    (s : Adapter) :
    setStateAsync env line idx id val s
      = match env.writeRaises line idx with
        | some e => .raise e (wrote id val false s)
        | none => .ok () (wrote id val true s) := by
  unfold setStateAsync wrote
  cases env.writeRaises line idx <;> rfl

theorem tryIgnore_writeSeq (env : Env) (idx : Nat) (ws : List (Nat × String × JsVal))
    (s : Adapter) : tryIgnore (writeSeq env idx ws) s = .ok () (hostWrites env idx ws s) := by
  induction ws generalizing s with
  | nil => rfl
  | cons w rest ih =>
    cases rest with
    | nil =>
      simp only [tryIgnore, tryCatch, writeSeq, hostWrites, setStateAsync_run]
      cases env.writeRaises w.1 idx <;> rfl
    | cons w2 rest2 =>
      have ih2 := ih (wrote w.2.1 w.2.2 true s)
      simp only [tryIgnore, tryCatch] at ih2 ⊢
      have hw : writeSeq env idx (w :: w2 :: rest2)
          = (setStateAsync env w.1 idx w.2.1 w.2.2 >>= fun _ => writeSeq env idx (w2 :: rest2)) :=
        rfl
      rw [hw, hostWrites, bind_run, setStateAsync_run]
      cases env.writeRaises w.1 idx with
      | some e => rfl
      | none => exact ih2

theorem tryIgnore_write1 (env : Env) (idx l : Nat) (id : String) (v : JsVal) (s : Adapter) :
    tryIgnore (setStateAsync env l idx id v) s = .ok () (hostWrites env idx [(l, id, v)] s) :=
  tryIgnore_writeSeq env idx [(l, id, v)] s

theorem tryIgnore_write3 (env : Env) (idx l1 l2 l3 : Nat) (id1 id2 id3 : String)
    (v1 v2 v3 : JsVal) (s : Adapter) :
    tryIgnore (do
        setStateAsync env l1 idx id1 v1
        setStateAsync env l2 idx id2 v2
        setStateAsync env l3 idx id3 v3) s
      = .ok () (hostWrites env idx [(l1, id1, v1), (l2, id2, v2), (l3, id3, v3)] s) :=
  tryIgnore_writeSeq env idx [(l1, id1, v1), (l2, id2, v2), (l3, id3, v3)] s

theorem tryIgnore_write4 (env : Env) (idx l1 l2 l3 l4 : Nat) (id1 id2 id3 id4 : String)
    (v1 v2 v3 v4 : JsVal) (s : Adapter) :
    tryIgnore (do
        setStateAsync env l1 idx id1 v1
        setStateAsync env l2 idx id2 v2
        setStateAsync env l3 idx id3 v3
        setStateAsync env l4 idx id4 v4) s
      = .ok () (hostWrites env idx
          [(l1, id1, v1), (l2, id2, v2), (l3, id3, v3), (l4, id4, v4)] s) :=
  tryIgnore_writeSeq env idx [(l1, id1, v1), (l2, id2, v2), (l3, id3, v3), (l4, id4, v4)] s

theorem tryIgnore_write5 (env : Env) (idx l1 l2 l3 l4 l5 : Nat) (id1 id2 id3 id4 id5 : String)
    (v1 v2 v3 v4 v5 : JsVal) (s : Adapter) :
    tryIgnore (do
        setStateAsync env l1 idx id1 v1
        setStateAsync env l2 idx id2 v2
        setStateAsync env l3 idx id3 v3
        setStateAsync env l4 idx id4 v4
        setStateAsync env l5 idx id5 v5) s
      = .ok () (hostWrites env idx
          [(l1, id1, v1), (l2, id2, v2), (l3, id3, v3), (l4, id4, v4), (l5, id5, v5)] s) :=
  tryIgnore_writeSeq env idx
    [(l1, id1, v1), (l2, id2, v2), (l3, id3, v3), (l4, id4, v4), (l5, id5, v5)] s

theorem tickItemCatch_eq (env : Env) (retries : Int) (item : Item) (idx : Nat)
    (targetId : String) (itemStart : Int) (e : String) (s : Adapter) :
    tickItemCatch env retries item idx targetId itemStart (getItemInfoBaseId targetId) e s
      = .ok () (itemFailed env retries item idx targetId itemStart e s) := by
  unfold tickItemCatch itemFailed
  simp only [bind_run, mutate, getAdapter, tryIgnore_write1, tryIgnore_write3]
  split_ifs <;> first | rfl | exact tryIgnore_write1 _ _ _ _ _ _

theorem effPure_run {α : Type} (a : α) (s : Adapter) : (Eff.pure a : Eff α) s = .ok a s := rfl

theorem await_ok {α : Type} (a : α) (s : Adapter) :
    (await (.ok a) : Eff α) s = .ok a s := rfl

theorem await_error {α : Type} (e : String) (s : Adapter) :
    (await (.error e) : Eff α) s = .raise e s := rfl

theorem tickItemTry_eq (env : Env) (snapshot : Snapshot) (item : Item) (idx : Nat)
    (targetId : String) (itemStart : Int) (s : Adapter) :
    tickItemTry env snapshot item idx targetId itemStart (getItemInfoBaseId targetId) s
      = match evalOutcome env item snapshot with
        | .error e => .raise e { s with evalLog := s.evalLog ++ [(item, snapshot)] }
        | .ok value =>
          match env.writeRaises 110 idx with
          | some e =>
            .raise e (wrote targetId value false
              { s with evalLog := s.evalLog ++ [(item, snapshot)] })
          | none =>
            .ok () (itemSucceeded env idx targetId itemStart value
              (wrote targetId value true
                { s with evalLog := s.evalLog ++ [(item, snapshot)] })) := by
  unfold tickItemTry evalOutcome itemSucceeded
  cases hc : env.computeItemValue item snapshot with
  | error e =>
    simp only [bind_run, mutate, tryIgnore_write4, setStateAsync_run, effPure_run, await_ok,
      await_error, Bool.false_eq_true, if_false, if_true]
  | ok raw =>
    cases hn : env.isNumericOutputItem item
    · cases hcast : env.castValueForItemType item raw with
      | error e =>
        simp only [bind_run, mutate, tryIgnore_write4, setStateAsync_run, effPure_run, await_ok,
          await_error, Bool.false_eq_true, if_false, if_true, hcast]
      | ok value =>
        simp only [bind_run, mutate, tryIgnore_write4, setStateAsync_run, effPure_run, await_ok,
          await_error, Bool.false_eq_true, if_false, if_true, hcast]
        cases env.writeRaises 110 idx <;> rfl
    · cases happly : env.applyResultRules item raw with
      | error e =>
        simp only [bind_run, mutate, tryIgnore_write4, setStateAsync_run, effPure_run, await_ok,
          await_error, Bool.false_eq_true, if_false, if_true, happly]
      | ok shaped =>
        cases hcast : env.castValueForItemType item shaped with
        | error e =>
          simp only [bind_run, mutate, tryIgnore_write4, setStateAsync_run, effPure_run, await_ok,
            await_error, Bool.false_eq_true, if_false, if_true, happly, hcast]
        | ok value =>
          simp only [bind_run, mutate, tryIgnore_write4, setStateAsync_run, effPure_run, await_ok,
            await_error, Bool.false_eq_true, if_false, if_true, happly, hcast]
          cases env.writeRaises 110 idx <;> rfl

theorem tickItem_eq (env : Env) (retries : Int) (snapshot : Snapshot) (item : Item)
    (idx : Nat) (s : Adapter) :
    tickItem env retries snapshot item idx s
      = .ok () (itemStep env retries snapshot item idx s) := by
  unfold tickItem itemStep
  dsimp only
  split
  · rfl
  · simp only [tryCatch, tickItemTry_eq]
    cases evalOutcome env item snapshot with
    | error e => exact tickItemCatch_eq env retries item idx _ _ e _
    | ok value =>
      cases env.writeRaises 110 idx with
      | some e => exact tickItemCatch_eq env retries item idx _ _ e _
      | none => rfl

theorem tickLoop_eq (env : Env) (start budget retries : Int) (snapshot : Snapshot)
    (total : Nat) (items : List Item) (idx : Nat) (s : Adapter) :
    tickLoop env start budget retries snapshot total idx items s
      = .ok (skippedCount env start budget total idx items)
          (loopState env start budget retries snapshot total idx items s) := by
  induction items generalizing idx s with
  | nil => rfl
  | cons item rest ih =>
    unfold tickLoop skippedCount loopState budgetExceeded
    by_cases h : budget > 0 ∧ env.now 89 idx - start > budget
    · simp only [h, and_self, if_true, decide_True]
      rfl
    · simp only [h, if_false, decide_False, Bool.false_eq_true, bind_run, tickItem_eq]
      exact ih (idx + 1) _

theorem runTick_eq (env : Env) (s : Adapter) : runTick env s = .ok () (tickState env s) := by
  unfold runTick tickState tickLoopState tickSkipped tickPrelude tickSnapshot
  simp only [bind_run, getAdapter, mutate, tryCatch, tryIgnore_write1, tryIgnore_write3,
    tryIgnore_write5, tickLoop_eq]
  cases env.ensureCompiledForCurrentConfig (configItems s) <;>
    cases env.buildSnapshotForTick (configItems s) <;> rfl

theorem runTick_state (env : Env) (s : Adapter) : (runTick env s).state = tickState env s := by
  rw [runTick_eq]
  rfl

theorem hostWrites_eq (env : Env) (idx : Nat) (ws : List (Nat × String × JsVal)) (s : Adapter) :
    hostWrites env idx ws s
      = { s with
          writeLog := s.writeLog ++ issued env idx ws
          states := stored env idx ws s.states } := by
  induction ws generalizing s with
  | nil => simp [hostWrites, issued, stored]
  | cons w rest ih =>
    unfold hostWrites issued stored
    cases env.writeRaises w.1 idx with
    | some e => simp [wrote]
    | none => simp [ih, wrote]

theorem warnOnce_eq (k m : String) (s : Adapter) :
    warnOnce k m s
      = { s with
          jsonPathWarned := (warnOnce k m s).jsonPathWarned
          logLines := (warnOnce k m s).logLines } := by
  unfold warnOnce logLine
  by_cases h : s.jsonPathWarned.length > 500 <;> simp only [h, if_true, if_false] <;>
    split <;> rfl

@[simp]
theorem warnOnce_config (k m : String) (s : Adapter) :
    Adapter.config (warnOnce k m s) = Adapter.config s := by
  rw [warnOnce_eq]

@[simp]
theorem warnOnce_TICK_TIME_BUDGET_RATIO (k m : String) (s : Adapter) :
    Adapter.TICK_TIME_BUDGET_RATIO (warnOnce k m s) = Adapter.TICK_TIME_BUDGET_RATIO s := by
  rw [warnOnce_eq]

@[simp]
theorem warnOnce_lastGoodValue (k m : String) (s : Adapter) :
    Adapter.lastGoodValue (warnOnce k m s) = Adapter.lastGoodValue s := by
  rw [warnOnce_eq]

@[simp]
theorem warnOnce_lastGoodTs (k m : String) (s : Adapter) :
    Adapter.lastGoodTs (warnOnce k m s) = Adapter.lastGoodTs s := by
  rw [warnOnce_eq]

@[simp]
theorem warnOnce_consecutiveErrorCounts (k m : String) (s : Adapter) :
    Adapter.consecutiveErrorCounts (warnOnce k m s) = Adapter.consecutiveErrorCounts s := by
  rw [warnOnce_eq]

@[simp]
theorem warnOnce_currentSnapshot (k m : String) (s : Adapter) :
    Adapter.currentSnapshot (warnOnce k m s) = Adapter.currentSnapshot s := by
  rw [warnOnce_eq]

@[simp]
theorem warnOnce_tickTimer (k m : String) (s : Adapter) :
    Adapter.tickTimer (warnOnce k m s) = Adapter.tickTimer s := by
  rw [warnOnce_eq]

@[simp]
theorem warnOnce_isUnloading (k m : String) (s : Adapter) :
    Adapter.isUnloading (warnOnce k m s) = Adapter.isUnloading s := by
  rw [warnOnce_eq]

@[simp]
theorem warnOnce_debugOnceKeys (k m : String) (s : Adapter) :
    Adapter.debugOnceKeys (warnOnce k m s) = Adapter.debugOnceKeys s := by
  rw [warnOnce_eq]

@[simp]
theorem warnOnce_states (k m : String) (s : Adapter) :
    Adapter.states (warnOnce k m s) = Adapter.states s := by
  rw [warnOnce_eq]

@[simp]
theorem warnOnce_writeLog (k m : String) (s : Adapter) :
    Adapter.writeLog (warnOnce k m s) = Adapter.writeLog s := by
  rw [warnOnce_eq]

@[simp]
theorem warnOnce_evalLog (k m : String) (s : Adapter) :
    Adapter.evalLog (warnOnce k m s) = Adapter.evalLog s := by
  rw [warnOnce_eq]

@[simp]
theorem warnOnce_armedTimers (k m : String) (s : Adapter) :
    Adapter.armedTimers (warnOnce k m s) = Adapter.armedTimers s := by
  rw [warnOnce_eq]

@[simp]
theorem warnOnce_nextTimerId (k m : String) (s : Adapter) :
    Adapter.nextTimerId (warnOnce k m s) = Adapter.nextTimerId s := by
  rw [warnOnce_eq]

@[simp]
theorem warnOnce_scheduleCalls (k m : String) (s : Adapter) :
    Adapter.scheduleCalls (warnOnce k m s) = Adapter.scheduleCalls s := by
  rw [warnOnce_eq]

theorem issued_single (env : Env) (idx : Nat) (w : Nat × String × JsVal) :
    issued env idx [w] = [(w.2.1, w.2.2)] := by
  unfold issued
  cases env.writeRaises w.1 idx <;> rfl

theorem itemFailed_writeLog (env : Env) (retries : Int) (item : Item) (idx : Nat)
    (targetId : String) (itemStart : Int) (e : String) (s : Adapter) :
    (itemFailed env retries item idx targetId itemStart e s).writeLog
      = s.writeLog ++ failureInfoWrites env item idx targetId itemStart e s
          ++ retryWrite env retries item targetId s := by
  unfold itemFailed retryWrite failureInfoWrites
  simp only [hostWrites_eq, warnOnce_lastGoodValue, warnOnce_consecutiveErrorCounts,
    warnOnce_writeLog]
  split_ifs <;> simp [issued_single, List.append_assoc]

theorem itemFailed_counts (env : Env) (retries : Int) (item : Item) (idx : Nat)
    (targetId : String) (itemStart : Int) (e : String) (s : Adapter) :
    (itemFailed env retries item idx targetId itemStart e s).consecutiveErrorCounts
      = mapSet s.consecutiveErrorCounts targetId
          ((s.consecutiveErrorCounts targetId).getD 0 + 1) := by
  unfold itemFailed
  simp only [hostWrites_eq, warnOnce_lastGoodValue, warnOnce_consecutiveErrorCounts]
  split_ifs <;> rfl

theorem itemFailed_lastGoodValue (env : Env) (retries : Int) (item : Item) (idx : Nat)
    (targetId : String) (itemStart : Int) (e : String) (s : Adapter) :
    (itemFailed env retries item idx targetId itemStart e s).lastGoodValue = s.lastGoodValue := by
  unfold itemFailed
  simp only [hostWrites_eq, warnOnce_lastGoodValue, warnOnce_consecutiveErrorCounts]
  split_ifs <;> simp

theorem itemFailed_lastGoodTs (env : Env) (retries : Int) (item : Item) (idx : Nat)
    (targetId : String) (itemStart : Int) (e : String) (s : Adapter) :
    (itemFailed env retries item idx targetId itemStart e s).lastGoodTs = s.lastGoodTs := by
  unfold itemFailed
  simp only [hostWrites_eq, warnOnce_lastGoodValue, warnOnce_consecutiveErrorCounts]
  split_ifs <;> simp

theorem itemFailed_evalLog (env : Env) (retries : Int) (item : Item) (idx : Nat)
    (targetId : String) (itemStart : Int) (e : String) (s : Adapter) :
    (itemFailed env retries item idx targetId itemStart e s).evalLog = s.evalLog := by
  unfold itemFailed
  simp only [hostWrites_eq, warnOnce_lastGoodValue, warnOnce_consecutiveErrorCounts]
  split_ifs <;> simp

theorem mapSet_same {β : Type} (m : String → Option β) (k : String) (v : β) :
    mapSet m k v k = some v := by
  simp [mapSet]

theorem mapSet_other {β : Type} (m : String → Option β) {k t : String} (v : β) (h : t ≠ k) :
    mapSet m k v t = m t := by
  simp [mapSet, h]

theorem itemFailed_schedView (env : Env) (retries : Int) (item : Item) (idx : Nat)
    (targetId : String) (itemStart : Int) (e : String) (s : Adapter) :
    schedView (itemFailed env retries item idx targetId itemStart e s) = schedView s := by
  unfold itemFailed
  simp only [hostWrites_eq, warnOnce_lastGoodValue, warnOnce_consecutiveErrorCounts]
  split_ifs <;> simp [schedView]

theorem itemSucceeded_eq (env : Env) (idx : Nat) (targetId : String) (itemStart : Int)
    (value : JsVal) (s : Adapter) :
    itemSucceeded env idx targetId itemStart value s
      = { s with
          lastGoodValue := mapSet s.lastGoodValue targetId value
          lastGoodTs := mapSet s.lastGoodTs targetId (env.now 112 idx)
          consecutiveErrorCounts := mapSet s.consecutiveErrorCounts targetId 0
          writeLog := (itemSucceeded env idx targetId itemStart value s).writeLog
          states := (itemSucceeded env idx targetId itemStart value s).states } := by
  unfold itemSucceeded
  simp only [hostWrites_eq]

theorem itemSucceeded_writeLog (env : Env) (idx : Nat) (targetId : String) (itemStart : Int)
    (value : JsVal) (s : Adapter) :
    ∃ l, (itemSucceeded env idx targetId itemStart value s).writeLog = s.writeLog ++ l := by
  unfold itemSucceeded
  simp only [hostWrites_eq]
  exact ⟨_, rfl⟩

theorem itemStep_noTarget (env : Env) (retries : Int) (snapshot : Snapshot) (item : Item)
    (idx : Nat) (s : Adapter) (h : env.getItemOutputId item = "") :
    itemStep env retries snapshot item idx s = s := by
  simp [itemStep, h]

theorem itemStep_ok (env : Env) (retries : Int) (snapshot : Snapshot) (item : Item)
    (idx : Nat) (s : Adapter) (value : JsVal) (h : env.getItemOutputId item ≠ "")
    (hv : evalOutcome env item snapshot = .ok value) (hw : env.writeRaises 110 idx = none) :
    itemStep env retries snapshot item idx s
      = itemSucceeded env idx (env.getItemOutputId item) (env.now 100 idx) value
          (wrote (env.getItemOutputId item) value true
            { s with evalLog := s.evalLog ++ [(item, snapshot)] }) := by
  simp [itemStep, h, hv, hw]

theorem itemStep_evalFails (env : Env) (retries : Int) (snapshot : Snapshot) (item : Item)
    (idx : Nat) (s : Adapter) (e : String) (h : env.getItemOutputId item ≠ "")
    (hv : evalOutcome env item snapshot = .error e) :
    itemStep env retries snapshot item idx s
      = itemFailed env retries item idx (env.getItemOutputId item) (env.now 100 idx) e
          { s with evalLog := s.evalLog ++ [(item, snapshot)] } := by
  simp [itemStep, h, hv]

theorem itemStep_writeFails (env : Env) (retries : Int) (snapshot : Snapshot) (item : Item)
    (idx : Nat) (s : Adapter) (value : JsVal) (e : String) (h : env.getItemOutputId item ≠ "")
    (hv : evalOutcome env item snapshot = .ok value) (hw : env.writeRaises 110 idx = some e) :
    itemStep env retries snapshot item idx s
      = itemFailed env retries item idx (env.getItemOutputId item) (env.now 100 idx) e
          (wrote (env.getItemOutputId item) value false
            { s with evalLog := s.evalLog ++ [(item, snapshot)] }) := by
  simp [itemStep, h, hv, hw]

/-- The cases of one pass of the loop body. -/
theorem itemStep_cases (env : Env) (retries : Int) (snapshot : Snapshot) (item : Item)
    (idx : Nat) (s : Adapter) :
    (env.getItemOutputId item = "" ∧ itemStep env retries snapshot item idx s = s)
    ∨ (env.getItemOutputId item ≠ "" ∧ ∃ value,
        itemStep env retries snapshot item idx s
          = itemSucceeded env idx (env.getItemOutputId item) (env.now 100 idx) value
              (wrote (env.getItemOutputId item) value true
                { s with evalLog := s.evalLog ++ [(item, snapshot)] }))
    ∨ (env.getItemOutputId item ≠ "" ∧ ∃ e s0,
        itemStep env retries snapshot item idx s
          = itemFailed env retries item idx (env.getItemOutputId item) (env.now 100 idx) e s0
        ∧ s0.evalLog = s.evalLog ++ [(item, snapshot)]
        ∧ schedView s0 = schedView s
        ∧ s0.lastGoodValue = s.lastGoodValue ∧ s0.lastGoodTs = s.lastGoodTs
        ∧ s0.consecutiveErrorCounts = s.consecutiveErrorCounts
        ∧ ∃ l, s0.writeLog = s.writeLog ++ l) := by
  by_cases h : env.getItemOutputId item = ""
  · exact Or.inl ⟨h, itemStep_noTarget env retries snapshot item idx s h⟩
  · cases hv : evalOutcome env item snapshot with
    | error e =>
      exact Or.inr (Or.inr ⟨h, e, _, itemStep_evalFails env retries snapshot item idx s e h hv,
        rfl, rfl, rfl, rfl, rfl, [], by simp⟩)
    | ok value =>
      cases hw : env.writeRaises 110 idx with
      | none =>
        exact Or.inr (Or.inl ⟨h, value, itemStep_ok env retries snapshot item idx s value h hv hw⟩)
      | some e =>
        exact Or.inr (Or.inr ⟨h, e, _,
          itemStep_writeFails env retries snapshot item idx s value e h hv hw,
          rfl, rfl, rfl, rfl, rfl, [(env.getItemOutputId item, value)], by simp [wrote]⟩)

theorem itemStep_evalLog (env : Env) (retries : Int) (snapshot : Snapshot) (item : Item)
    (idx : Nat) (s : Adapter) :
    (itemStep env retries snapshot item idx s).evalLog
      = s.evalLog ++ evalsOf env snapshot [item] := by
  rcases itemStep_cases env retries snapshot item idx s with ⟨h, e⟩ | ⟨h, v, e⟩ | ⟨h, er, s0, e, h0, -⟩
  · simp [e, evalsOf, h]
  · rw [e, itemSucceeded_eq]
    simp [evalsOf, h, wrote]
  · rw [e, itemFailed_evalLog, h0]
    simp [evalsOf, h]

theorem itemStep_schedView (env : Env) (retries : Int) (snapshot : Snapshot) (item : Item)
    (idx : Nat) (s : Adapter) :
    schedView (itemStep env retries snapshot item idx s) = schedView s := by
  rcases itemStep_cases env retries snapshot item idx s with
    ⟨h, e⟩ | ⟨h, v, e⟩ | ⟨h, er, s0, e, -, h0, -⟩
  · rw [e]
  · rw [e, itemSucceeded_eq]
    simp [schedView, wrote]
  · rw [e, itemFailed_schedView, h0]

theorem itemStep_runtimeAt_other (env : Env) (retries : Int) (snapshot : Snapshot) (item : Item)
    (idx : Nat) (s : Adapter) (t : String) (ht : env.getItemOutputId item ≠ t) :
    runtimeAt t (itemStep env retries snapshot item idx s) = runtimeAt t s := by
  have ht2 : t ≠ env.getItemOutputId item := fun h => ht h.symm
  rcases itemStep_cases env retries snapshot item idx s with
    ⟨h, e⟩ | ⟨h, v, e⟩ | ⟨h, er, s0, e, -, -, h1, h2, h3, -⟩
  · rw [e]
  · rw [e, itemSucceeded_eq]
    simp [runtimeAt, wrote, mapSet_other _ _ ht2]
  · rw [e]
    simp [runtimeAt, itemFailed_lastGoodValue, itemFailed_lastGoodTs, itemFailed_counts, h1, h2,
      h3, mapSet_other _ _ ht2]

theorem itemStep_writeLog (env : Env) (retries : Int) (snapshot : Snapshot) (item : Item)
    (idx : Nat) (s : Adapter) :
    ∃ l, (itemStep env retries snapshot item idx s).writeLog = s.writeLog ++ l := by
  rcases itemStep_cases env retries snapshot item idx s with
    ⟨h, e⟩ | ⟨h, v, e⟩ | ⟨h, er, s0, e, -, -, -, -, -, l, hl⟩
  · exact ⟨[], by simp [e]⟩
  · obtain ⟨l, hl⟩ := itemSucceeded_writeLog env idx (env.getItemOutputId item) (env.now 100 idx) v
      (wrote (env.getItemOutputId item) v true { s with evalLog := s.evalLog ++ [(item, snapshot)] })
    exact ⟨(env.getItemOutputId item, v) :: l, by rw [e, hl]; simp [wrote]⟩
  · exact ⟨_, by rw [e, itemFailed_writeLog, hl, List.append_assoc, List.append_assoc]⟩

/-! ## The loop -/

theorem evalsOf_cons (env : Env) (snapshot : Snapshot) (item : Item) (items : List Item) :
    evalsOf env snapshot (item :: items)
      = evalsOf env snapshot [item] ++ evalsOf env snapshot items := by
  unfold evalsOf
  by_cases h : env.getItemOutputId item = "" <;> simp [List.filter_cons, h]

theorem loopState_cons_exceeded (env : Env) (start budget retries : Int) (snapshot : Snapshot)
    (total idx : Nat) (item : Item) (rest : List Item) (s : Adapter)
    (h : budgetExceeded env start budget idx = true) :
    loopState env start budget retries snapshot total idx (item :: rest) s
      = warnOnce ("tick_budget_exceeded|" ++ showInt (env.now 92 idx / 60000))
          ("Tick time budget exceeded (" ++ showInt budget ++ "ms). Skipping "
            ++ showInt ((total : Int) - idx) ++ " remaining item(s) this tick.") s := by
  rw [loopState, if_pos h]

theorem loopState_cons_within (env : Env) (start budget retries : Int) (snapshot : Snapshot)
    (total idx : Nat) (item : Item) (rest : List Item) (s : Adapter)
    (h : budgetExceeded env start budget idx = false) :
    loopState env start budget retries snapshot total idx (item :: rest) s
      = loopState env start budget retries snapshot total (idx + 1) rest
          (itemStep env retries snapshot item idx s) := by
  rw [loopState, if_neg (by simp [h])]

theorem loopState_evalLog (env : Env) (start budget retries : Int) (snapshot : Snapshot)
    (total : Nat) (items : List Item) (idx : Nat) (s : Adapter) :
    (loopState env start budget retries snapshot total idx items s).evalLog
      = s.evalLog ++ evalsOf env snapshot (items.take (reached env start budget idx items)) := by
  induction items generalizing idx s with
  | nil => simp [loopState, evalsOf]
  | cons item rest ih =>
    cases h : budgetExceeded env start budget idx with
    | true =>
      rw [loopState_cons_exceeded _ _ _ _ _ _ _ _ _ _ h]
      simp [reached, h, evalsOf]
    | false =>
      rw [loopState_cons_within _ _ _ _ _ _ _ _ _ _ h, ih, itemStep_evalLog]
      simp only [reached, h, Bool.false_eq_true, if_false, List.take_succ_cons]
      rw [evalsOf_cons env snapshot item (List.take _ rest), List.append_assoc]

theorem loopState_schedView (env : Env) (start budget retries : Int) (snapshot : Snapshot)
    (total : Nat) (items : List Item) (idx : Nat) (s : Adapter) :
    schedView (loopState env start budget retries snapshot total idx items s) = schedView s := by
  induction items generalizing idx s with
  | nil => rfl
  | cons item rest ih =>
    cases h : budgetExceeded env start budget idx with
    | true =>
      rw [loopState_cons_exceeded _ _ _ _ _ _ _ _ _ _ h]
      simp [schedView]
    | false => rw [loopState_cons_within _ _ _ _ _ _ _ _ _ _ h, ih, itemStep_schedView]

theorem loopState_writeLog (env : Env) (start budget retries : Int) (snapshot : Snapshot)
    (total : Nat) (items : List Item) (idx : Nat) (s : Adapter) :
    ∃ l, (loopState env start budget retries snapshot total idx items s).writeLog
      = s.writeLog ++ l := by
  induction items generalizing idx s with
  | nil => exact ⟨[], by simp [loopState]⟩
  | cons item rest ih =>
    cases h : budgetExceeded env start budget idx with
    | true =>
      rw [loopState_cons_exceeded _ _ _ _ _ _ _ _ _ _ h]
      exact ⟨[], by simp⟩
    | false =>
      rw [loopState_cons_within _ _ _ _ _ _ _ _ _ _ h]
      obtain ⟨l1, h1⟩ := itemStep_writeLog env retries snapshot item idx s
      obtain ⟨l2, h2⟩ := ih (idx + 1) (itemStep env retries snapshot item idx s)
      exact ⟨l1 ++ l2, by rw [h2, h1, List.append_assoc]⟩

theorem loopState_runtimeAt_other (env : Env) (start budget retries : Int)
    (snapshot : Snapshot) (total : Nat) (t : String) (items : List Item) (idx : Nat)
    (s : Adapter) (ht : ∀ it ∈ items, env.getItemOutputId it ≠ t) :
    runtimeAt t (loopState env start budget retries snapshot total idx items s)
      = runtimeAt t s := by
  induction items generalizing idx s with
  | nil => rfl
  | cons item rest ih =>
    cases h : budgetExceeded env start budget idx with
    | true =>
      rw [loopState_cons_exceeded _ _ _ _ _ _ _ _ _ _ h]
      simp [runtimeAt]
    | false =>
      rw [loopState_cons_within _ _ _ _ _ _ _ _ _ _ h,
        ih _ _ (fun it hit => ht it (List.mem_cons_of_mem _ hit)),
        itemStep_runtimeAt_other _ _ _ _ _ _ _ (ht item (List.mem_cons_self _ _))]

theorem loopState_append (env : Env) (start budget retries : Int) (snapshot : Snapshot)
    (total : Nat) (pre rest : List Item) (idx : Nat) (s : Adapter)
    (hb : ∀ j, j < pre.length → budgetExceeded env start budget (idx + j) = false) :
    loopState env start budget retries snapshot total idx (pre ++ rest) s
      = loopState env start budget retries snapshot total (idx + pre.length) rest
          (loopState env start budget retries snapshot total idx pre s) := by
  induction pre generalizing idx s with
  | nil => simp [loopState]
  | cons item pre ih =>
    have h0 : budgetExceeded env start budget idx = false := by
      have := hb 0 (by simp)
      simpa using this
    rw [List.cons_append, loopState_cons_within _ _ _ _ _ _ _ _ _ _ h0,
      loopState_cons_within _ _ _ _ _ _ _ _ _ _ h0, ih]
    · simp only [List.length_cons]
      rw [show idx + 1 + pre.length = idx + (pre.length + 1) by omega]
    · intro j hj
      have := hb (j + 1) (by simp only [List.length_cons]; omega)
      rw [show idx + 1 + j = idx + (j + 1) by omega]
      exact this

theorem reached_first (env : Env) (start budget : Int) (total : Nat) (items : List Item)
    (idx k : Nat) (hk : k < items.length)
    (hb : ∀ j, j < k → budgetExceeded env start budget (idx + j) = false)
    (he : budgetExceeded env start budget (idx + k) = true) :
    reached env start budget idx items = k
      ∧ skippedCount env start budget total idx items = (total : Int) - ((idx + k : Nat) : Int) := by
  induction items generalizing idx k with
  | nil => exact absurd hk (by simp)
  | cons item rest ih =>
    cases k with
    | zero =>
      have he0 : budgetExceeded env start budget idx = true := by simpa using he
      simp [reached, skippedCount, he0]
    | succ k =>
      have h0 : budgetExceeded env start budget idx = false := by
        have := hb 0 (by omega)
        simpa using this
      have hk2 : k < rest.length := by
        simp only [List.length_cons] at hk
        omega
      have := ih (idx + 1) k hk2
        (fun j hj => by
          have := hb (j + 1) (by omega)
          rw [show idx + 1 + j = idx + (j + 1) by omega]
          exact this)
        (by rw [show idx + 1 + k = idx + (k + 1) by omega]; exact he)
      simp only [reached, skippedCount, h0, Bool.false_eq_true, if_false, this.1, this.2]
      rw [show idx + 1 + k = idx + (k + 1) by omega]
      exact ⟨trivial, rfl⟩

theorem reached_all (env : Env) (start budget : Int) (total : Nat) (items : List Item)
    (idx : Nat)
    (hb : ∀ j, j < items.length → budgetExceeded env start budget (idx + j) = false) :
    reached env start budget idx items = items.length
      ∧ skippedCount env start budget total idx items = 0 := by
  induction items generalizing idx with
  | nil => simp [reached, skippedCount]
  | cons item rest ih =>
    have h0 : budgetExceeded env start budget idx = false := by
      have := hb 0 (by simp)
      simpa using this
    have := ih (idx + 1) (fun j hj => by
      have := hb (j + 1) (by simp only [List.length_cons]; omega)
      rw [show idx + 1 + j = idx + (j + 1) by omega]
      exact this)
    simp [reached, skippedCount, h0, this.1, this.2]

/-! ## The tick as a whole -/

theorem tickPrelude_evalLog (env : Env) (s : Adapter) :
    (tickPrelude env s).evalLog = s.evalLog := by
  unfold tickPrelude
  simp only [hostWrites_eq]
  cases env.ensureCompiledForCurrentConfig (configItems s) <;>
    cases env.buildSnapshotForTick (configItems s) <;> simp [logLine]

theorem tickPrelude_schedView (env : Env) (s : Adapter) :
    schedView (tickPrelude env s) = schedView s := by
  unfold tickPrelude
  simp only [hostWrites_eq]
  cases env.ensureCompiledForCurrentConfig (configItems s) <;>
    cases env.buildSnapshotForTick (configItems s) <;> simp [logLine, schedView]

theorem tickPrelude_runtimeAt (env : Env) (s : Adapter) (t : String) :
    runtimeAt t (tickPrelude env s) = runtimeAt t s := by
  unfold tickPrelude
  simp only [hostWrites_eq]
  cases env.ensureCompiledForCurrentConfig (configItems s) <;>
    cases env.buildSnapshotForTick (configItems s) <;> simp [logLine, runtimeAt]

theorem tickPrelude_writeLog (env : Env) (s : Adapter) :
    ∃ l, (tickPrelude env s).writeLog = s.writeLog ++ l := by
  unfold tickPrelude
  simp only [hostWrites_eq]
  cases env.ensureCompiledForCurrentConfig (configItems s) <;>
    cases env.buildSnapshotForTick (configItems s) <;>
    simp only [logLine, List.append_assoc] <;> exact ⟨_, rfl⟩

theorem tickState_evalLog (env : Env) (s : Adapter) :
    (tickState env s).evalLog
      = s.evalLog ++ evalsOf env (tickSnapshot env s)
          ((enabledItems s).take
            (reached env (env.now 41 0) (getTickTimeBudgetMs env s) 0 (enabledItems s))) := by
  unfold tickState tickLoopState
  simp only [hostWrites_eq, loopState_evalLog, tickPrelude_evalLog]
  rfl

theorem tickState_schedView (env : Env) (s : Adapter) :
    schedView (tickState env s) = schedView s := by
  have h := loopState_schedView env (env.now 41 0) (getTickTimeBudgetMs env s)
    (getErrorRetriesBeforeZero env s) (tickSnapshot env s)
    (enabledItemsOf (configItems s)).length (enabledItemsOf (configItems s)) 0 (tickPrelude env s)
  rw [tickPrelude_schedView] at h
  unfold tickState tickLoopState
  simp only [hostWrites_eq]
  rw [← h]
  rfl

theorem tickState_writeLog (env : Env) (s : Adapter) :
    (tickState env s).writeLog
      = (tickLoopState env s).writeLog
        ++ issued env 0
          [(166, "info.skippedItems", JsVal.ofInt (tickSkipped env s)),
           (167, "info.lastRun", .str (env.toISOString (env.now 167 0))),
           (168, "info.evalTimeMs", JsVal.ofInt (env.now 168 0 - env.now 41 0))] := by
  unfold tickState
  simp only [hostWrites_eq]

theorem tickLoopState_writeLog (env : Env) (s : Adapter) :
    ∃ l, (tickLoopState env s).writeLog = s.writeLog ++ l := by
  obtain ⟨l1, h1⟩ := tickPrelude_writeLog env s
  obtain ⟨l2, h2⟩ := loopState_writeLog env (env.now 41 0) (getTickTimeBudgetMs env s)
    (getErrorRetriesBeforeZero env s) (tickSnapshot env s)
    (enabledItemsOf (configItems s)).length (enabledItemsOf (configItems s)) 0 (tickPrelude env s)
  exact ⟨l1 ++ l2, by unfold tickLoopState; rw [h2, h1, List.append_assoc]⟩

/-! ## Ticks never abort; budget and snapshot policies -/

theorem tickEvals_eq (env : Env) (adapter : Adapter) :
    tickEvals env adapter
      = evalsOf env (tickSnapshot env adapter)
          ((enabledItems adapter).take
            (reached env (env.now 41 0) (getTickTimeBudgetMs env adapter) 0
              (enabledItems adapter))) := by
  unfold tickEvals
  rw [runTick_state, tickState_evalLog]
  simp

theorem tickWrites_eq (env : Env) (adapter : Adapter) :
    ∃ l, tickWrites env adapter
      = l ++ issued env 0
          [(166, "info.skippedItems", JsVal.ofInt (tickSkipped env adapter)),
           (167, "info.lastRun", .str (env.toISOString (env.now 167 0))),
           (168, "info.evalTimeMs", JsVal.ofInt (env.now 168 0 - env.now 41 0))] := by
  obtain ⟨l, hl⟩ := tickLoopState_writeLog env adapter
  refine ⟨l, ?_⟩
  unfold tickWrites
  rw [runTick_state, tickState_writeLog, hl, List.append_assoc]
  simp

theorem lastPublished_skipped (env : Env) (adapter : Adapter) :
    lastPublished env adapter "info.skippedItems"
      = some (JsVal.ofInt (tickSkipped env adapter)) := by
  obtain ⟨l, hl⟩ := tickWrites_eq env adapter
  unfold lastPublished
  rw [hl, List.filter_append]
  have hf : (issued env 0
      [(166, "info.skippedItems", JsVal.ofInt (tickSkipped env adapter)),
       (167, "info.lastRun", .str (env.toISOString (env.now 167 0))),
       (168, "info.evalTimeMs", JsVal.ofInt (env.now 168 0 - env.now 41 0))]).filter
        (fun w => w.1 = "info.skippedItems")
      = [("info.skippedItems", JsVal.ofInt (tickSkipped env adapter))] := by
    unfold issued issued issued issued
    cases env.writeRaises 166 0 <;> cases env.writeRaises 167 0 <;>
      cases env.writeRaises 168 0 <;> simp [List.filter_cons]
  rw [hf, List.getLast?_append]
  simp

theorem never_exceeded_of_clock (env : Env) (start budget : Int) (n : Nat)
    (h : ∀ j, j < n → ¬ (budget > 0 ∧ env.now 89 j - start > budget)) :
    ∀ j, j < n → budgetExceeded env start budget (0 + j) = false := by
  intro j hj
  simp only [budgetExceeded, Nat.zero_add, decide_eq_false_iff_not]
  exact h j hj

theorem getTickTimeBudgetMs_demoAdapter (env : Env) :
    getTickTimeBudgetMs env demoAdapter = 4000 := by
  simp only [getTickTimeBudgetMs, getTickIntervalMs, toNumber, mathRound, mathFloor, demoAdapter]
  norm_num

/-- C4: whatever the collaborators do (every evaluation and every state write
may raise), `runTick` ends normally, and the evaluations it issues are exactly
those of the enabled items with an output identifier, in order, up to the
point where the budget check fires; when the budget check never fires, those
of all enabled items. -/
theorem runTick_never_aborts (env : Env) (adapter : Adapter) :
    (runTick env adapter).isOk = true
    ∧ tickEvals env adapter
        = evalsOf env (tickSnapshot env adapter)
            ((enabledItems adapter).take
              (reached env (env.now 41 0) (getTickTimeBudgetMs env adapter) 0
                (enabledItems adapter)))
    ∧ ((∀ j, j < (enabledItems adapter).length →
          ¬ (getTickTimeBudgetMs env adapter > 0
            ∧ env.now 89 j - env.now 41 0 > getTickTimeBudgetMs env adapter)) →
        tickEvals env adapter = evalsOf env (tickSnapshot env adapter) (enabledItems adapter)) := by
  refine ⟨isOk_runTick env adapter, tickEvals_eq env adapter, fun h => ?_⟩
  rw [tickEvals_eq,
    (reached_all env (env.now 41 0) (getTickTimeBudgetMs env adapter) 0 (enabledItems adapter) 0
      (never_exceeded_of_clock env _ _ _ h)).1, List.take_length]

/-- Witness for C4: with every collaborator raising, both enabled items are
still evaluated, against the empty snapshot. -/
theorem runTick_never_aborts_witness :
    (runTick failingEnv demoAdapter).isOk = true
      ∧ tickEvals failingEnv demoAdapter = [(itemA, []), (itemB, [])] := by
  have h := runTick_never_aborts failingEnv demoAdapter
  refine ⟨h.1, ?_⟩
  rw [h.2.2 (fun j _ hc => by
    rw [getTickTimeBudgetMs_demoAdapter] at hc
    simp [failingEnv] at hc)]
  decide

/-- C3: when the budget is positive and the elapsed time first exceeds it at
the check before item `idx`, the evaluations issued are those of the items
before `idx` only, and the value last published to `info.skippedItems` is the
number of enabled items minus `idx`; when the check never fires, all enabled
items are evaluated and the value last published is 0. -/
theorem budget_policy (env : Env) (adapter : Adapter) :
    (∀ idx : Nat, 0 < getTickTimeBudgetMs env adapter →
      idx < (enabledItems adapter).length →
      (∀ j, j < idx → ¬ (env.now 89 j - env.now 41 0 > getTickTimeBudgetMs env adapter)) →
      env.now 89 idx - env.now 41 0 > getTickTimeBudgetMs env adapter →
      tickEvals env adapter
          = evalsOf env (tickSnapshot env adapter) ((enabledItems adapter).take idx)
        ∧ lastPublished env adapter "info.skippedItems"
          = some (JsVal.ofInt (((enabledItems adapter).length : Int) - (idx : Int))))
    ∧ ((∀ j, j < (enabledItems adapter).length →
          ¬ (getTickTimeBudgetMs env adapter > 0
            ∧ env.now 89 j - env.now 41 0 > getTickTimeBudgetMs env adapter)) →
        tickEvals env adapter = evalsOf env (tickSnapshot env adapter) (enabledItems adapter)
          ∧ lastPublished env adapter "info.skippedItems" = some (JsVal.ofInt 0)) := by
  constructor
  · intro idx hpos hidx hfirst hex
    have hr := reached_first env (env.now 41 0) (getTickTimeBudgetMs env adapter)
      (enabledItems adapter).length (enabledItems adapter) 0 idx hidx
      (fun j hj => by
        simp only [budgetExceeded, Nat.zero_add, decide_eq_false_iff_not]
        exact fun hc => hfirst j hj hc.2)
      (by
        simp only [budgetExceeded, Nat.zero_add, decide_eq_true_eq]
        exact ⟨hpos, hex⟩)
    refine ⟨by rw [tickEvals_eq, hr.1], ?_⟩
    rw [lastPublished_skipped]
    unfold tickSkipped
    have h2 := hr.2
    simp only [Nat.zero_add] at h2
    exact congrArg (fun i => some (JsVal.ofInt i)) h2
  · intro h
    have hr := reached_all env (env.now 41 0) (getTickTimeBudgetMs env adapter)
      (enabledItems adapter).length (enabledItems adapter) 0
      (never_exceeded_of_clock env _ _ _ h)
    refine ⟨by rw [tickEvals_eq, hr.1, List.take_length], ?_⟩
    rw [lastPublished_skipped]
    exact congrArg (fun i => some (JsVal.ofInt i)) hr.2

/-- Witness for C3: the clock passes the 4000 ms budget before the second of
two items; one item is evaluated and 1 is published as skipped. -/
theorem budget_policy_witness :
    tickEvals slowEnv demoAdapter = [(itemA, [])]
      ∧ lastPublished slowEnv demoAdapter "info.skippedItems" = some (JsVal.ofInt 1) := by
  have h := (budget_policy slowEnv demoAdapter).1 1
    (by rw [getTickTimeBudgetMs_demoAdapter]; decide)
    (by decide)
    (fun j hj => by
      rw [getTickTimeBudgetMs_demoAdapter]
      have : j = 0 := by omega
      subst this
      decide)
    (by rw [getTickTimeBudgetMs_demoAdapter]; decide)
  refine ⟨h.1.trans (by decide), h.2.trans ?_⟩
  have : ((enabledItems demoAdapter).length : Int) - ((1 : Nat) : Int) = 1 := by decide
  rw [this]

/-- C5: when `buildSnapshotForTick` raises, the tick ends normally, works with
the empty snapshot and evaluates the enabled items against it (all of them
when the budget check never fires); when `ensureCompiledForCurrentConfig`
raises, the tick likewise ends normally and evaluates the enabled items
against the snapshot built afterwards. -/
theorem runTick_degrades (env : Env) (adapter : Adapter) :
    (∀ e, env.buildSnapshotForTick (configItems adapter) = .error e →
      (runTick env adapter).isOk = true
        ∧ tickSnapshot env adapter = []
        ∧ tickEvals env adapter
            = evalsOf env []
                ((enabledItems adapter).take
                  (reached env (env.now 41 0) (getTickTimeBudgetMs env adapter) 0
                    (enabledItems adapter)))
        ∧ ((∀ j, j < (enabledItems adapter).length →
              ¬ (getTickTimeBudgetMs env adapter > 0
                ∧ env.now 89 j - env.now 41 0 > getTickTimeBudgetMs env adapter)) →
            tickEvals env adapter = evalsOf env [] (enabledItems adapter)))
    ∧ (∀ e, env.ensureCompiledForCurrentConfig (configItems adapter) = .error e →
      (runTick env adapter).isOk = true
        ∧ tickEvals env adapter
            = evalsOf env (tickSnapshot env adapter)
                ((enabledItems adapter).take
                  (reached env (env.now 41 0) (getTickTimeBudgetMs env adapter) 0
                    (enabledItems adapter)))
        ∧ ((∀ j, j < (enabledItems adapter).length →
              ¬ (getTickTimeBudgetMs env adapter > 0
                ∧ env.now 89 j - env.now 41 0 > getTickTimeBudgetMs env adapter)) →
            tickEvals env adapter
              = evalsOf env (tickSnapshot env adapter) (enabledItems adapter))) := by
  have hall : (∀ j, j < (enabledItems adapter).length →
        ¬ (getTickTimeBudgetMs env adapter > 0
          ∧ env.now 89 j - env.now 41 0 > getTickTimeBudgetMs env adapter)) →
      tickEvals env adapter = evalsOf env (tickSnapshot env adapter) (enabledItems adapter) := by
    intro h
    rw [tickEvals_eq,
      (reached_all env (env.now 41 0) (getTickTimeBudgetMs env adapter) 0 (enabledItems adapter) 0
        (never_exceeded_of_clock env _ _ _ h)).1, List.take_length]
  constructor
  · intro e he
    have hs : tickSnapshot env adapter = [] := by
      unfold tickSnapshot
      rw [he]
    refine ⟨isOk_runTick env adapter, hs, ?_, fun h => ?_⟩
    · rw [tickEvals_eq, hs]
    · rw [hall h, hs]
  · intro e _
    exact ⟨isOk_runTick env adapter, tickEvals_eq env adapter, hall⟩

/-- Witness for C5: the snapshot builder and the item compiler both raise;
both enabled items are evaluated against the empty snapshot. -/
theorem runTick_degrades_witness :
    (runTick failingEnv demoAdapter).isOk = true
      ∧ tickSnapshot failingEnv demoAdapter = []
      ∧ tickEvals failingEnv demoAdapter = evalsOf failingEnv [] (enabledItems demoAdapter) := by
  have h := (runTick_degrades failingEnv demoAdapter).1 "read failed" rfl
  exact ⟨h.1, h.2.1, h.2.2.2 (fun j _ hc => by
    rw [getTickTimeBudgetMs_demoAdapter] at hc
    simp [failingEnv] at hc)⟩

/-! ## One output identifier through a tick -/

theorem settings_of_schedView {s s2 : Adapter} (env : Env) (h : schedView s2 = schedView s) :
    enabledItems s2 = enabledItems s
      ∧ tickSnapshot env s2 = tickSnapshot env s
      ∧ getTickTimeBudgetMs env s2 = getTickTimeBudgetMs env s
      ∧ getErrorRetriesBeforeZero env s2 = getErrorRetriesBeforeZero env s := by
  simp only [schedView, Prod.mk.injEq] at h
  obtain ⟨hc, hr, -⟩ := h
  simp only [enabledItems, tickSnapshot, configItems, getTickTimeBudgetMs, getTickIntervalMs,
    getErrorRetriesBeforeZero, hc, hr, and_self]

theorem tickState_runtimeAt (env : Env) (s : Adapter) (t : String) :
    runtimeAt t (tickState env s) = runtimeAt t (tickLoopState env s) := by
  unfold tickState
  simp only [hostWrites_eq]
  rfl

/-- The tick up to and after the pass for one item of the enabled list that the
budget check lets through. -/
theorem tick_split (env : Env) (s : Adapter) (pre post : List Item) (item : Item)
    (hitems : enabledItems s = pre ++ item :: post)
    (hbudget : ∀ j, j ≤ pre.length →
      ¬ (getTickTimeBudgetMs env s > 0
        ∧ env.now 89 j - env.now 41 0 > getTickTimeBudgetMs env s)) :
    ∃ s1 : Adapter,
      (∃ l0, s1.writeLog = s.writeLog ++ l0)
      ∧ (∀ t, (∀ it ∈ pre, env.getItemOutputId it ≠ t) → runtimeAt t s1 = runtimeAt t s)
      ∧ (∃ l2, (tickState env s).writeLog
          = (itemStep env (getErrorRetriesBeforeZero env s) (tickSnapshot env s) item
              pre.length s1).writeLog ++ l2)
      ∧ (∀ t, (∀ it ∈ post, env.getItemOutputId it ≠ t) →
          runtimeAt t (tickState env s)
            = runtimeAt t (itemStep env (getErrorRetriesBeforeZero env s) (tickSnapshot env s)
                item pre.length s1)) := by
  have hb : ∀ j, j ≤ pre.length →
      budgetExceeded env (env.now 41 0) (getTickTimeBudgetMs env s) (0 + j) = false := by
    intro j hj
    simp only [budgetExceeded, Nat.zero_add, decide_eq_false_iff_not]
    exact hbudget j hj
  have hloop : tickLoopState env s
      = loopState env (env.now 41 0) (getTickTimeBudgetMs env s)
          (getErrorRetriesBeforeZero env s) (tickSnapshot env s) (enabledItems s).length
          (pre.length + 1) post
          (itemStep env (getErrorRetriesBeforeZero env s) (tickSnapshot env s) item pre.length
            (loopState env (env.now 41 0) (getTickTimeBudgetMs env s)
              (getErrorRetriesBeforeZero env s) (tickSnapshot env s) (enabledItems s).length
              0 pre (tickPrelude env s))) := by
    have h0 := hb pre.length (le_refl _)
    show loopState _ _ _ _ _ (enabledItems s).length 0 (enabledItems s) _ = _
    rw [hitems, loopState_append _ _ _ _ _ _ _ _ _ _ (fun j hj => hb j (le_of_lt hj)),
      loopState_cons_within _ _ _ _ _ _ _ _ _ _ h0]
    simp only [Nat.zero_add, ← hitems]
  refine ⟨loopState env (env.now 41 0) (getTickTimeBudgetMs env s)
      (getErrorRetriesBeforeZero env s) (tickSnapshot env s) (enabledItems s).length
      0 pre (tickPrelude env s), ?_, ?_, ?_, ?_⟩
  · obtain ⟨l1, h1⟩ := tickPrelude_writeLog env s
    obtain ⟨l2, h2⟩ := loopState_writeLog env (env.now 41 0) (getTickTimeBudgetMs env s)
      (getErrorRetriesBeforeZero env s) (tickSnapshot env s) (enabledItems s).length pre 0
      (tickPrelude env s)
    exact ⟨l1 ++ l2, by rw [h2, h1, List.append_assoc]⟩
  · intro t ht
    rw [loopState_runtimeAt_other _ _ _ _ _ _ _ _ _ _ ht, tickPrelude_runtimeAt]
  · obtain ⟨l2, h2⟩ := loopState_writeLog env (env.now 41 0) (getTickTimeBudgetMs env s)
      (getErrorRetriesBeforeZero env s) (tickSnapshot env s) (enabledItems s).length post
      (pre.length + 1)
      (itemStep env (getErrorRetriesBeforeZero env s) (tickSnapshot env s) item pre.length
        (loopState env (env.now 41 0) (getTickTimeBudgetMs env s)
          (getErrorRetriesBeforeZero env s) (tickSnapshot env s) (enabledItems s).length
          0 pre (tickPrelude env s)))
    exact ⟨_, by rw [tickState_writeLog, hloop, h2, List.append_assoc]⟩
  · intro t ht
    rw [tickState_runtimeAt, hloop, loopState_runtimeAt_other _ _ _ _ _ _ _ _ _ _ ht]

theorem tickWrites_of_split {env : Env} {s s1 s2 : Adapter} {l0 li l2 : List (String × JsVal)}
    (h1 : s1.writeLog = s.writeLog ++ l0) (hi : s2.writeLog = s1.writeLog ++ li)
    (h2 : (tickState env s).writeLog = s2.writeLog ++ l2) :
    tickWrites env s = l0 ++ li ++ l2 := by
  unfold tickWrites
  rw [runTick_state, h2, hi, h1]
  simp [List.append_assoc]

theorem evalOutcome_of_steps (env : Env) (item : Item) (snapshot : Snapshot) (raw value : JsVal)
    (hraw : env.computeItemValue item snapshot = .ok raw)
    (hvalue : (if env.isNumericOutputItem item
        then env.applyResultRules item raw >>= env.castValueForItemType item
        else env.castValueForItemType item raw) = .ok value) :
    evalOutcome env item snapshot = .ok value := by
  unfold evalOutcome
  rw [hraw]
  cases hn : env.isNumericOutputItem item
  · simpa [hn] using hvalue
  · simp only [hn, if_true] at hvalue ⊢
    cases ha : env.applyResultRules item raw with
    | error e => simp [ha, bind, Except.bind] at hvalue
    | ok shaped => simpa [ha, bind, Except.bind] using hvalue

/-- A tick in which the item with output identifier `t` is reached and
succeeds. -/
theorem tick_success (env : Env) (s : Adapter) (pre post : List Item) (item : Item)
    (value : JsVal)
    (hitems : enabledItems s = pre ++ item :: post)
    (hid : env.getItemOutputId item ≠ "")
    (hbudget : ∀ j, j ≤ pre.length →
      ¬ (getTickTimeBudgetMs env s > 0
        ∧ env.now 89 j - env.now 41 0 > getTickTimeBudgetMs env s))
    (hv : evalOutcome env item (tickSnapshot env s) = .ok value)
    (hw : env.writeRaises 110 pre.length = none) :
    (env.getItemOutputId item, value) ∈ tickWrites env s
      ∧ ((∀ it ∈ post, env.getItemOutputId it ≠ env.getItemOutputId item) →
          runtimeAt (env.getItemOutputId item) (tickState env s)
            = (some value, some (env.now 112 pre.length), some 0)) := by
  obtain ⟨s1, ⟨l0, h0⟩, -, ⟨l2, h2⟩, hrt⟩ := tick_split env s pre post item hitems hbudget
  have hstep := itemStep_ok env (getErrorRetriesBeforeZero env s) (tickSnapshot env s) item
    pre.length s1 value hid hv hw
  constructor
  · obtain ⟨l, hl⟩ := itemSucceeded_writeLog env pre.length (env.getItemOutputId item)
      (env.now 100 pre.length) value
      (wrote (env.getItemOutputId item) value true
        { s1 with evalLog := s1.evalLog ++ [(item, tickSnapshot env s)] })
    have hi : (itemStep env (getErrorRetriesBeforeZero env s) (tickSnapshot env s) item
        pre.length s1).writeLog = s1.writeLog ++ ((env.getItemOutputId item, value) :: l) := by
      rw [hstep, hl]
      simp [wrote]
    rw [tickWrites_of_split h0 hi h2]
    simp
  · intro hpost
    rw [hrt _ hpost, hstep, itemSucceeded_eq]
    simp [runtimeAt, mapSet_same]

/-- A tick in which the item with output identifier `t` is reached and fails,
by a raising evaluation or a raising write of the output. -/
theorem tick_failure (env : Env) (s : Adapter) (pre post : List Item) (item : Item)
    (hitems : enabledItems s = pre ++ item :: post)
    (hid : env.getItemOutputId item ≠ "")
    (hbudget : ∀ j, j ≤ pre.length →
      ¬ (getTickTimeBudgetMs env s > 0
        ∧ env.now 89 j - env.now 41 0 > getTickTimeBudgetMs env s))
    (hfail : (∃ e, evalOutcome env item (tickSnapshot env s) = .error e)
      ∨ (env.writeRaises 110 pre.length).isSome = true)
    (hpre : ∀ it ∈ pre, env.getItemOutputId it ≠ env.getItemOutputId item) :
    (∀ w ∈ retryWrite env (getErrorRetriesBeforeZero env s) item (env.getItemOutputId item) s,
        w ∈ tickWrites env s)
      ∧ ((∀ it ∈ post, env.getItemOutputId it ≠ env.getItemOutputId item) →
          runtimeAt (env.getItemOutputId item) (tickState env s)
            = (s.lastGoodValue (env.getItemOutputId item),
                s.lastGoodTs (env.getItemOutputId item),
                some ((s.consecutiveErrorCounts (env.getItemOutputId item)).getD 0 + 1))) := by
  obtain ⟨s1, ⟨l0, h0⟩, hrt1, ⟨l2, h2⟩, hrt⟩ := tick_split env s pre post item hitems hbudget
  have hs1 := hrt1 _ hpre
  simp only [runtimeAt, Prod.mk.injEq] at hs1
  obtain ⟨hg, hts, hcnt⟩ := hs1
  have hcase : ∃ e s0,
      itemStep env (getErrorRetriesBeforeZero env s) (tickSnapshot env s) item pre.length s1
        = itemFailed env (getErrorRetriesBeforeZero env s) item pre.length
            (env.getItemOutputId item) (env.now 100 pre.length) e s0
      ∧ s0.lastGoodValue = s1.lastGoodValue ∧ s0.lastGoodTs = s1.lastGoodTs
      ∧ s0.consecutiveErrorCounts = s1.consecutiveErrorCounts
      ∧ ∃ l, s0.writeLog = s1.writeLog ++ l := by
    cases hv : evalOutcome env item (tickSnapshot env s) with
    | error e =>
      exact ⟨e, _, itemStep_evalFails _ _ _ _ _ _ e hid hv, rfl, rfl, rfl, [], by simp⟩
    | ok value =>
      rcases hfail with ⟨e, he⟩ | hwr
      · rw [hv] at he
        exact absurd he (by simp)
      · cases hw : env.writeRaises 110 pre.length with
        | none => rw [hw] at hwr; exact absurd hwr (by simp)
        | some e =>
          exact ⟨e, _, itemStep_writeFails _ _ _ _ _ _ value e hid hv hw, rfl, rfl, rfl,
            [(env.getItemOutputId item, value)], by simp [wrote]⟩
  obtain ⟨e, s0, hstep, hg0, hts0, hc0, l, hl⟩ := hcase
  have hretry : retryWrite env (getErrorRetriesBeforeZero env s) item (env.getItemOutputId item) s0
      = retryWrite env (getErrorRetriesBeforeZero env s) item (env.getItemOutputId item) s := by
    unfold retryWrite
    rw [hg0, hc0, hg, hcnt]
  constructor
  · intro w hwmem
    have hi : (itemStep env (getErrorRetriesBeforeZero env s) (tickSnapshot env s) item
        pre.length s1).writeLog
        = s1.writeLog ++ (l ++ failureInfoWrites env item pre.length (env.getItemOutputId item)
            (env.now 100 pre.length) e s0
          ++ retryWrite env (getErrorRetriesBeforeZero env s) item (env.getItemOutputId item) s) := by
      rw [hstep, itemFailed_writeLog, hl, hretry]
      simp [List.append_assoc]
    rw [tickWrites_of_split h0 hi h2]
    simp only [List.mem_append]
    exact Or.inl (Or.inr (Or.inr hwmem))
  · intro hpost
    rw [hrt _ hpost, hstep]
    simp only [runtimeAt, itemFailed_lastGoodValue, itemFailed_lastGoodTs, itemFailed_counts,
      mapSet_same, hg0, hts0, hc0, hg, hts, hcnt]

/-! ## Success, retries and fallback -/

/-- C2: when the item at position `pre.length` of the enabled list is reached
within the budget, evaluates to `raw` and is shaped and cast to `value` (result
rules only for a numeric output), and the write of the output does not raise,
the tick publishes `value` to the output identifier; and if no later enabled
item shares the identifier, the tick leaves `value` as last good value and the
consecutive-error counter at 0, whatever they were before. -/
theorem success_publishes_and_resets (env : Env) (adapter : Adapter) (pre post : List Item)
    (item : Item) (raw value : JsVal)
    (hitems : enabledItems adapter = pre ++ item :: post)
    (hid : env.getItemOutputId item ≠ "")
    (hbudget : ∀ j, j ≤ pre.length →
      ¬ (getTickTimeBudgetMs env adapter > 0
        ∧ env.now 89 j - env.now 41 0 > getTickTimeBudgetMs env adapter))
    (hraw : env.computeItemValue item (tickSnapshot env adapter) = .ok raw)
    (hvalue : (if env.isNumericOutputItem item
        then env.applyResultRules item raw >>= env.castValueForItemType item
        else env.castValueForItemType item raw) = .ok value)
    (hwrite : env.writeRaises 110 pre.length = none) :
    (env.getItemOutputId item, value) ∈ tickWrites env adapter
      ∧ ((∀ it ∈ post, env.getItemOutputId it ≠ env.getItemOutputId item) →
          (runTick env adapter).state.lastGoodValue (env.getItemOutputId item) = some value
            ∧ (runTick env adapter).state.lastGoodTs (env.getItemOutputId item)
                = some (env.now 112 pre.length)
            ∧ (runTick env adapter).state.consecutiveErrorCounts (env.getItemOutputId item)
                = some 0) := by
  have hv := evalOutcome_of_steps env item (tickSnapshot env adapter) raw value hraw hvalue
  obtain ⟨h1, h2⟩ := tick_success env adapter pre post item value hitems hid hbudget hv hwrite
  refine ⟨h1, fun hpost => ?_⟩
  have h3 := h2 hpost
  rw [← runTick_state] at h3
  simp only [runtimeAt, Prod.mk.injEq] at h3
  exact h3

theorem enabledItems_demoAdapter : enabledItems demoAdapter = [] ++ itemA :: [itemB] := by
  decide

/-- Witness for C2: a quiet tick over the two sample items publishes 42 to
`a` and resets its counter. -/
theorem success_publishes_and_resets_witness :
    ((quietEnv.getItemOutputId itemA, JsVal.ofInt 42) ∈ tickWrites quietEnv demoAdapter)
      ∧ (runTick quietEnv demoAdapter).state.lastGoodValue (quietEnv.getItemOutputId itemA)
          = some (JsVal.ofInt 42)
      ∧ (runTick quietEnv demoAdapter).state.consecutiveErrorCounts
          (quietEnv.getItemOutputId itemA) = some 0 := by
  have h := success_publishes_and_resets quietEnv demoAdapter [] [itemB] itemA
    (JsVal.ofInt 42) (JsVal.ofInt 42) enabledItems_demoAdapter (by decide)
    (fun j _ hc => by
      rw [getTickTimeBudgetMs_demoAdapter] at hc
      simp [quietEnv] at hc)
    rfl rfl rfl
  have h2 := h.2 (by decide)
  exact ⟨h.1, h2.1, h2.2.2⟩

theorem runTicks_append (envs : List Env) (env : Env) (s : Adapter) :
    runTicks (envs ++ [env]) s = (runTick env (runTicks envs s)).state := by
  simp [runTicks, List.foldl_append]

/-- After a successful tick for `t` and any number of failing ticks, the last
good value is still the one of the success and the counter is the number of
failures. -/
theorem retry_invariant (env0 : Env) (adapter : Adapter) (pre post : List Item) (item : Item)
    (t : String) (v : JsVal)
    (hitems : enabledItems adapter = pre ++ item :: post) (ht : t ≠ "")
    (hgood : evalOutcome env0 item (tickSnapshot env0 adapter) = .ok v
      ∧ env0.writeRaises 110 pre.length = none)
    (h0 : env0.getItemOutputId item = t
      ∧ (∀ it ∈ pre ++ post, env0.getItemOutputId it ≠ t)
      ∧ (∀ j, j ≤ pre.length →
          ¬ (getTickTimeBudgetMs env0 adapter > 0
            ∧ env0.now 89 j - env0.now 41 0 > getTickTimeBudgetMs env0 adapter)))
    (fails : List Env)
    (hsched : ∀ env ∈ fails,
      env.getItemOutputId item = t
      ∧ (∀ it ∈ pre ++ post, env.getItemOutputId it ≠ t)
      ∧ (∀ j, j ≤ pre.length →
          ¬ (getTickTimeBudgetMs env adapter > 0
            ∧ env.now 89 j - env.now 41 0 > getTickTimeBudgetMs env adapter)))
    (hfail : ∀ env ∈ fails,
      (∃ e, evalOutcome env item (tickSnapshot env adapter) = .error e)
        ∨ (env.writeRaises 110 pre.length).isSome = true) :
    schedView (runTicks (env0 :: fails) adapter) = schedView adapter
      ∧ (runTicks (env0 :: fails) adapter).lastGoodValue t = some v
      ∧ (runTicks (env0 :: fails) adapter).consecutiveErrorCounts t = some fails.length := by
  induction fails using List.reverseRecOn with
  | nil =>
    obtain ⟨hid, honce, hb⟩ := h0
    subst hid
    have h := (tick_success env0 adapter pre post item v hitems ht hb hgood.1 hgood.2).2
      (fun it hit => honce it (List.mem_append_right _ hit))
    simp only [runtimeAt, Prod.mk.injEq] at h
    have e : runTicks [env0] adapter = tickState env0 adapter := by
      simp [runTicks, runTick_state]
    rw [e]
    exact ⟨tickState_schedView env0 adapter, h.1, h.2.2⟩
  | append_singleton fails env ih =>
    obtain ⟨ihs, ihg, ihc⟩ := ih
      (fun e he => hsched e (List.mem_append_left _ he))
      (fun e he => hfail e (List.mem_append_left _ he))
    obtain ⟨hid, honce, hb⟩ := hsched env (List.mem_append_right _ (List.mem_singleton_self _))
    have hf := hfail env (List.mem_append_right _ (List.mem_singleton_self _))
    subst hid
    obtain ⟨hE, hS, hB, -⟩ := settings_of_schedView env ihs
    have e : runTicks (env0 :: (fails ++ [env])) adapter
        = tickState env (runTicks (env0 :: fails) adapter) := by
      rw [← List.cons_append, runTicks_append, runTick_state]
    have h := (tick_failure env (runTicks (env0 :: fails) adapter) pre post item
      (by rw [hE]; exact hitems) ht (by rw [hB]; exact hb) (by rw [hS]; exact hf)
      (fun it hit => honce it (List.mem_append_left _ hit))).2
      (fun it hit => honce it (List.mem_append_right _ hit))
    simp only [runtimeAt, Prod.mk.injEq] at h
    rw [e]
    refine ⟨(tickState_schedView env _).trans ihs, h.1.trans ihg, ?_⟩
    rw [h.2.2, ihc]
    simp

/-- C1: let a tick succeed for the output identifier `t` with value `v`, let
the following ticks `fails` and then `last` all fail for that item, and let
`N` be the retries threshold; in every tick the item is reached within the
budget and is the only enabled item with output `t`.  Then `last`, the tick of
the `k`-th consecutive failure with `k = fails.length + 1`, publishes `v` to
`t` when `k ≤ N`, and the fallback value `getZeroValueForItem(item)` when
`k = N + 1`. -/
theorem retry_policy (env0 : Env) (fails : List Env) (last : Env) (adapter : Adapter)
    (pre post : List Item) (item : Item) (t : String) (v : JsVal) (N : Int)
    (hitems : enabledItems adapter = pre ++ item :: post) (ht : t ≠ "")
    (hsched : ∀ env ∈ env0 :: (fails ++ [last]),
      env.getItemOutputId item = t
      ∧ (∀ it ∈ pre ++ post, env.getItemOutputId it ≠ t)
      ∧ (∀ j, j ≤ pre.length →
          ¬ (getTickTimeBudgetMs env adapter > 0
            ∧ env.now 89 j - env.now 41 0 > getTickTimeBudgetMs env adapter)))
    (hN : getErrorRetriesBeforeZero last adapter = N)
    (hgood : evalOutcome env0 item (tickSnapshot env0 adapter) = .ok v
      ∧ env0.writeRaises 110 pre.length = none)
    (hfail : ∀ env ∈ fails ++ [last],
      (∃ e, evalOutcome env item (tickSnapshot env adapter) = .error e)
        ∨ (env.writeRaises 110 pre.length).isSome = true) :
    (((fails.length + 1 : Nat) : Int) ≤ N →
        (t, v) ∈ tickWrites last (runTicks (env0 :: fails) adapter))
      ∧ (((fails.length + 1 : Nat) : Int) = N + 1 →
        (t, last.getZeroValueForItem item) ∈ tickWrites last (runTicks (env0 :: fails) adapter)) := by
  obtain ⟨ihs, ihg, ihc⟩ := retry_invariant env0 adapter pre post item t v hitems ht hgood
    (hsched env0 (List.mem_cons_self _ _)) fails
    (fun e he => hsched e (List.mem_cons_of_mem _ (List.mem_append_left _ he)))
    (fun e he => hfail e (List.mem_append_left _ he))
  obtain ⟨hid, honce, hb⟩ :=
    hsched last (List.mem_cons_of_mem _ (List.mem_append_right _ (List.mem_singleton_self _)))
  have hf := hfail last (List.mem_append_right _ (List.mem_singleton_self _))
  subst hid
  obtain ⟨hE, hS, hB, hR⟩ := settings_of_schedView last ihs
  have h := (tick_failure last (runTicks (env0 :: fails) adapter) pre post item
    (by rw [hE]; exact hitems) ht (by rw [hB]; exact hb) (by rw [hS]; exact hf)
    (fun it hit => honce it (List.mem_append_left _ hit))).1
  rw [hR, hN] at h
  constructor
  · intro hk
    apply h
    have h1 : (fails.length : Int) + 1 ≤ N := by omega
    simp [retryWrite, ihg, ihc, h1]
  · intro hk
    apply h
    have h1 : ¬ ((fails.length : Int) + 1 ≤ N) := by omega
    have h2 : N < (fails.length : Int) + 1 := by omega
    simp [retryWrite, ihg, ihc, h1, h2]

theorem retryAdapter_settings (env : Env) :
    enabledItems retryAdapter = [] ++ itemA :: [itemB]
      ∧ getTickTimeBudgetMs env retryAdapter = 4000
      ∧ getErrorRetriesBeforeZero env retryAdapter = 1 := by
  refine ⟨by decide, ?_, ?_⟩
  · simp only [getTickTimeBudgetMs, getTickIntervalMs, toNumber, mathRound, mathFloor,
      retryAdapter]
    norm_num
  · have hne : ¬ (JsVal.num (JsNum.fin 1) = JsVal.undefined) := by decide
    simp only [getErrorRetriesBeforeZero, toNumber, mathRound, retryAdapter, ne_eq, hne,
      not_false_eq_true, if_true]
    norm_num

theorem retry_sample_scheduled (env : Env) (hid : env.getItemOutputId = fun it => it.targetId)
    (hnow : env.now = fun _ _ => 12345) :
    env.getItemOutputId itemA = "a"
      ∧ (∀ it ∈ [] ++ [itemB], env.getItemOutputId it ≠ "a")
      ∧ (∀ j, j ≤ ([] : List Item).length →
          ¬ (getTickTimeBudgetMs env retryAdapter > 0
            ∧ env.now 89 j - env.now 41 0 > getTickTimeBudgetMs env retryAdapter)) := by
  refine ⟨by rw [hid]; rfl, by rw [hid]; decide, fun j _ hc => ?_⟩
  rw [(retryAdapter_settings env).2.1, hnow] at hc
  simp at hc

/-- Witness for C1: with a threshold of 1, the first failing tick after a
success with 42 republishes 42 and the second publishes the fallback 0. -/
theorem retry_policy_witness :
    ("a", JsVal.ofInt 42) ∈ tickWrites evalFailEnv (runTicks (quietEnv :: []) retryAdapter)
      ∧ ("a", evalFailEnv.getZeroValueForItem itemA)
          ∈ tickWrites evalFailEnv (runTicks (quietEnv :: [evalFailEnv]) retryAdapter) := by
  have hq := retry_sample_scheduled quietEnv rfl rfl
  have hf := retry_sample_scheduled evalFailEnv rfl rfl
  constructor
  · refine (retry_policy quietEnv [] evalFailEnv retryAdapter [] [itemB] itemA "a"
      (JsVal.ofInt 42) 1 (retryAdapter_settings quietEnv).1 (by decide) ?_
      (retryAdapter_settings evalFailEnv).2.2 ⟨rfl, rfl⟩ ?_).1 (by decide)
    · intro env henv
      simp only [List.nil_append, List.mem_cons, List.mem_singleton, List.not_mem_nil,
        or_false] at henv
      rcases henv with rfl | rfl
      · exact hq
      · exact hf
    · intro env henv
      simp only [List.nil_append, List.mem_singleton] at henv
      subst henv
      exact Or.inl ⟨"no value", rfl⟩
  · refine (retry_policy quietEnv [evalFailEnv] evalFailEnv retryAdapter [] [itemB] itemA "a"
      (JsVal.ofInt 42) 1 (retryAdapter_settings quietEnv).1 (by decide) ?_
      (retryAdapter_settings evalFailEnv).2.2 ⟨rfl, rfl⟩ ?_).2 (by decide)
    · intro env henv
      simp only [List.cons_append, List.nil_append, List.mem_cons, List.mem_singleton,
        List.not_mem_nil, or_false, or_self] at henv
      rcases henv with rfl | rfl
      · exact hq
      · exact hf
    · intro env henv
      simp only [List.cons_append, List.nil_append, List.mem_cons, List.mem_singleton,
        List.not_mem_nil, or_false, or_self] at henv
      subst henv
      exact Or.inl ⟨"no value", rfl⟩

/-! ## Re-arming of the scheduler -/

theorem timersInOrder_of_schedView {s s2 : Adapter} (h : schedView s2 = schedView s)
    (hs : TimersInOrder s) : TimersInOrder s2 := by
  simp only [schedView, Prod.mk.injEq] at h
  obtain ⟨-, -, ht, -, ha, -⟩ := h
  unfold TimersInOrder at hs ⊢
  rw [ha, ht]
  exact hs

theorem scheduleNextTick_scheduleCalls (env : Env) (s : Adapter) :
    (scheduleNextTick env s).scheduleCalls = s.scheduleCalls + 1 := by
  unfold scheduleNextTick
  cases hu : s.isUnloading
  · cases ht : s.tickTimer <;> simp [hu, ht, clearTimeout]
  · simp [hu]

theorem scheduleNextTick_unloading (env : Env) (s : Adapter) (hu : s.isUnloading = true) :
    (scheduleNextTick env s).armedTimers = s.armedTimers
      ∧ (scheduleNextTick env s).tickTimer = s.tickTimer := by
  unfold scheduleNextTick
  simp [hu]

theorem scheduleNextTick_running (env : Env) (s : Adapter) (hu : s.isUnloading = false) :
    (scheduleNextTick env s).armedTimers
        = (match s.tickTimer with
            | some handle => s.armedTimers.filter (fun t => t.1 ≠ handle)
            | none => s.armedTimers)
          ++ [(s.nextTimerId, alignDelay (getTickIntervalMs env s) (env.now 177 0))]
      ∧ (scheduleNextTick env s).tickTimer = some s.nextTimerId := by
  unfold scheduleNextTick
  cases ht : s.tickTimer <;> simp [hu, ht, clearTimeout, getTickIntervalMs]

theorem scheduleNextTick_inOrder (env : Env) (s : Adapter) (hs : TimersInOrder s) :
    TimersInOrder (scheduleNextTick env s) := by
  cases hu : s.isUnloading
  · obtain ⟨ha, ht⟩ := scheduleNextTick_running env s hu
    refine Or.inr ⟨s.nextTimerId, alignDelay (getTickIntervalMs env s) (env.now 177 0), ?_, ht⟩
    rw [ha]
    rcases hs with h0 | ⟨h, d, h1, h2⟩
    · rw [h0]
      cases s.tickTimer <;> simp
    · rw [h1, h2]
      simp
  · obtain ⟨ha, ht⟩ := scheduleNextTick_unloading env s hu
    unfold TimersInOrder
    rw [ha, ht]
    exact hs

theorem onUnload_inOrder (s : Adapter) (hs : TimersInOrder s) : TimersInOrder (onUnload s) := by
  unfold onUnload
  rcases hs with h0 | ⟨h, d, h1, h2⟩
  · cases ht : s.tickTimer <;> simp [ht, TimersInOrder, clearTimeout, h0]
  · simp [h2, TimersInOrder, clearTimeout, h1]

theorem tickFailed_schedView (env : Env) (e : String) (s : Adapter) :
    schedView (tickFailed env e s) = schedView s := by
  unfold tickFailed
  simp only [setStateAsync_run]
  cases env.writeRaises 190 0 <;> simp [Res.state, wrote, logLine, schedView]

theorem afterTick_inOrder (env : Env) (r : Res Unit) (hr : TimersInOrder r.state) :
    TimersInOrder (afterTick env r) := by
  cases r with
  | ok a s =>
    unfold afterTick
    apply scheduleNextTick_inOrder
    dsimp only
    split
    · exact onUnload_inOrder _ hr
    · exact hr
  | raise e s =>
    have h1 := timersInOrder_of_schedView (tickFailed_schedView env e s) hr
    unfold afterTick
    apply scheduleNextTick_inOrder
    dsimp only
    split
    · exact onUnload_inOrder _ h1
    · exact h1

theorem afterTick_scheduleCalls (env : Env) (r : Res Unit) :
    (afterTick env r).scheduleCalls = r.state.scheduleCalls + 1 := by
  unfold afterTick
  rw [scheduleNextTick_scheduleCalls]
  have hu : ∀ s : Adapter, (onUnload s).scheduleCalls = s.scheduleCalls := by
    intro s
    unfold onUnload
    cases ht : s.tickTimer <;> simp [ht, clearTimeout]
  have hf : ∀ e s, (tickFailed env e s).scheduleCalls = s.scheduleCalls := by
    intro e s
    have := tickFailed_schedView env e s
    simp only [schedView, Prod.mk.injEq] at this
    exact this.2.2.2.2.2.2.1
  cases r with
  | ok a s => dsimp only; split <;> simp [hu, Res.state]
  | raise e s => dsimp only; split <;> simp [hu, hf, Res.state]

theorem runTick_schedView (env : Env) (s : Adapter) :
    schedView (runTick env s).state = schedView s := by
  rw [runTick_state, tickState_schedView]

theorem timerCallback_inOrder (env : Env) (s : Adapter) (t : Nat × JsNum)
    (rest : List (Nat × JsNum)) (ha : s.armedTimers = t :: rest) (hs : TimersInOrder s) :
    TimersInOrder (timerCallback env t.1 s) := by
  unfold timerCallback
  apply afterTick_inOrder
  apply timersInOrder_of_schedView (runTick_schedView env _)
  refine Or.inl ?_
  rcases hs with h0 | ⟨h, d, h1, h2⟩
  · rw [h0] at ha
    exact absurd ha (by simp)
  · rw [h1] at ha
    simp only [List.cons.injEq] at ha
    obtain ⟨rfl, -⟩ := ha
    simp [clearTimeout, h1]

theorem step_inOrder (s : Adapter) (ev : Event) (hs : TimersInOrder s) :
    TimersInOrder (step s ev) := by
  cases ev with
  | ready env => exact scheduleNextTick_inOrder env s hs
  | timer env =>
    unfold step
    cases ha : s.armedTimers with
    | nil => exact hs
    | cons t rest => exact timerCallback_inOrder env s t rest ha hs
  | unload => exact onUnload_inOrder s hs

theorem runEvents_inOrder (events : List Event) (s : Adapter) (hs : TimersInOrder s) :
    TimersInOrder (runEvents s events) := by
  induction events generalizing s with
  | nil => exact hs
  | cons ev rest ih => exact ih (step s ev) (step_inOrder s ev hs)

/-- C7: a tick does not itself invoke `scheduleNextTick`; once its promise has
settled as `r`, resolved or rejected, the timer callback invokes it exactly
once; that invocation leaves the timers alone when `isUnloading` is set and
otherwise clears the timer in `tickTimer` and arms one new timer; and from an
adapter without armed timers, every sequence of ready, timer and unload
events leaves at most one timer armed. -/
theorem rearm_after_tick (env : Env) (adapter : Adapter) (r : Res Unit) (events : List Event)
    (hfresh : adapter.armedTimers = []) :
    (runTick env adapter).state.scheduleCalls = adapter.scheduleCalls
      ∧ (afterTick env r).scheduleCalls = r.state.scheduleCalls + 1
      ∧ (∀ handle, (timerCallback env handle adapter).scheduleCalls = adapter.scheduleCalls + 1)
      ∧ (∀ s : Adapter, s.isUnloading = true →
          (scheduleNextTick env s).armedTimers = s.armedTimers
            ∧ (scheduleNextTick env s).tickTimer = s.tickTimer)
      ∧ (∀ s : Adapter, s.isUnloading = false →
          (scheduleNextTick env s).armedTimers
              = (match s.tickTimer with
                  | some handle => s.armedTimers.filter (fun t => t.1 ≠ handle)
                  | none => s.armedTimers)
                ++ [(s.nextTimerId, alignDelay (getTickIntervalMs env s) (env.now 177 0))]
            ∧ (scheduleNextTick env s).tickTimer = some s.nextTimerId)
      ∧ (runEvents adapter events).armedTimers.length ≤ 1 := by
  have hsv := runTick_schedView env adapter
  simp only [schedView, Prod.mk.injEq] at hsv
  refine ⟨hsv.2.2.2.2.2.2.1, afterTick_scheduleCalls env r, fun handle => ?_,
    fun s hu => scheduleNextTick_unloading env s hu,
    fun s hu => scheduleNextTick_running env s hu, ?_⟩
  · unfold timerCallback
    rw [afterTick_scheduleCalls]
    have h2 := runTick_schedView env (clearTimeout handle adapter)
    simp only [schedView, Prod.mk.injEq] at h2
    rw [h2.2.2.2.2.2.2.1]
    rfl
  · rcases runEvents_inOrder events adapter (Or.inl hfresh) with h0 | ⟨h, d, h1, -⟩
    · simp [h0]
    · simp [h1]

/-- Witness for C7: ready, timer, timer, unload, timer on a fresh adapter. -/
theorem rearm_after_tick_witness :
    (runEvents demoAdapter
        [.ready quietEnv, .timer failingEnv, .timer quietEnv, .unload, .timer quietEnv]
      ).armedTimers.length ≤ 1 :=
  (rearm_after_tick quietEnv demoAdapter (.ok () demoAdapter)
    [.ready quietEnv, .timer failingEnv, .timer quietEnv, .unload, .timer quietEnv] rfl).2.2.2.2.2

/-! ## Interval and budget -/

theorem mathRound_nonneg {q : ℚ} (h : 0 ≤ q) : 0 ≤ mathRound q := by
  unfold mathRound
  rw [Int.floor_nonneg]
  linarith

theorem getTickIntervalMs_nonneg (env : Env) (adapter : Adapter) :
    0 ≤ getTickIntervalMs env adapter := by
  unfold getTickIntervalMs
  apply mathRound_nonneg
  dsimp only
  split
  · split <;> linarith
  · norm_num

theorem budgetRatio_pos (env : Env) (adapter : Adapter) :
    0 < budgetRatio env adapter ∧ budgetRatio env adapter ≤ 1 := by
  unfold budgetRatio
  split
  · split
    · assumption
    · norm_num
  · norm_num

theorem getTickTimeBudgetMs_eq (env : Env) (adapter : Adapter) :
    getTickTimeBudgetMs env adapter
      = max 0 (mathFloor ((getTickIntervalMs env adapter : ℚ) * budgetRatio env adapter)) := rfl

theorem mathFloor_scaled_bounds {i : Int} {r : ℚ} (hi : 0 ≤ i) (h0 : 0 < r) (h1 : r ≤ 1) :
    0 ≤ mathFloor ((i : ℚ) * r) ∧ mathFloor ((i : ℚ) * r) ≤ i := by
  have hq : (0 : ℚ) ≤ (i : ℚ) := by exact_mod_cast hi
  constructor
  · unfold mathFloor
    rw [Int.floor_nonneg]
    positivity
  · unfold mathFloor
    have h : (i : ℚ) * r ≤ (i : ℚ) := by nlinarith
    have := Int.floor_mono h
    rwa [Int.floor_intCast] at this

/-- C8: the budget is `floor(interval * ratio)` with the ratio of
`budgetRatio`; it lies between 0 and the interval; and an adapter with the
default settings (5000 ms interval, ratio 0.8) has a budget of 4000 ms. -/
theorem getTickTimeBudgetMs_spec (env : Env) (adapter : Adapter) :
    getTickTimeBudgetMs env adapter
        = mathFloor ((getTickIntervalMs env adapter : ℚ) * budgetRatio env adapter)
      ∧ 0 ≤ getTickTimeBudgetMs env adapter
      ∧ getTickTimeBudgetMs env adapter ≤ getTickIntervalMs env adapter
      ∧ getTickIntervalMs env {} = 5000
      ∧ budgetRatio env {} = 4 / 5
      ∧ getTickTimeBudgetMs env {} = 4000 := by
  have hb := mathFloor_scaled_bounds (getTickIntervalMs_nonneg env adapter)
    (budgetRatio_pos env adapter).1 (budgetRatio_pos env adapter).2
  have hi : getTickIntervalMs env {} = 5000 := by
    simp only [getTickIntervalMs, toNumber, mathRound]
    norm_num
  have hr : budgetRatio env {} = 4 / 5 := by
    simp only [budgetRatio, toNumber]
    norm_num
  refine ⟨?_, ?_, ?_, hi, hr, ?_⟩
  · rw [getTickTimeBudgetMs_eq]
    exact max_eq_right hb.1
  · rw [getTickTimeBudgetMs_eq]
    exact le_max_left _ _
  · rw [getTickTimeBudgetMs_eq, max_eq_right hb.1]
    exact hb.2
  · rw [getTickTimeBudgetMs_eq, hi, hr]
    simp only [mathFloor]
    norm_num

/-! ## Wall-clock alignment -/

theorem alignDelay_eq {interval now : Int} (hi : 0 < interval) (hn : 0 ≤ now) :
    alignDelay interval now = .fin ((interval - now % interval : Int) : ℚ) := by
  unfold alignDelay
  rw [if_neg (ne_of_gt hi), Int.tmod_eq_emod hn (le_of_lt hi)]

theorem scheduleNextTick_armed (env : Env) (adapter : Adapter)
    (hrun : adapter.isUnloading = false) :
    (scheduleNextTick env adapter).armedTimers.getLast?
      = some (adapter.nextTimerId,
          alignDelay (getTickIntervalMs env adapter) (env.now 177 0)) := by
  unfold scheduleNextTick
  simp only [hrun, Bool.false_eq_true, if_false]
  cases h : adapter.tickTimer <;> simp [clearTimeout, getTickIntervalMs]

/-- C6: when the adapter is not unloading, `scheduleNextTick` arms a timer
whose delay is `interval - (now % interval)`; and for every positive whole
interval and every non-negative whole clock value that delay equals
`interval - (now mod interval)`, is positive, is at most the interval, and
makes `now + delay` the least multiple of the interval strictly after `now`. -/
theorem scheduleNextTick_aligned (env : Env) (adapter : Adapter)
    (hrun : adapter.isUnloading = false) :
    (scheduleNextTick env adapter).armedTimers.getLast?
        = some (adapter.nextTimerId,
            alignDelay (getTickIntervalMs env adapter) (env.now 177 0))
      ∧ ∀ interval now : Int, 0 < interval → 0 ≤ now →
          ∃ delay : Int,
            alignDelay interval now = JsNum.fin (delay : ℚ)
              ∧ delay = interval - now % interval
              ∧ 0 < delay ∧ delay ≤ interval
              ∧ (now + delay) % interval = 0
              ∧ ∀ m : Int, now < m → interval ∣ m → now + delay ≤ m := by
  refine ⟨scheduleNextTick_armed env adapter hrun, fun interval now hpos hnow => ?_⟩
  have hlt : now % interval < interval := Int.emod_lt_of_pos now hpos
  have hge : 0 ≤ now % interval := Int.emod_nonneg now (ne_of_gt hpos)
  refine ⟨interval - now % interval, alignDelay_eq hpos hnow, rfl, by omega, by omega, ?_, ?_⟩
  · have h := Int.emod_add_ediv now interval
    have e : now + (interval - now % interval) = interval * (now / interval + 1) := by
      rw [mul_add, mul_one]
      omega
    rw [e]
    exact Int.mul_emod_right _ _
  · rintro m hm ⟨c, rfl⟩
    have h := Int.emod_add_ediv now interval
    have hc : now / interval < c := by
      by_contra hcon
      have hle : c ≤ now / interval := not_lt.mp hcon
      have : interval * c ≤ interval * (now / interval) :=
        Int.mul_le_mul_of_nonneg_left hle (le_of_lt hpos)
      omega
    have : interval * (now / interval + 1) ≤ interval * c :=
      Int.mul_le_mul_of_nonneg_left hc (le_of_lt hpos)
    rw [mul_add, mul_one] at this
    omega

/-- Witness for C6: a fresh adapter arms timer 1, and a 5 s interval at clock
12 345 ms gives a delay of 2655 ms. -/
theorem scheduleNextTick_aligned_witness :
    (scheduleNextTick quietEnv {}).armedTimers.getLast?
        = some (1, alignDelay (getTickIntervalMs quietEnv {}) (quietEnv.now 177 0))
      ∧ ∃ delay : Int, alignDelay 5000 12345 = JsNum.fin (delay : ℚ) ∧ delay = 2655 := by
  have h := scheduleNextTick_aligned quietEnv {} rfl
  refine ⟨h.1, ?_⟩
  obtain ⟨d, h1, h2, -⟩ := h.2 5000 12345 (by decide) (by decide)
  exact ⟨d, h1, h2.trans (by decide)⟩

/-! ## The formula length guard -/

theorem normalizeChars_blanks (prev : Option Char) (n : Nat) :
    normalizeChars none [] prev (List.replicate n ' ') = List.replicate n ' ' := by
  induction n generalizing prev with
  | zero => rfl
  | succ n ih =>
    rw [List.replicate_succ, normalizeChars]
    have h1 : isWordChar ' ' = false := by decide
    have h2 : ¬ (' ' = Char.ofNat 34 ∨ ' ' = Char.ofNat 39) := by decide
    have h3 : ¬ (' ' = '=') := by decide
    simp only [h1, h2, h3, if_false, Bool.false_eq_true]
    rw [ih]
    rfl

theorem normalizeChars_word_blanks (w : List Char) (prev : Option Char) (n : Nat) :
    normalizeChars none w prev (List.replicate (n + 1) ' ')
      = rewriteWord w ++ List.replicate (n + 1) ' ' := by
  rw [List.replicate_succ, normalizeChars]
  have h1 : isWordChar ' ' = false := by decide
  have h2 : ¬ (' ' = Char.ofNat 34 ∨ ' ' = Char.ofNat 39) := by decide
  have h3 : ¬ (' ' = '=') := by decide
  simp only [h1, h2, h3, if_false, Bool.false_eq_true]
  rw [normalizeChars_blanks]

theorem jsLength_mk_append_blanks (l : List Char) (n : Nat) :
    jsLength (String.mk (l ++ List.replicate n ' ')) = jsLength (String.mk l) + n := by
  have h : (' ' : Char).val < 0x10000 := by decide
  simp [jsLength, List.map_append, List.sum_append, List.map_replicate, List.sum_replicate, h]

theorem normalizeChars_and_padded (n : Nat) :
    normalizeChars none [] none
        ('1' :: ' ' :: 'A' :: 'N' :: 'D' :: ' ' :: '1' :: List.replicate (n + 1) ' ')
      = '1' :: ' ' :: '&' :: '&' :: ' ' :: '1' :: List.replicate (n + 1) ' ' := by
  have w1 : isWordChar '1' = true := by decide
  have wA : isWordChar 'A' = true := by decide
  have wN : isWordChar 'N' = true := by decide
  have wD : isWordChar 'D' = true := by decide
  have h1 : isWordChar ' ' = false := by decide
  have h2 : ¬ (' ' = Char.ofNat 34 ∨ ' ' = Char.ofNat 39) := by decide
  have h3 : ¬ (' ' = '=') := by decide
  have r1 : rewriteWord ['1'] = ['1'] := by decide
  have r2 : rewriteWord ['A', 'N', 'D'] = ['&', '&'] := by decide
  have key := fun w prev => normalizeChars_word_blanks w prev n
  generalize List.replicate (n + 1) ' ' = t at key ⊢
  simp only [List.cons_append, List.nil_append, normalizeChars, w1, wA, wN, wD, h1, h2, h3,
    if_true, if_false, Bool.false_eq_true, key, r1, r2]

theorem normalizeChars_eq_padded (n : Nat) :
    normalizeChars none [] none ('a' :: '=' :: '1' :: List.replicate (n + 1) ' ')
      = 'a' :: '=' :: '=' :: '1' :: List.replicate (n + 1) ' ' := by
  have w1 : isWordChar '1' = true := by decide
  have wa : isWordChar 'a' = true := by decide
  have we : isWordChar '=' = false := by decide
  have h2 : ¬ ('=' = Char.ofNat 34 ∨ '=' = Char.ofNat 39) := by decide
  have h4 : ¬ (some 'a' ∈ [some '=', some '!', some '<', some '>'] ∨ some '1' = some '=') := by
    decide
  have r1 : rewriteWord ['1'] = ['1'] := by decide
  have r2 : rewriteWord ['a'] = ['a'] := by decide
  have key := fun w prev => normalizeChars_word_blanks w prev n
  generalize List.replicate (n + 1) ' ' = t at key ⊢
  simp only [List.cons_append, List.nil_append, normalizeChars, w1, wa, we, h2, h4, List.head?,
    if_true, if_false, Bool.false_eq_true, key, r1, r2]

theorem specNormalize_paddedAndFormula :
    specNormalize paddedAndFormula
      = String.mk (['1', ' ', '&', '&', ' ', '1'] ++ List.replicate 7994 ' ') :=
  congrArg String.mk (normalizeChars_and_padded 7993)

theorem specNormalize_paddedEqFormula :
    specNormalize paddedEqFormula
      = String.mk (['a', '=', '=', '1'] ++ List.replicate 7997 ' ') :=
  congrArg String.mk (normalizeChars_eq_padded 7996)

/-- C9, as stated, fails on the code: the guard measures the normalised text.
A formula text of 8001 characters is accepted (and parsed, analysed and
evaluated) because `AND` shrinks to `&&`, and a formula text of 8000
characters is rejected because `=` grows to `==`. -/
theorem evalFormula_raw_length_refuted :
    (jsLength paddedAndFormula = 8001
      ∧ (evalFormula specFormulaLib {} paddedAndFormula []).calls
          = ["parseExpression", "analyzeAst", "evalFormulaAst"]
      ∧ (evalFormula specFormulaLib {} paddedAndFormula []).result = .ok .null)
    ∧ (jsLength paddedEqFormula = 8000
      ∧ (evalFormula specFormulaLib {} paddedEqFormula []).calls = []
      ∧ (evalFormula specFormulaLib {} paddedEqFormula []).result
          = .error "Formula too long (>8000 chars)") := by
  have hA : jsLength (specNormalize paddedAndFormula) = 8000 := by
    rw [specNormalize_paddedAndFormula, jsLength_mk_append_blanks]
    rfl
  have hE : jsLength (specNormalize paddedEqFormula) = 8001 := by
    rw [specNormalize_paddedEqFormula, jsLength_mk_append_blanks]
    rfl
  have hE0 : specNormalize paddedEqFormula ≠ "" := by
    intro h
    rw [h] at hE
    exact absurd hE (by decide)
  refine ⟨⟨?_, ?_, ?_⟩, ?_, ?_, ?_⟩
  · unfold paddedAndFormula
    rw [jsLength_mk_append_blanks]
    rfl
  · simp [evalFormula, specFormulaLib, hA]
  · simp [evalFormula, specFormulaLib, hA]
  · unfold paddedEqFormula
    rw [jsLength_mk_append_blanks]
    rfl
  · simp [evalFormula, specFormulaLib, hE, hE0]
  · simp [evalFormula, specFormulaLib, hE, hE0]
    rfl

/-- C9, amended: whatever the library functions are, a formula whose
normalised text is longer than `MAX_FORMULA_LENGTH` makes `evalFormula` raise
`Formula too long` without invoking the parser, the analyser or the evaluator,
and a formula whose normalised text is at most that long passes the guard, so
that the parser is invoked. -/
theorem evalFormula_length_guard {Ast : Type} (lib : FormulaLib Ast) (adapter : Adapter)
    (expr : String) (vars : List (String × JsVal)) :
    (jsLength (lib.normalizeFormulaExpression expr) > adapter.MAX_FORMULA_LENGTH →
      (evalFormula lib adapter expr vars).calls = []
        ∧ (evalFormula lib adapter expr vars).result
            = .error ("Formula too long (>" ++ toString adapter.MAX_FORMULA_LENGTH ++ " chars)"))
    ∧ (jsLength (lib.normalizeFormulaExpression expr) ≤ adapter.MAX_FORMULA_LENGTH →
      (evalFormula lib adapter expr vars).calls.head? = some "parseExpression") := by
  constructor
  · intro h
    have h0 : lib.normalizeFormulaExpression expr ≠ "" := by
      intro h0
      rw [h0] at h
      exact absurd h (Nat.not_lt_zero _)
    simp [evalFormula, h0, h]
  · intro h
    have h1 : ¬ (lib.normalizeFormulaExpression expr ≠ ""
        ∧ jsLength (lib.normalizeFormulaExpression expr) > adapter.MAX_FORMULA_LENGTH) :=
      fun hc => absurd hc.2 (Nat.not_lt.mpr h)
    unfold evalFormula
    simp only [h1, if_false]
    split
    · rfl
    · split <;> rfl

/-- Witness for C9: with the normaliser of the specification, the padded
`a=1` is rejected unparsed and the plain `a=1` reaches the parser. -/
theorem evalFormula_length_guard_witness :
    ((evalFormula specFormulaLib {} paddedEqFormula []).calls = []
      ∧ (evalFormula specFormulaLib {} paddedEqFormula []).result
          = .error ("Formula too long (>" ++ toString (8000 : Nat) ++ " chars)"))
    ∧ (evalFormula specFormulaLib {} "a=1" []).calls.head? = some "parseExpression" := by
  refine ⟨(evalFormula_length_guard specFormulaLib {} paddedEqFormula []).1 ?_,
    (evalFormula_length_guard specFormulaLib {} "a=1" []).2 ?_⟩
  · show jsLength (specNormalize paddedEqFormula) > 8000
    rw [specNormalize_paddedEqFormula, jsLength_mk_append_blanks]
    decide
  · show jsLength (specNormalize "a=1") ≤ 8000
    decide

/-! ## Throttled logging -/

theorem warnOnce_logLines (k m : String) (a : Adapter) :
    (warnOnce k m a).logLines
      = if k ∈ keysAtTest a.jsonPathWarned then a.logLines else a.logLines ++ [(.warn, m)] := by
  unfold warnOnce keysAtTest logLine
  by_cases h : a.jsonPathWarned.length > 500 <;> simp only [h, if_true, if_false] <;>
    split <;> simp_all

theorem warnOnce_keys (k m : String) (a : Adapter) :
    (warnOnce k m a).jsonPathWarned
      = if k ∈ keysAtTest a.jsonPathWarned then keysAtTest a.jsonPathWarned
        else keysAtTest a.jsonPathWarned ++ [k] := by
  unfold warnOnce keysAtTest logLine
  by_cases h : a.jsonPathWarned.length > 500 <;> simp only [h, if_true, if_false] <;>
    split <;> simp_all

theorem debugOnce_logLines (k m : String) (a : Adapter) :
    (debugOnce k m a).logLines
      = if k ∈ keysAtTest a.debugOnceKeys then a.logLines else a.logLines ++ [(.debug, m)] := by
  unfold debugOnce keysAtTest logLine
  by_cases h : a.debugOnceKeys.length > 500 <;> simp only [h, if_true, if_false] <;>
    split <;> simp_all

theorem debugOnce_keys (k m : String) (a : Adapter) :
    (debugOnce k m a).debugOnceKeys
      = if k ∈ keysAtTest a.debugOnceKeys then keysAtTest a.debugOnceKeys
        else keysAtTest a.debugOnceKeys ++ [k] := by
  unfold debugOnce keysAtTest logLine
  by_cases h : a.debugOnceKeys.length > 500 <;> simp only [h, if_true, if_false] <;>
    split <;> simp_all

theorem keysAtTest_of_le {keys : List String} (h : keys.length ≤ 500) :
    keysAtTest keys = keys := by
  unfold keysAtTest
  rw [if_neg (Nat.not_lt.mpr h)]

theorem warnAll_logLines (calls : List (String × String)) (a : Adapter)
    (h : warnKeysKept a calls = true) :
    (warnAll calls a).logLines
      = a.logLines ++ (firstSeen a.jsonPathWarned calls).map (fun c => (LogLevel.warn, c.2)) := by
  induction calls generalizing a with
  | nil => simp [warnAll, firstSeen]
  | cons c cs ih =>
    simp only [warnKeysKept, Bool.and_eq_true, decide_eq_true_eq] at h
    have hk := keysAtTest_of_le h.1
    have step : warnAll (c :: cs) a = warnAll cs (warnOnce c.1 c.2 a) := rfl
    rw [step, ih _ h.2, warnOnce_logLines, warnOnce_keys, hk, firstSeen]
    by_cases hc : c.1 ∈ a.jsonPathWarned <;> simp [hc]

theorem debugAll_logLines (calls : List (String × String)) (a : Adapter)
    (h : debugKeysKept a calls = true) :
    (debugAll calls a).logLines
      = a.logLines ++ (firstSeen a.debugOnceKeys calls).map (fun c => (LogLevel.debug, c.2)) := by
  induction calls generalizing a with
  | nil => simp [debugAll, firstSeen]
  | cons c cs ih =>
    simp only [debugKeysKept, Bool.and_eq_true, decide_eq_true_eq] at h
    have hk := keysAtTest_of_le h.1
    have step : debugAll (c :: cs) a = debugAll cs (debugOnce c.1 c.2 a) := rfl
    rw [step, ih _ h.2, debugOnce_logLines, debugOnce_keys, hk, firstSeen]
    by_cases hc : c.1 ∈ a.debugOnceKeys <;> simp [hc]

theorem firstSeen_count (k : String) (calls : List (String × String)) (seen : List String) :
    ((firstSeen seen calls).filter (fun c => c.1 = k)).length
      = if k ∈ seen then 0 else if k ∈ calls.map (fun c => c.1) then 1 else 0 := by
  induction calls generalizing seen with
  | nil => simp [firstSeen]
  | cons c cs ih =>
    unfold firstSeen
    by_cases hc : c.1 ∈ seen
    · rw [if_pos hc, ih]
      by_cases hk : k ∈ seen
      · simp [hk]
      · have hne : ¬ k = c.1 := fun e => hk (e ▸ hc)
        have hm : k ∈ c.1 :: List.map (fun c => c.1) cs ↔ k ∈ List.map (fun c => c.1) cs := by
          rw [List.mem_cons]
          exact ⟨fun h => h.resolve_left hne, Or.inr⟩
        simp only [hk, if_false, List.map_cons]
        exact (if_congr hm rfl rfl).symm
    · rw [if_neg hc]
      by_cases hck : c.1 = k
      · subst hck
        simp [ih, hc]
      · have hne : ¬ k = c.1 := fun e => hck e.symm
        have hm : k ∈ c.1 :: List.map (fun c => c.1) cs ↔ k ∈ List.map (fun c => c.1) cs := by
          rw [List.mem_cons]
          exact ⟨fun h => h.resolve_left hne, Or.inr⟩
        have hs : k ∈ seen ++ [c.1] ↔ k ∈ seen := by
          rw [List.mem_append, List.mem_singleton]
          exact ⟨fun h => h.resolve_right hne, Or.inl⟩
        simp only [List.filter_cons, hck, decide_False, Bool.false_eq_true, if_false, ih,
          List.map_cons]
        rw [if_congr hs rfl rfl, if_congr hm rfl rfl]

theorem firstSeen_find (k : String) (calls : List (String × String)) (seen : List String)
    (hk : k ∉ seen) :
    (firstSeen seen calls).find? (fun c => c.1 = k) = calls.find? (fun c => c.1 = k) := by
  induction calls generalizing seen with
  | nil => simp [firstSeen]
  | cons c cs ih =>
    unfold firstSeen
    by_cases hc : c.1 ∈ seen
    · have hne : ¬ c.1 = k := fun e => hk (e ▸ hc)
      rw [if_pos hc, ih seen hk]
      simp [List.find?_cons, hne]
    · rw [if_neg hc]
      by_cases hck : c.1 = k
      · simp [List.find?_cons, hck]
      · have hk2 : k ∉ seen ++ [c.1] := by
          simp only [List.mem_append, List.mem_singleton, not_or]
          exact ⟨hk, fun e => hck e.symm⟩
        simp [List.find?_cons, hck, ih _ hk2]

/-- C10: a `warnOnce` (resp. `debugOnce`) call emits its message exactly when
its key is not in the key set at the membership test; and over a stretch of
calls during which the key set is never cleared, the emitted messages are
those of the calls whose key was not seen before, so that a key already in the
set causes no emission and any other key exactly one, on its first call,
however often it is repeated. -/
theorem throttled_once_per_key (adapter : Adapter) (calls : List (String × String))
    (hw : warnKeysKept adapter calls = true) (hd : debugKeysKept adapter calls = true) :
    (∀ k m : String, (warnOnce k m adapter).logLines
        = if k ∈ keysAtTest adapter.jsonPathWarned then adapter.logLines
          else adapter.logLines ++ [(.warn, m)])
    ∧ (∀ k m : String, (debugOnce k m adapter).logLines
        = if k ∈ keysAtTest adapter.debugOnceKeys then adapter.logLines
          else adapter.logLines ++ [(.debug, m)])
    ∧ (warnAll calls adapter).logLines
        = adapter.logLines
          ++ (firstSeen adapter.jsonPathWarned calls).map (fun c => (LogLevel.warn, c.2))
    ∧ (debugAll calls adapter).logLines
        = adapter.logLines
          ++ (firstSeen adapter.debugOnceKeys calls).map (fun c => (LogLevel.debug, c.2))
    ∧ (∀ (seen : List String) (k : String),
        ((firstSeen seen calls).filter (fun c => c.1 = k)).length
          = if k ∈ seen then 0 else if k ∈ calls.map (fun c => c.1) then 1 else 0)
    ∧ (∀ (seen : List String) (k : String), k ∉ seen →
        (firstSeen seen calls).find? (fun c => c.1 = k) = calls.find? (fun c => c.1 = k)) :=
  ⟨fun k m => warnOnce_logLines k m adapter, fun k m => debugOnce_logLines k m adapter,
    warnAll_logLines calls adapter hw, debugAll_logLines calls adapter hd,
    fun seen k => firstSeen_count k calls seen, fun seen k hk => firstSeen_find k calls seen hk⟩

/-- Witness for C10: three calls with two distinct keys on a fresh adapter
emit two messages. -/
theorem throttled_once_per_key_witness :
    (warnAll [("a", "first"), ("a", "again"), ("b", "other")] {}).logLines
      = [(.warn, "first"), (.warn, "other")] := by
  have h := (throttled_once_per_key {} [("a", "first"), ("a", "again"), ("b", "other")]
    (by decide) (by decide)).2.2.1
  rw [h]
  decide

/-! ## The interval for small positive settings -/

theorem getTickIntervalMs_of_reading (env : Env) (adapter : Adapter) :
    getTickIntervalMs env adapter
      = match toNumber env.stringToNumber
            (if adapter.config.pollIntervalSeconds ≠ .undefined
              then adapter.config.pollIntervalSeconds else .num (.fin 5)) with
        | .fin q => if 0 < q then mathRound (q * 1000) else 5000
        | _ => 5000 := by
  unfold getTickIntervalMs
  dsimp only
  split
  · split
    · rfl
    · simp only [mathRound]
      norm_num
  · simp only [mathRound]
    norm_num

theorem mathRound_pos_iff (q : ℚ) : 0 < mathRound (q * 1000) ↔ 1 / 2000 ≤ q := by
  unfold mathRound
  rw [Int.lt_iff_add_one_le, zero_add, Int.le_floor]
  constructor
  · intro h
    have : (1 : ℚ) ≤ q * 1000 + 1 / 2 := by exact_mod_cast h
    linarith
  · intro h
    have : (1 : ℚ) ≤ q * 1000 + 1 / 2 := by linarith
    exact_mod_cast this

/-- C13, the failing input: for `pollIntervalSeconds = 0.0004`, a positive
finite number, `getTickIntervalMs` returns `Math.round(0.4) = 0`, which is not
strictly positive; `scheduleNextTick` then computes `now % 0`, so its delay is
`NaN`. -/
theorem getTickIntervalMs_tiny_seconds (env : Env) :
    getTickIntervalMs env tinyPollAdapter = 0
      ∧ alignDelay (getTickIntervalMs env tinyPollAdapter) (env.now 177 0) = .nan := by
  have h : getTickIntervalMs env tinyPollAdapter = 0 := by
    rw [getTickIntervalMs_of_reading]
    have hne : ¬ (JsVal.num (JsNum.fin (1 / 2500)) = JsVal.undefined) := by
      intro hc
      cases hc
    simp only [tinyPollAdapter, ne_eq, hne, not_false_eq_true, if_true, toNumber, mathRound]
    norm_num
  refine ⟨h, ?_⟩
  rw [h]
  rfl

/-! ## Bounded key sets -/

theorem keysAtTest_length (keys : List String) : (keysAtTest keys).length ≤ 500 := by
  unfold keysAtTest
  split
  · simp
  · omega

theorem warnOnce_keys_bounded (k m : String) (s : Adapter) :
    (warnOnce k m s).jsonPathWarned.length ≤ 501 := by
  rw [warnOnce_keys]
  have := keysAtTest_length s.jsonPathWarned
  split
  · omega
  · simp only [List.length_append, List.length_singleton]
    omega

theorem debugOnce_keys_bounded (k m : String) (s : Adapter) :
    (debugOnce k m s).debugOnceKeys.length ≤ 501 := by
  rw [debugOnce_keys]
  have := keysAtTest_length s.debugOnceKeys
  split
  · omega
  · simp only [List.length_append, List.length_singleton]
    omega

theorem warnAll_keys_bounded (calls : List (String × String)) (s : Adapter)
    (h : s.jsonPathWarned.length ≤ 501) : (warnAll calls s).jsonPathWarned.length ≤ 501 := by
  induction calls generalizing s with
  | nil => exact h
  | cons c cs ih => exact ih (warnOnce c.1 c.2 s) (warnOnce_keys_bounded c.1 c.2 s)

theorem debugAll_keys_bounded (calls : List (String × String)) (s : Adapter)
    (h : s.debugOnceKeys.length ≤ 501) : (debugAll calls s).debugOnceKeys.length ≤ 501 := by
  induction calls generalizing s with
  | nil => exact h
  | cons c cs ih => exact ih (debugOnce c.1 c.2 s) (debugOnce_keys_bounded c.1 c.2 s)

theorem warnOnce_clears (k m : String) (s : Adapter) (h : s.jsonPathWarned.length > 500) :
    (warnOnce k m s).jsonPathWarned = [k]
      ∧ (warnOnce k m s).logLines = s.logLines ++ [(.warn, m)] := by
  rw [warnOnce_keys, warnOnce_logLines]
  simp [keysAtTest, h]

theorem debugOnce_clears (k m : String) (s : Adapter) (h : s.debugOnceKeys.length > 500) :
    (debugOnce k m s).debugOnceKeys = [k]
      ∧ (debugOnce k m s).logLines = s.logLines ++ [(.debug, m)] := by
  rw [debugOnce_keys, debugOnce_logLines]
  simp [keysAtTest, h]

/-- C14: starting from empty key sets, after every sequence of `warnOnce`
(resp. `debugOnce`) calls the key set holds at most 501 keys; a call that
finds more than 500 keys leaves exactly its own key in the set, and it emits
its message whether or not its key was in the set before. -/
theorem throttle_keys_bounded (adapter : Adapter) (calls : List (String × String))
    (hw : adapter.jsonPathWarned = []) (hd : adapter.debugOnceKeys = []) :
    (warnAll calls adapter).jsonPathWarned.length ≤ 501
      ∧ (debugAll calls adapter).debugOnceKeys.length ≤ 501
      ∧ (∀ (s : Adapter) (k m : String), s.jsonPathWarned.length > 500 →
          (warnOnce k m s).jsonPathWarned = [k]
            ∧ (warnOnce k m s).logLines = s.logLines ++ [(.warn, m)])
      ∧ (∀ (s : Adapter) (k m : String), s.debugOnceKeys.length > 500 →
          (debugOnce k m s).debugOnceKeys = [k]
            ∧ (debugOnce k m s).logLines = s.logLines ++ [(.debug, m)]) :=
  ⟨warnAll_keys_bounded calls adapter (by simp [hw]),
    debugAll_keys_bounded calls adapter (by simp [hd]),
    fun s k m h => warnOnce_clears k m s h, fun s k m h => debugOnce_clears k m s h⟩

/-- Witness for C14: two calls on a fresh adapter stay within the bound, and a
call with the key `7` on a set of 501 keys that contains `7` clears the set
and emits. -/
theorem throttle_keys_bounded_witness :
    (warnAll [("a", "x"), ("b", "y")] {}).jsonPathWarned.length ≤ 501
      ∧ "7" ∈ fullKeysAdapter.jsonPathWarned
      ∧ (warnOnce "7" "again" fullKeysAdapter).jsonPathWarned = ["7"]
      ∧ (warnOnce "7" "again" fullKeysAdapter).logLines
          = fullKeysAdapter.logLines ++ [(.warn, "again")] := by
  have h := throttle_keys_bounded {} [("a", "x"), ("b", "y")] rfl rfl
  have hlen : fullKeysAdapter.jsonPathWarned.length > 500 := by
    simp [fullKeysAdapter]
  have hmem : "7" ∈ fullKeysAdapter.jsonPathWarned := by
    simp only [fullKeysAdapter, List.mem_map, List.mem_range]
    exact ⟨7, by omega, rfl⟩
  exact ⟨h.1, hmem, (h.2.2.1 fullKeysAdapter "7" "again" hlen).1,
    (h.2.2.1 fullKeysAdapter "7" "again" hlen).2⟩

/-! ## Writes to one identifier -/

theorem issued_filter_nil (env : Env) (idx : Nat) (t : String)
    (ws : List (Nat × String × JsVal)) (h : ∀ w ∈ ws, w.2.1 ≠ t) :
    (issued env idx ws).filter (fun w => w.1 = t) = [] := by
  induction ws with
  | nil => rfl
  | cons w rest ih =>
    have hw : ¬ w.2.1 = t := h w (List.mem_cons_self _ _)
    have ih2 := ih (fun x hx => h x (List.mem_cons_of_mem _ hx))
    unfold issued
    cases env.writeRaises w.1 idx with
    | some e => simp [List.filter_cons, hw]
    | none => simp [List.filter_cons, hw, ih2]

theorem hostWrites_writesTo (env : Env) (idx : Nat) (t : String)
    (ws : List (Nat × String × JsVal)) (s : Adapter) (h : ∀ w ∈ ws, w.2.1 ≠ t) :
    writesTo t (hostWrites env idx ws s) = writesTo t s := by
  rw [hostWrites_eq]
  simp only [writesTo, List.filter_append, issued_filter_nil env idx t ws h, List.append_nil]

theorem not_mem_metaIdsOf_self (t : String) : t ∉ metaIdsOf t := by
  have hlen : ∀ sfx : String, t ≠ getItemInfoBaseId t ++ sfx := by
    intro sfx hc
    have := congrArg String.length hc
    simp only [getItemInfoBaseId, String.length_append] at this
    have h6 : "items.".length = 6 := by decide
    omega
  simp only [metaIdsOf, List.mem_cons, List.mem_singleton, List.not_mem_nil, or_false, not_or]
  exact ⟨hlen _, hlen _, hlen _, hlen _⟩

theorem ne_of_not_mem_metaIdsOf {t id : String} (h : t ∉ metaIdsOf id) :
    getItemInfoBaseId id ++ ".lastOkTs" ≠ t
      ∧ getItemInfoBaseId id ++ ".lastEvalMs" ≠ t
      ∧ getItemInfoBaseId id ++ ".lastError" ≠ t
      ∧ getItemInfoBaseId id ++ ".consecutiveErrors" ≠ t := by
  simp only [metaIdsOf, List.mem_cons, List.mem_singleton, List.not_mem_nil, or_false,
    not_or] at h
  exact ⟨fun e => h.1 e.symm, fun e => h.2.1 e.symm, fun e => h.2.2.1 e.symm,
    fun e => h.2.2.2 e.symm⟩

theorem itemSucceeded_writesTo (env : Env) (idx : Nat) (targetId t : String) (itemStart : Int)
    (value : JsVal) (s : Adapter) (hm : t ∉ metaIdsOf targetId) :
    writesTo t (itemSucceeded env idx targetId itemStart value s) = writesTo t s := by
  obtain ⟨h1, h2, h3, h4⟩ := ne_of_not_mem_metaIdsOf hm
  unfold itemSucceeded
  rw [hostWrites_writesTo]
  · rfl
  · intro w hw
    simp only [List.mem_cons, List.mem_singleton, List.not_mem_nil, or_false] at hw
    rcases hw with rfl | rfl | rfl | rfl
    · exact h1
    · exact h2
    · exact h3
    · exact h4

theorem failureInfoWrites_filter (env : Env) (item : Item) (idx : Nat) (targetId t : String)
    (itemStart : Int) (e : String) (s : Adapter)
    (hi : t ≠ "info.lastError") (hm : t ∉ metaIdsOf targetId) :
    (failureInfoWrites env item idx targetId itemStart e s).filter (fun w => w.1 = t) = [] := by
  obtain ⟨h1, h2, h3, h4⟩ := ne_of_not_mem_metaIdsOf hm
  unfold failureInfoWrites
  rw [List.filter_append, issued_filter_nil, issued_filter_nil]
  · rfl
  · intro w hw
    simp only [List.mem_cons, List.mem_singleton, List.not_mem_nil, or_false] at hw
    rcases hw with rfl | rfl | rfl
    · exact h3
    · exact h2
    · exact h4
  · intro w hw
    simp only [List.mem_singleton] at hw
    subst hw
    exact fun e => hi e.symm

theorem retryWrite_ids (env : Env) (retries : Int) (item : Item) (targetId : String)
    (s : Adapter) : ∀ w ∈ retryWrite env retries item targetId s, w.1 = targetId := by
  intro w hw
  unfold retryWrite at hw
  dsimp only at hw
  split at hw
  · simp only [List.mem_singleton] at hw
    rw [hw]
  · split at hw
    · simp only [List.mem_singleton] at hw
      rw [hw]
    · exact absurd hw (List.not_mem_nil _)

theorem itemFailed_writesTo (env : Env) (retries : Int) (item : Item) (idx : Nat)
    (targetId t : String) (itemStart : Int) (e : String) (s : Adapter)
    (hi : t ≠ "info.lastError") (hm : t ∉ metaIdsOf targetId) :
    writesTo t (itemFailed env retries item idx targetId itemStart e s)
      = writesTo t s
        ++ (retryWrite env retries item targetId s).filter (fun w => w.1 = t) := by
  unfold writesTo
  rw [itemFailed_writeLog, List.filter_append, List.filter_append,
    failureInfoWrites_filter env item idx targetId t itemStart e s hi hm, List.append_nil]

theorem filter_eq_self_of_ids {l : List (String × JsVal)} {t : String}
    (h : ∀ w ∈ l, w.1 = t) : l.filter (fun w => w.1 = t) = l := by
  rw [List.filter_eq_self]
  intro w hw
  simp [h w hw]

theorem filter_eq_nil_of_ids {l : List (String × JsVal)} {t id : String}
    (h : ∀ w ∈ l, w.1 = id) (hne : id ≠ t) : l.filter (fun w => w.1 = t) = [] := by
  rw [List.filter_eq_nil_iff]
  intro w hw
  simp [h w hw, hne]

theorem itemStep_writesTo_other (env : Env) (retries : Int) (snapshot : Snapshot) (item : Item)
    (idx : Nat) (s : Adapter) (t : String) (ht : env.getItemOutputId item ≠ t)
    (hi : t ≠ "info.lastError") (hm : t ∉ metaIdsOf (env.getItemOutputId item)) :
    writesTo t (itemStep env retries snapshot item idx s) = writesTo t s := by
  by_cases h : env.getItemOutputId item = ""
  · rw [itemStep_noTarget _ _ _ _ _ _ h]
  · cases hv : evalOutcome env item snapshot with
    | error e =>
      rw [itemStep_evalFails _ _ _ _ _ _ e h hv, itemFailed_writesTo _ _ _ _ _ _ _ _ _ hi hm,
        filter_eq_nil_of_ids (retryWrite_ids _ _ _ _ _) ht, List.append_nil]
      rfl
    | ok value =>
      cases hw : env.writeRaises 110 idx with
      | none =>
        rw [itemStep_ok _ _ _ _ _ _ value h hv hw, itemSucceeded_writesTo _ _ _ _ _ _ _ hm]
        simp [writesTo, wrote, ht]
      | some e =>
        rw [itemStep_writeFails _ _ _ _ _ _ value e h hv hw,
          itemFailed_writesTo _ _ _ _ _ _ _ _ _ hi hm,
          filter_eq_nil_of_ids (retryWrite_ids _ _ _ _ _) ht, List.append_nil]
        simp [writesTo, wrote, ht]

theorem retryWrite_congr (env : Env) (retries : Int) (item : Item) (t : String)
    {s s2 : Adapter} (hg : s2.lastGoodValue t = s.lastGoodValue t)
    (hc : s2.consecutiveErrorCounts t = s.consecutiveErrorCounts t) :
    retryWrite env retries item t s2 = retryWrite env retries item t s := by
  unfold retryWrite
  rw [hg, hc]

theorem failureInfoWrites_congr (env : Env) (item : Item) (idx : Nat) (t : String)
    (itemStart : Int) (e : String) {s s2 : Adapter}
    (hc : s2.consecutiveErrorCounts t = s.consecutiveErrorCounts t) :
    failureInfoWrites env item idx t itemStart e s2
      = failureInfoWrites env item idx t itemStart e s := by
  unfold failureInfoWrites
  rw [hc]

/-- The items the loop reaches do not write to an identifier that is neither
their output nor one of their metadata identifiers. -/
theorem loopState_writesTo_reached (env : Env) (start budget retries : Int)
    (snapshot : Snapshot) (total : Nat) (t : String) (hi : t ≠ "info.lastError")
    (items : List Item) (idx : Nat) (s : Adapter)
    (ht : ∀ it ∈ items.take (reached env start budget idx items),
      env.getItemOutputId it = ""
        ∨ (env.getItemOutputId it ≠ t ∧ t ∉ metaIdsOf (env.getItemOutputId it))) :
    writesTo t (loopState env start budget retries snapshot total idx items s)
      = writesTo t s := by
  induction items generalizing idx s with
  | nil => rfl
  | cons item rest ih =>
    cases h : budgetExceeded env start budget idx with
    | true =>
      rw [loopState_cons_exceeded _ _ _ _ _ _ _ _ _ _ h]
      simp [writesTo]
    | false =>
      simp only [reached, h, Bool.false_eq_true, if_false, List.take_succ_cons] at ht
      rw [loopState_cons_within _ _ _ _ _ _ _ _ _ _ h,
        ih _ _ (fun it hit => ht it (List.mem_cons_of_mem _ hit))]
      rcases ht item (List.mem_cons_self _ _) with h0 | ⟨h1, h2⟩
      · rw [itemStep_noTarget _ _ _ _ _ _ h0]
      · exact itemStep_writesTo_other _ _ _ _ _ _ _ h1 hi h2

/-- The items the loop reaches leave the runtime state of every identifier
that is not their output as it was. -/
theorem loopState_runtimeAt_reached (env : Env) (start budget retries : Int)
    (snapshot : Snapshot) (total : Nat) (t : String) (items : List Item) (idx : Nat)
    (s : Adapter)
    (ht : ∀ it ∈ items.take (reached env start budget idx items),
      env.getItemOutputId it = "" ∨ env.getItemOutputId it ≠ t) :
    runtimeAt t (loopState env start budget retries snapshot total idx items s)
      = runtimeAt t s := by
  induction items generalizing idx s with
  | nil => rfl
  | cons item rest ih =>
    cases h : budgetExceeded env start budget idx with
    | true =>
      rw [loopState_cons_exceeded _ _ _ _ _ _ _ _ _ _ h]
      simp [runtimeAt]
    | false =>
      simp only [reached, h, Bool.false_eq_true, if_false, List.take_succ_cons] at ht
      rw [loopState_cons_within _ _ _ _ _ _ _ _ _ _ h,
        ih _ _ (fun it hit => ht it (List.mem_cons_of_mem _ hit))]
      rcases ht item (List.mem_cons_self _ _) with h0 | h1
      · rw [itemStep_noTarget _ _ _ _ _ _ h0]
      · exact itemStep_runtimeAt_other _ _ _ _ _ _ _ h1

theorem not_mem_infoIds {t : String} (h : t ∉ infoIds) :
    "info.lastError" ≠ t ∧ "info.itemsConfigured" ≠ t ∧ "info.itemsEnabled" ≠ t
      ∧ "info.status" ≠ t ∧ "info.timeBudgetMs" ≠ t ∧ "info.skippedItems" ≠ t
      ∧ "info.lastRun" ≠ t ∧ "info.evalTimeMs" ≠ t := by
  simp only [infoIds, List.mem_cons, List.mem_singleton, List.not_mem_nil, or_false,
    not_or] at h
  obtain ⟨h1, h2, h3, h4, h5, h6, h7, h8⟩ := h
  exact ⟨fun e => h1 e.symm, fun e => h2 e.symm, fun e => h3 e.symm, fun e => h4 e.symm,
    fun e => h5 e.symm, fun e => h6 e.symm, fun e => h7 e.symm, fun e => h8 e.symm⟩

theorem tickPrelude_writesTo (env : Env) (s : Adapter) (t : String) (h : t ∉ infoIds) :
    writesTo t (tickPrelude env s) = writesTo t s := by
  obtain ⟨h1, h2, h3, h4, h5, h6, -, -⟩ := not_mem_infoIds h
  have hA : ∀ (line : Nat) (e : String),
      (issued env 0 [(line, "info.lastError", .str e)]).filter (fun w => w.1 = t) = [] := by
    intro line e
    apply issued_filter_nil
    intro w hw
    simp only [List.mem_singleton] at hw
    subst hw
    exact h1
  have hB : ∀ (a b c d f : JsVal),
      (issued env 0
        [(63, "info.itemsConfigured", a), (64, "info.itemsEnabled", b), (65, "info.status", c),
         (66, "info.timeBudgetMs", d), (67, "info.skippedItems", f)]).filter
          (fun w => w.1 = t) = [] := by
    intro a b c d f
    apply issued_filter_nil
    intro w hw
    simp only [List.mem_cons, List.mem_singleton, List.not_mem_nil, or_false] at hw
    rcases hw with rfl | rfl | rfl | rfl | rfl
    · exact h2
    · exact h3
    · exact h4
    · exact h5
    · exact h6
  unfold tickPrelude writesTo
  simp only [hostWrites_eq]
  cases env.ensureCompiledForCurrentConfig (configItems s) <;>
    cases env.buildSnapshotForTick (configItems s) <;>
    simp only [logLine, List.filter_append, hA, hB, List.append_nil]

theorem tickState_writesTo (env : Env) (s : Adapter) (t : String) (h : t ∉ infoIds) :
    writesTo t (tickState env s) = writesTo t (tickLoopState env s) := by
  obtain ⟨-, -, -, -, -, h6, h7, h8⟩ := not_mem_infoIds h
  unfold tickState
  rw [hostWrites_writesTo]
  · rfl
  · intro w hw
    simp only [List.mem_cons, List.mem_singleton, List.not_mem_nil, or_false] at hw
    rcases hw with rfl | rfl | rfl
    · exact h6
    · exact h7
    · exact h8

theorem tickState_writeLog_append (env : Env) (s : Adapter) :
    (tickState env s).writeLog = s.writeLog ++ tickWrites env s := by
  obtain ⟨l, hl⟩ := tickLoopState_writeLog env s
  unfold tickWrites
  rw [runTick_state, tickState_writeLog, hl, List.append_assoc]
  simp

theorem tickWritesTo_of_writesTo {env : Env} {s : Adapter} {t : String}
    {l : List (String × JsVal)} (h : writesTo t (tickState env s) = writesTo t s ++ l) :
    tickWritesTo env s t = l := by
  unfold writesTo at h
  rw [tickState_writeLog_append, List.filter_append] at h
  exact List.append_cancel_left h

/-! ## One item, evaluated once in the tick -/

/-- The tick around the pass of an item whose output identifier `t` no other
enabled item shares: the runtime state of `t` and the writes to `t` are those
of that pass. -/
theorem tick_once (env : Env) (s : Adapter) (pre post : List Item) (item : Item)
    (hitems : enabledItems s = pre ++ item :: post)
    (hbudget : ∀ j, j ≤ pre.length →
      ¬ (getTickTimeBudgetMs env s > 0
        ∧ env.now 89 j - env.now 41 0 > getTickTimeBudgetMs env s))
    (hpre : ∀ it ∈ pre, env.getItemOutputId it ≠ env.getItemOutputId item)
    (hpost : ∀ it ∈ post, env.getItemOutputId it ≠ env.getItemOutputId item) :
    ∃ s1 : Adapter,
      runtimeAt (env.getItemOutputId item) s1 = runtimeAt (env.getItemOutputId item) s
      ∧ runtimeAt (env.getItemOutputId item) (tickState env s)
          = runtimeAt (env.getItemOutputId item)
              (itemStep env (getErrorRetriesBeforeZero env s) (tickSnapshot env s) item
                pre.length s1)
      ∧ (NoMetaClash env s (env.getItemOutputId item) →
          ∀ l, writesTo (env.getItemOutputId item)
                (itemStep env (getErrorRetriesBeforeZero env s) (tickSnapshot env s) item
                  pre.length s1)
              = writesTo (env.getItemOutputId item) s1 ++ l →
            tickWritesTo env s (env.getItemOutputId item) = l) := by
  have hb : ∀ j, j ≤ pre.length →
      budgetExceeded env (env.now 41 0) (getTickTimeBudgetMs env s) (0 + j) = false := by
    intro j hj
    simp only [budgetExceeded, Nat.zero_add, decide_eq_false_iff_not]
    exact hbudget j hj
  have hloop : tickLoopState env s
      = loopState env (env.now 41 0) (getTickTimeBudgetMs env s)
          (getErrorRetriesBeforeZero env s) (tickSnapshot env s) (enabledItems s).length
          (pre.length + 1) post
          (itemStep env (getErrorRetriesBeforeZero env s) (tickSnapshot env s) item pre.length
            (loopState env (env.now 41 0) (getTickTimeBudgetMs env s)
              (getErrorRetriesBeforeZero env s) (tickSnapshot env s) (enabledItems s).length
              0 pre (tickPrelude env s))) := by
    have h0 := hb pre.length (le_refl _)
    show loopState _ _ _ _ _ (enabledItems s).length 0 (enabledItems s) _ = _
    rw [hitems, loopState_append _ _ _ _ _ _ _ _ _ _ (fun j hj => hb j (le_of_lt hj)),
      loopState_cons_within _ _ _ _ _ _ _ _ _ _ h0]
    simp only [Nat.zero_add, ← hitems]
  refine ⟨loopState env (env.now 41 0) (getTickTimeBudgetMs env s)
      (getErrorRetriesBeforeZero env s) (tickSnapshot env s) (enabledItems s).length
      0 pre (tickPrelude env s), ?_, ?_, ?_⟩
  · rw [loopState_runtimeAt_other _ _ _ _ _ _ _ _ _ _ hpre, tickPrelude_runtimeAt]
  · rw [tickState_runtimeAt, hloop, loopState_runtimeAt_other _ _ _ _ _ _ _ _ _ _ hpost]
  · intro hclash l hl
    obtain ⟨hinfo, hmeta⟩ := hclash
    have hle : env.getItemOutputId item ≠ "info.lastError" :=
      fun e => (not_mem_infoIds hinfo).1 e.symm
    apply tickWritesTo_of_writesTo
    rw [tickState_writesTo _ _ _ hinfo, hloop,
      loopState_writesTo_reached _ _ _ _ _ _ _ hle _ _ _
        (fun it hit => Or.inr ⟨hpost it (List.mem_of_mem_take hit),
          hmeta it (by rw [hitems]; simp [List.mem_of_mem_take hit])⟩),
      hl,
      loopState_writesTo_reached _ _ _ _ _ _ _ hle _ _ _
        (fun it hit => Or.inr ⟨hpre it (List.mem_of_mem_take hit),
          hmeta it (by rw [hitems]; simp [List.mem_of_mem_take hit])⟩),
      tickPrelude_writesTo _ _ _ hinfo]

/-- The writes of a failing pass to its own output identifier: the attempted
write, if the evaluation produced a value, then the write of the retry
policy. -/
theorem itemStep_writesTo_failed (env : Env) (retries : Int) (snapshot : Snapshot) (item : Item)
    (idx : Nat) (s : Adapter) (hid : env.getItemOutputId item ≠ "")
    (hle : env.getItemOutputId item ≠ "info.lastError") :
    (∀ e, evalOutcome env item snapshot = .error e →
        writesTo (env.getItemOutputId item) (itemStep env retries snapshot item idx s)
          = writesTo (env.getItemOutputId item) s
            ++ retryWrite env retries item (env.getItemOutputId item) s)
      ∧ (∀ value e, evalOutcome env item snapshot = .ok value →
          env.writeRaises 110 idx = some e →
          writesTo (env.getItemOutputId item) (itemStep env retries snapshot item idx s)
            = writesTo (env.getItemOutputId item) s
              ++ ((env.getItemOutputId item, value)
                  :: retryWrite env retries item (env.getItemOutputId item) s)) := by
  constructor
  · intro e hv
    rw [itemStep_evalFails _ _ _ _ _ _ e hid hv,
      itemFailed_writesTo _ _ _ _ _ _ _ _ _ hle (not_mem_metaIdsOf_self _),
      filter_eq_self_of_ids (retryWrite_ids _ _ _ _ _)]
    rfl
  · intro value e hv hw
    rw [itemStep_writeFails _ _ _ _ _ _ value e hid hv hw,
      itemFailed_writesTo _ _ _ _ _ _ _ _ _ hle (not_mem_metaIdsOf_self _),
      filter_eq_self_of_ids (retryWrite_ids _ _ _ _ _)]
    have hr : retryWrite env retries item (env.getItemOutputId item)
        (wrote (env.getItemOutputId item) value false
          { s with evalLog := s.evalLog ++ [(item, snapshot)] })
        = retryWrite env retries item (env.getItemOutputId item) s :=
      retryWrite_congr env retries item _ rfl rfl
    rw [hr]
    simp [writesTo, wrote]
/-- The runtime state of its output identifier after a failing pass. -/
theorem itemStep_runtimeAt_failed (env : Env) (retries : Int) (snapshot : Snapshot)
    (item : Item) (idx : Nat) (s : Adapter) (hid : env.getItemOutputId item ≠ "")
    (hfail : (∃ e, evalOutcome env item snapshot = .error e)
      ∨ (env.writeRaises 110 idx).isSome = true) :
    runtimeAt (env.getItemOutputId item) (itemStep env retries snapshot item idx s)
      = (s.lastGoodValue (env.getItemOutputId item), s.lastGoodTs (env.getItemOutputId item),
          some ((s.consecutiveErrorCounts (env.getItemOutputId item)).getD 0 + 1)) := by
  cases hv : evalOutcome env item snapshot with
  | error e =>
    rw [itemStep_evalFails _ _ _ _ _ _ e hid hv]
    simp [runtimeAt, itemFailed_lastGoodValue, itemFailed_lastGoodTs, itemFailed_counts,
      mapSet_same]
  | ok value =>
    rcases hfail with ⟨e, he⟩ | hwr
    · rw [hv] at he
      exact absurd he (by simp)
    · cases hw : env.writeRaises 110 idx with
      | none => rw [hw] at hwr; exact absurd hwr (by simp)
      | some e =>
        rw [itemStep_writeFails _ _ _ _ _ _ value e hid hv hw]
        simp [runtimeAt, itemFailed_lastGoodValue, itemFailed_lastGoodTs, itemFailed_counts,
          mapSet_same, wrote]

/-- The runtime state of its output identifier after a succeeding pass. -/
theorem itemStep_runtimeAt_ok (env : Env) (retries : Int) (snapshot : Snapshot)
    (item : Item) (idx : Nat) (s : Adapter) (value : JsVal)
    (hid : env.getItemOutputId item ≠ "")
    (hv : evalOutcome env item snapshot = .ok value) (hw : env.writeRaises 110 idx = none) :
    runtimeAt (env.getItemOutputId item) (itemStep env retries snapshot item idx s)
      = (some value, some (env.now 112 idx), some 0) := by
  rw [itemStep_ok _ _ _ _ _ _ value hid hv hw, itemSucceeded_eq]
  simp [runtimeAt, mapSet_same]

/-- The writes of a tick to the output identifier of an item evaluated once
in it, when the pass fails. -/
theorem tick_failure_writes (env : Env) (s : Adapter) (pre post : List Item) (item : Item)
    (hitems : enabledItems s = pre ++ item :: post)
    (hid : env.getItemOutputId item ≠ "")
    (hbudget : ∀ j, j ≤ pre.length →
      ¬ (getTickTimeBudgetMs env s > 0
        ∧ env.now 89 j - env.now 41 0 > getTickTimeBudgetMs env s))
    (hpre : ∀ it ∈ pre, env.getItemOutputId it ≠ env.getItemOutputId item)
    (hpost : ∀ it ∈ post, env.getItemOutputId it ≠ env.getItemOutputId item)
    (hclash : NoMetaClash env s (env.getItemOutputId item)) :
    (∀ e, evalOutcome env item (tickSnapshot env s) = .error e →
        tickWritesTo env s (env.getItemOutputId item)
          = retryWrite env (getErrorRetriesBeforeZero env s) item (env.getItemOutputId item) s)
      ∧ (∀ value e, evalOutcome env item (tickSnapshot env s) = .ok value →
          env.writeRaises 110 pre.length = some e →
          tickWritesTo env s (env.getItemOutputId item)
            = (env.getItemOutputId item, value)
              :: retryWrite env (getErrorRetriesBeforeZero env s) item
                  (env.getItemOutputId item) s) := by
  obtain ⟨s1, h1, -, hw⟩ := tick_once env s pre post item hitems hbudget hpre hpost
  have hle : env.getItemOutputId item ≠ "info.lastError" :=
    fun e => (not_mem_infoIds hclash.1).1 e.symm
  simp only [runtimeAt, Prod.mk.injEq] at h1
  have hr : retryWrite env (getErrorRetriesBeforeZero env s) item (env.getItemOutputId item) s1
      = retryWrite env (getErrorRetriesBeforeZero env s) item (env.getItemOutputId item) s :=
    retryWrite_congr env _ item _ h1.1 h1.2.2
  obtain ⟨hA, hB⟩ := itemStep_writesTo_failed env (getErrorRetriesBeforeZero env s)
    (tickSnapshot env s) item pre.length s1 hid hle
  constructor
  · intro e hv
    rw [← hr]
    exact hw hclash _ (hA e hv)
  · intro value e hv hwr
    rw [← hr]
    exact hw hclash _ (hB value e hv hwr)

/-- The writes of a tick to the output identifier of an item evaluated once
in it, when the pass succeeds: the value, once. -/
theorem tick_success_writes (env : Env) (s : Adapter) (pre post : List Item) (item : Item)
    (value : JsVal)
    (hitems : enabledItems s = pre ++ item :: post)
    (hid : env.getItemOutputId item ≠ "")
    (hbudget : ∀ j, j ≤ pre.length →
      ¬ (getTickTimeBudgetMs env s > 0
        ∧ env.now 89 j - env.now 41 0 > getTickTimeBudgetMs env s))
    (hpre : ∀ it ∈ pre, env.getItemOutputId it ≠ env.getItemOutputId item)
    (hpost : ∀ it ∈ post, env.getItemOutputId it ≠ env.getItemOutputId item)
    (hclash : NoMetaClash env s (env.getItemOutputId item))
    (hv : evalOutcome env item (tickSnapshot env s) = .ok value)
    (hw : env.writeRaises 110 pre.length = none) :
    tickWritesTo env s (env.getItemOutputId item) = [(env.getItemOutputId item, value)] := by
  obtain ⟨s1, -, -, hwr⟩ := tick_once env s pre post item hitems hbudget hpre hpost
  apply hwr hclash
  rw [itemStep_ok _ _ _ _ _ _ value hid hv hw,
    itemSucceeded_writesTo _ _ _ _ _ _ _ (not_mem_metaIdsOf_self _)]
  simp [writesTo, wrote]

theorem noMetaClash_demo (env : Env) (hid : env.getItemOutputId = fun it => it.targetId) :
    NoMetaClash env demoAdapter "a" ∧ NoMetaClash env demoAdapter "b"
      ∧ NoMetaClash env retryAdapter "a" := by
  simp only [NoMetaClash, hid]
  decide

/-! ## A failed write of the output -/

/-- C16: when the item at position `pre.length` of the enabled list is reached
within the budget, its evaluation, shaping and cast give `value`, and the
write of `value` to its output identifier raises, then (no other enabled item
sharing the identifier) the tick leaves the last good value and the last good
timestamp of the identifier as they were, sets its counter to the old count
plus one, and issues the write of the retry policy for that count; when the
identifier is none of the metadata identifiers, the writes of the tick to it
are exactly the attempted write followed by the write of the retry policy. -/
theorem failed_write_counts_as_failure (env : Env) (adapter : Adapter) (pre post : List Item)
    (item : Item) (value : JsVal) (e : String)
    (hitems : enabledItems adapter = pre ++ item :: post)
    (hid : env.getItemOutputId item ≠ "")
    (hbudget : ∀ j, j ≤ pre.length →
      ¬ (getTickTimeBudgetMs env adapter > 0
        ∧ env.now 89 j - env.now 41 0 > getTickTimeBudgetMs env adapter))
    (hv : evalOutcome env item (tickSnapshot env adapter) = .ok value)
    (hw : env.writeRaises 110 pre.length = some e)
    (hpre : ∀ it ∈ pre, env.getItemOutputId it ≠ env.getItemOutputId item)
    (hpost : ∀ it ∈ post, env.getItemOutputId it ≠ env.getItemOutputId item) :
    (runTick env adapter).state.lastGoodValue (env.getItemOutputId item)
        = adapter.lastGoodValue (env.getItemOutputId item)
      ∧ (runTick env adapter).state.lastGoodTs (env.getItemOutputId item)
        = adapter.lastGoodTs (env.getItemOutputId item)
      ∧ (runTick env adapter).state.consecutiveErrorCounts (env.getItemOutputId item)
        = some ((adapter.consecutiveErrorCounts (env.getItemOutputId item)).getD 0 + 1)
      ∧ (∀ w ∈ retryWrite env (getErrorRetriesBeforeZero env adapter) item
            (env.getItemOutputId item) adapter, w ∈ tickWrites env adapter)
      ∧ (NoMetaClash env adapter (env.getItemOutputId item) →
          tickWritesTo env adapter (env.getItemOutputId item)
            = (env.getItemOutputId item, value)
              :: retryWrite env (getErrorRetriesBeforeZero env adapter) item
                  (env.getItemOutputId item) adapter) := by
  have hfail : (∃ e, evalOutcome env item (tickSnapshot env adapter) = .error e)
      ∨ (env.writeRaises 110 pre.length).isSome = true := Or.inr (by rw [hw]; rfl)
  obtain ⟨h1, h2⟩ := tick_failure env adapter pre post item hitems hid hbudget hfail hpre
  have h3 := h2 hpost
  rw [← runTick_state] at h3
  simp only [runtimeAt, Prod.mk.injEq] at h3
  exact ⟨h3.1, h3.2.1, h3.2.2, h1, fun hclash =>
    (tick_failure_writes env adapter pre post item hitems hid hbudget hpre hpost hclash).2
      value e hv hw⟩

/-- Witness for C16: the write of 42 to `a` raises in a fresh adapter with the
default threshold; the counter of `a` becomes 1, no last good value is
recorded, and the attempted write is the only write to `a`. -/
theorem failed_write_counts_as_failure_witness :
    (runTick writeFailEnv demoAdapter).state.lastGoodValue (writeFailEnv.getItemOutputId itemA)
        = demoAdapter.lastGoodValue (writeFailEnv.getItemOutputId itemA)
      ∧ (runTick writeFailEnv demoAdapter).state.consecutiveErrorCounts
          (writeFailEnv.getItemOutputId itemA)
        = some ((demoAdapter.consecutiveErrorCounts
            (writeFailEnv.getItemOutputId itemA)).getD 0 + 1)
      ∧ tickWritesTo writeFailEnv demoAdapter (writeFailEnv.getItemOutputId itemA)
        = (writeFailEnv.getItemOutputId itemA, JsVal.ofInt 42)
          :: retryWrite writeFailEnv (getErrorRetriesBeforeZero writeFailEnv demoAdapter) itemA
              (writeFailEnv.getItemOutputId itemA) demoAdapter := by
  have h := failed_write_counts_as_failure writeFailEnv demoAdapter [] [itemB] itemA
    (JsVal.ofInt 42) "write failed" enabledItems_demoAdapter (by decide)
    (fun j _ hc => by
      rw [getTickTimeBudgetMs_demoAdapter] at hc
      simp [writeFailEnv] at hc)
    rfl rfl (by decide) (by decide)
  exact ⟨h.1, h.2.2.1, h.2.2.2.2 (noMetaClash_demo writeFailEnv rfl).1⟩

/-! ## Failures before any success -/

/-- After any number of failing ticks for `t`, starting without a last good
value, there is still no last good value and the counter has grown by the
number of failures. -/
theorem failure_invariant (adapter : Adapter) (pre post : List Item) (item : Item)
    (t : String) (hitems : enabledItems adapter = pre ++ item :: post) (ht : t ≠ "")
    (hnone : adapter.lastGoodValue t = none)
    (fails : List Env)
    (hsched : ∀ env ∈ fails,
      env.getItemOutputId item = t
      ∧ (∀ it ∈ pre ++ post, env.getItemOutputId it ≠ t)
      ∧ (∀ j, j ≤ pre.length →
          ¬ (getTickTimeBudgetMs env adapter > 0
            ∧ env.now 89 j - env.now 41 0 > getTickTimeBudgetMs env adapter)))
    (hfail : ∀ env ∈ fails,
      (∃ e, evalOutcome env item (tickSnapshot env adapter) = .error e)
        ∨ (env.writeRaises 110 pre.length).isSome = true) :
    schedView (runTicks fails adapter) = schedView adapter
      ∧ (runTicks fails adapter).lastGoodValue t = none
      ∧ ((runTicks fails adapter).consecutiveErrorCounts t).getD 0
          = (adapter.consecutiveErrorCounts t).getD 0 + fails.length := by
  induction fails using List.reverseRecOn with
  | nil => exact ⟨rfl, hnone, rfl⟩
  | append_singleton fails env ih =>
    obtain ⟨ihs, ihg, ihc⟩ := ih
      (fun e he => hsched e (List.mem_append_left _ he))
      (fun e he => hfail e (List.mem_append_left _ he))
    obtain ⟨hid, honce, hb⟩ := hsched env (List.mem_append_right _ (List.mem_singleton_self _))
    have hf := hfail env (List.mem_append_right _ (List.mem_singleton_self _))
    subst hid
    obtain ⟨hE, hS, hB, -⟩ := settings_of_schedView env ihs
    have h := (tick_failure env (runTicks fails adapter) pre post item
      (by rw [hE]; exact hitems) ht (by rw [hB]; exact hb) (by rw [hS]; exact hf)
      (fun it hit => honce it (List.mem_append_left _ hit))).2
      (fun it hit => honce it (List.mem_append_right _ hit))
    simp only [runtimeAt, Prod.mk.injEq] at h
    rw [runTicks_append, runTick_state]
    refine ⟨(tickState_schedView env _).trans ihs, h.1.trans ihg, ?_⟩
    rw [h.2.2, Option.getD_some, ihc, List.length_append, List.length_singleton]
    omega

/-- C15: an item evaluated once per tick (no other enabled item shares its
output identifier `t`, which is none of the metadata identifiers) has no last
good value and fails in every tick of a sequence, by a raising evaluation in
the last one. With `c` the counter before the sequence and `k` the number of
ticks before the last: while `c + k + 1` is at most the threshold `N`, the
last tick writes nothing at all to `t`; once `c + k + 1` exceeds `N`, the
writes of the last tick to `t` are exactly the fallback value. So from a
counter of 0 the fallback is first written by failure `N + 1`. -/
theorem no_last_good_value_policy (fails : List Env) (last : Env) (adapter : Adapter)
    (pre post : List Item) (item : Item) (t : String) (N : Int)
    (hitems : enabledItems adapter = pre ++ item :: post) (ht : t ≠ "")
    (hnone : adapter.lastGoodValue t = none)
    (hsched : ∀ env ∈ fails ++ [last],
      env.getItemOutputId item = t
      ∧ (∀ it ∈ pre ++ post, env.getItemOutputId it ≠ t)
      ∧ (∀ j, j ≤ pre.length →
          ¬ (getTickTimeBudgetMs env adapter > 0
            ∧ env.now 89 j - env.now 41 0 > getTickTimeBudgetMs env adapter)))
    (hclash : NoMetaClash last adapter t)
    (hN : getErrorRetriesBeforeZero last adapter = N)
    (hfail : ∀ env ∈ fails,
      (∃ e, evalOutcome env item (tickSnapshot env adapter) = .error e)
        ∨ (env.writeRaises 110 pre.length).isSome = true)
    (hlast : ∃ e, evalOutcome last item (tickSnapshot last adapter) = .error e) :
    ((((adapter.consecutiveErrorCounts t).getD 0 + fails.length + 1 : Nat) : Int) ≤ N →
        tickWritesTo last (runTicks fails adapter) t = [])
      ∧ (N < (((adapter.consecutiveErrorCounts t).getD 0 + fails.length + 1 : Nat) : Int) →
        tickWritesTo last (runTicks fails adapter) t = [(t, last.getZeroValueForItem item)]) := by
  obtain ⟨ihs, ihg, ihc⟩ := failure_invariant adapter pre post item t hitems ht hnone fails
    (fun e he => hsched e (List.mem_append_left _ he)) hfail
  obtain ⟨hid, honce, hb⟩ :=
    hsched last (List.mem_append_right _ (List.mem_singleton_self _))
  subst hid
  obtain ⟨hE, hS, hB, hR⟩ := settings_of_schedView last ihs
  obtain ⟨e, he⟩ := hlast
  have hc : NoMetaClash last (runTicks fails adapter) (last.getItemOutputId item) := by
    unfold NoMetaClash
    rw [hE]
    exact hclash
  have h := (tick_failure_writes last (runTicks fails adapter) pre post item
    (by rw [hE]; exact hitems) ht (by rw [hB]; exact hb)
    (fun it hit => honce it (List.mem_append_left _ hit))
    (fun it hit => honce it (List.mem_append_right _ hit)) hc).1 e (by rw [hS]; exact he)
  rw [hR, hN] at h
  rw [h]
  constructor
  · intro hk
    have h1 : ¬ (N < ((adapter.consecutiveErrorCounts (last.getItemOutputId item)).getD 0 : Int)
        + (fails.length : Int) + 1) := by
      push_cast at hk
      omega
    simp [retryWrite, ihg, ihc, h1]
  · intro hk
    have h2 : N < ((adapter.consecutiveErrorCounts (last.getItemOutputId item)).getD 0 : Int)
        + (fails.length : Int) + 1 := by
      push_cast at hk
      omega
    simp [retryWrite, ihg, ihc, h2]

/-- Witness for C15: with a threshold of 1 and no success before, the first
failing tick writes nothing to `a` and the second writes the fallback 0. -/
theorem no_last_good_value_policy_witness :
    tickWritesTo evalFailEnv (runTicks [] retryAdapter) "a" = []
      ∧ tickWritesTo evalFailEnv (runTicks [evalFailEnv] retryAdapter) "a"
          = [("a", evalFailEnv.getZeroValueForItem itemA)] := by
  have hf := retry_sample_scheduled evalFailEnv rfl rfl
  have hc := (noMetaClash_demo evalFailEnv rfl).2.2
  constructor
  · refine (no_last_good_value_policy [] evalFailEnv retryAdapter [] [itemB] itemA "a" 1
      (retryAdapter_settings evalFailEnv).1 (by decide) rfl ?_ hc
      (retryAdapter_settings evalFailEnv).2.2 ?_ ⟨"no value", rfl⟩).1 (by decide)
    · intro env henv
      simp only [List.nil_append, List.mem_singleton] at henv
      subst henv
      exact hf
    · intro env henv
      exact absurd henv (List.not_mem_nil _)
  · refine (no_last_good_value_policy [evalFailEnv] evalFailEnv retryAdapter [] [itemB] itemA
      "a" 1 (retryAdapter_settings evalFailEnv).1 (by decide) rfl ?_ hc
      (retryAdapter_settings evalFailEnv).2.2 ?_ ⟨"no value", rfl⟩).2 (by decide)
    · intro env henv
      simp only [List.cons_append, List.nil_append, List.mem_cons, List.mem_singleton,
        List.not_mem_nil, or_false, or_self] at henv
      subst henv
      exact hf
    · intro env henv
      simp only [List.mem_singleton] at henv
      subst henv
      exact Or.inl ⟨"no value", rfl⟩

/-! ## Output identifiers not evaluated in a tick -/

theorem mem_evalsOf (env : Env) (snapshot : Snapshot) (items : List Item) (it : Item)
    (hit : it ∈ items) (hid : env.getItemOutputId it ≠ "") :
    (it, snapshot) ∈ evalsOf env snapshot items := by
  unfold evalsOf
  simp only [List.mem_map, List.mem_filter, decide_eq_true_eq]
  exact ⟨it, ⟨hit, hid⟩, rfl⟩

/-- An identifier that no evaluation of the tick has as output is the output
of no item the loop reached, save items without output identifier. -/
theorem reached_of_not_evaluated (env : Env) (adapter : Adapter) (t : String)
    (hnot : ∀ p ∈ tickEvals env adapter, env.getItemOutputId p.1 ≠ t) :
    ∀ it ∈ (enabledItems adapter).take
        (reached env (env.now 41 0) (getTickTimeBudgetMs env adapter) 0 (enabledItems adapter)),
      env.getItemOutputId it = "" ∨ env.getItemOutputId it ≠ t := by
  intro it hit
  by_cases h : env.getItemOutputId it = ""
  · exact Or.inl h
  · refine Or.inr (hnot (it, tickSnapshot env adapter) ?_)
    rw [tickEvals_eq]
    exact mem_evalsOf env _ _ it hit h

theorem tickEvals_slowEnv : tickEvals slowEnv demoAdapter = [(itemA, [])] := by
  have hr := reached_first slowEnv (slowEnv.now 41 0) (getTickTimeBudgetMs slowEnv demoAdapter)
    (enabledItems demoAdapter).length (enabledItems demoAdapter) 0 1 (by decide)
    (fun j hj => by
      have : j = 0 := by omega
      subst this
      rw [getTickTimeBudgetMs_demoAdapter]
      decide)
    (by
      rw [getTickTimeBudgetMs_demoAdapter]
      decide)
  rw [tickEvals_eq, hr.1]
  decide

theorem twiceAdapter_settings (env : Env) :
    enabledItems twiceAdapter = [itemA, itemA]
      ∧ getTickTimeBudgetMs env twiceAdapter = 4000 := by
  refine ⟨by decide, ?_⟩
  simp only [getTickTimeBudgetMs, getTickIntervalMs, toNumber, mathRound, mathFloor,
    twiceAdapter]
  norm_num

/-- C17, the counterexample: a fresh adapter lists the same enabled item
twice and every evaluation raises. The tick evaluates the output identifier
`a` twice, and its counter, absent before the tick, is 2 after it: neither 0
nor one more than before. -/
theorem counter_moves_by_two :
    tickEvals evalFailEnv twiceAdapter = [(itemA, []), (itemA, [])]
      ∧ twiceAdapter.consecutiveErrorCounts "a" = none
      ∧ (runTick evalFailEnv twiceAdapter).state.consecutiveErrorCounts "a" = some 2 := by
  obtain ⟨hE, hB⟩ := twiceAdapter_settings evalFailEnv
  have hb : ∀ j, budgetExceeded evalFailEnv (evalFailEnv.now 41 0)
      (getTickTimeBudgetMs evalFailEnv twiceAdapter) j = false := by
    intro j
    rw [hB]
    simp [budgetExceeded, evalFailEnv]
  refine ⟨?_, rfl, ?_⟩
  · rw [tickEvals_eq,
      (reached_all evalFailEnv (evalFailEnv.now 41 0) (getTickTimeBudgetMs evalFailEnv twiceAdapter)
        0 (enabledItems twiceAdapter) 0 (fun j _ => hb (0 + j))).1, List.take_length, hE]
    decide
  · have hloop : tickLoopState evalFailEnv twiceAdapter
        = itemStep evalFailEnv (getErrorRetriesBeforeZero evalFailEnv twiceAdapter)
            (tickSnapshot evalFailEnv twiceAdapter) itemA 1
            (itemStep evalFailEnv (getErrorRetriesBeforeZero evalFailEnv twiceAdapter)
              (tickSnapshot evalFailEnv twiceAdapter) itemA 0
              (tickPrelude evalFailEnv twiceAdapter)) := by
      show loopState _ _ _ _ _ (enabledItems twiceAdapter).length 0 (enabledItems twiceAdapter) _
        = _
      rw [hE, loopState_cons_within _ _ _ _ _ _ _ _ _ _ (hb 0),
        loopState_cons_within _ _ _ _ _ _ _ _ _ _ (hb (0 + 1))]
      rfl
    have hfail : ∀ idx, (∃ e, evalOutcome evalFailEnv itemA (tickSnapshot evalFailEnv twiceAdapter)
        = .error e) ∨ (evalFailEnv.writeRaises 110 idx).isSome = true :=
      fun _ => Or.inl ⟨"no value", rfl⟩
    have hid : evalFailEnv.getItemOutputId itemA ≠ "" := by decide
    have h2 := itemStep_runtimeAt_failed evalFailEnv
      (getErrorRetriesBeforeZero evalFailEnv twiceAdapter)
      (tickSnapshot evalFailEnv twiceAdapter) itemA 1
      (itemStep evalFailEnv (getErrorRetriesBeforeZero evalFailEnv twiceAdapter)
        (tickSnapshot evalFailEnv twiceAdapter) itemA 0 (tickPrelude evalFailEnv twiceAdapter))
      hid (hfail 1)
    have h1 := itemStep_runtimeAt_failed evalFailEnv
      (getErrorRetriesBeforeZero evalFailEnv twiceAdapter)
      (tickSnapshot evalFailEnv twiceAdapter) itemA 0 (tickPrelude evalFailEnv twiceAdapter)
      hid (hfail 0)
    have h0 := tickPrelude_runtimeAt evalFailEnv twiceAdapter (evalFailEnv.getItemOutputId itemA)
    have hfin := tickState_runtimeAt evalFailEnv twiceAdapter (evalFailEnv.getItemOutputId itemA)
    rw [hloop, h2] at hfin
    simp only [runtimeAt, Prod.mk.injEq] at h0 h1 hfin
    have hc0 : twiceAdapter.consecutiveErrorCounts (evalFailEnv.getItemOutputId itemA) = none :=
      rfl
    rw [runTick_state]
    show (tickState evalFailEnv twiceAdapter).consecutiveErrorCounts
      (evalFailEnv.getItemOutputId itemA) = some 2
    rw [hfin.2.2, h1.2.2, h0.2.2, hc0]
    rfl

/-- C17, amended: an output identifier `t` that no evaluation of the tick has
as output (its items were skipped by the budget check, or it belongs to no
reached item) keeps its last good value, last good timestamp and counter, and
when `t` is none of the metadata identifiers the tick writes nothing to it; a
pass over an item without output identifier changes nothing; and the counter
of the output of an item evaluated once in the tick (no other enabled item
shares its output identifier) is 0 after a success and the old count plus one
after a failure. -/
theorem unevaluated_ids_keep_state (env : Env) (adapter : Adapter) :
    (∀ t, (∀ p ∈ tickEvals env adapter, env.getItemOutputId p.1 ≠ t) →
        runtimeAt t (runTick env adapter).state = runtimeAt t adapter
          ∧ (NoMetaClash env adapter t → tickWritesTo env adapter t = []))
      ∧ (∀ retries snapshot item idx s, env.getItemOutputId item = "" →
          tickItem env retries snapshot item idx s = .ok () s)
      ∧ (∀ pre post item, enabledItems adapter = pre ++ item :: post →
          env.getItemOutputId item ≠ "" →
          (∀ j, j ≤ pre.length →
            ¬ (getTickTimeBudgetMs env adapter > 0
              ∧ env.now 89 j - env.now 41 0 > getTickTimeBudgetMs env adapter)) →
          (∀ it ∈ pre ++ post, env.getItemOutputId it ≠ env.getItemOutputId item) →
          ((∃ value, evalOutcome env item (tickSnapshot env adapter) = .ok value)
              ∧ env.writeRaises 110 pre.length = none →
            (runTick env adapter).state.consecutiveErrorCounts (env.getItemOutputId item)
              = some 0)
          ∧ ((∃ e, evalOutcome env item (tickSnapshot env adapter) = .error e)
              ∨ (env.writeRaises 110 pre.length).isSome = true →
            (runTick env adapter).state.consecutiveErrorCounts (env.getItemOutputId item)
              = some ((adapter.consecutiveErrorCounts (env.getItemOutputId item)).getD 0
                  + 1))) := by
  refine ⟨fun t hnot => ?_, fun retries snapshot item idx s h => ?_,
    fun pre post item hitems hid hbudget honce => ⟨fun hok => ?_, fun hfail => ?_⟩⟩
  · have hr := reached_of_not_evaluated env adapter t hnot
    have hrt : runtimeAt t (tickLoopState env adapter) = runtimeAt t adapter := by
      show runtimeAt t (loopState _ _ _ _ _ (enabledItems adapter).length 0
        (enabledItems adapter) _) = _
      rw [loopState_runtimeAt_reached _ _ _ _ _ _ _ _ _ _ hr, tickPrelude_runtimeAt]
    refine ⟨by rw [runTick_state, tickState_runtimeAt, hrt], fun hclash => ?_⟩
    obtain ⟨hinfo, hmeta⟩ := hclash
    have hle : t ≠ "info.lastError" := fun e => (not_mem_infoIds hinfo).1 e.symm
    apply tickWritesTo_of_writesTo
    rw [tickState_writesTo _ _ _ hinfo, List.append_nil]
    show writesTo t (loopState _ _ _ _ _ (enabledItems adapter).length 0
      (enabledItems adapter) _) = _
    rw [loopState_writesTo_reached _ _ _ _ _ _ _ hle _ _ _
        (fun it hit => (hr it hit).imp id
          (fun hne => ⟨hne, hmeta it (List.mem_of_mem_take hit)⟩)),
      tickPrelude_writesTo _ _ _ hinfo]
  · rw [tickItem_eq, itemStep_noTarget _ _ _ _ _ _ h]
  · obtain ⟨⟨value, hv⟩, hw⟩ := hok
    have h := (tick_success env adapter pre post item value hitems hid hbudget hv hw).2
      (fun it hit => honce it (List.mem_append_right _ hit))
    rw [← runTick_state] at h
    simp only [runtimeAt, Prod.mk.injEq] at h
    exact h.2.2
  · have h := (tick_failure env adapter pre post item hitems hid hbudget hfail
      (fun it hit => honce it (List.mem_append_left _ hit))).2
      (fun it hit => honce it (List.mem_append_right _ hit))
    rw [← runTick_state] at h
    simp only [runtimeAt, Prod.mk.injEq] at h
    exact h.2.2

/-- Witness for the amended C17: the budget check skips the second sample
item; the runtime state of its output `b` is as before the tick and the tick
writes nothing to `b`. -/
theorem unevaluated_ids_keep_state_witness :
    runtimeAt "b" (runTick slowEnv demoAdapter).state = runtimeAt "b" demoAdapter
      ∧ tickWritesTo slowEnv demoAdapter "b" = [] := by
  have h := (unevaluated_ids_keep_state slowEnv demoAdapter).1 "b" (by
    rw [tickEvals_slowEnv]
    decide)
  exact ⟨h.1, h.2 (noMetaClash_demo slowEnv rfl).2.1⟩

/-! ## Registration of objects -/

theorem setObjectNotExistsAsync_keeps (k : String) (obj : JsObject) (store : ObjectStore)
    (id : String) (o : JsObject) (h : store id = some o) :
    setObjectNotExistsAsync k obj store id = some o := by
  unfold setObjectNotExistsAsync
  split
  · exact h
  · rename_i hk
    have hne : id ≠ k := by
      intro e
      rw [e] at h
      rw [h] at hk
      exact hk rfl
    simp [mapSet, hne, h]

theorem setObjectNotExistsAsync_exists (k : String) (obj : JsObject) (store : ObjectStore) :
    (setObjectNotExistsAsync k obj store k).isSome = true := by
  unfold setObjectNotExistsAsync
  split
  · assumption
  · simp [mapSet]

theorem setObjectNotExistsAsync_noop (k : String) (obj : JsObject) (store : ObjectStore)
    (h : (store k).isSome = true) : setObjectNotExistsAsync k obj store = store := by
  unfold setObjectNotExistsAsync
  rw [if_pos h]

theorem isSome_of_keeps {s s2 : ObjectStore} (h : ∀ id o, s id = some o → s2 id = some o)
    (id : String) (hs : (s id).isSome = true) : (s2 id).isSome = true := by
  obtain ⟨o, ho⟩ := Option.isSome_iff_exists.mp hs
  rw [h id o ho]
  rfl

theorem applyOps_keeps (ops : List (String × JsObject)) (store : ObjectStore) (id : String)
    (o : JsObject) (h : store id = some o) : applyOps ops store id = some o := by
  induction ops generalizing store with
  | nil => exact h
  | cons op rest ih =>
    exact ih _ (setObjectNotExistsAsync_keeps op.1 op.2 store id o h)

theorem applyOps_exists (ops : List (String × JsObject)) (store : ObjectStore) :
    ∀ op ∈ ops, (applyOps ops store op.1).isSome = true := by
  induction ops generalizing store with
  | nil => intro op hop; exact absurd hop (List.not_mem_nil _)
  | cons op0 rest ih =>
    intro op hop
    rcases List.mem_cons.mp hop with rfl | hrest
    · exact isSome_of_keeps (applyOps_keeps rest _) _
        (setObjectNotExistsAsync_exists op.1 op.2 store)
    · exact ih _ op hrest

theorem applyOps_noop (ops : List (String × JsObject)) (store : ObjectStore)
    (h : ∀ op ∈ ops, (store op.1).isSome = true) : applyOps ops store = store := by
  induction ops with
  | nil => rfl
  | cons op rest ih =>
    show applyOps rest (setObjectNotExistsAsync op.1 op.2 store) = store
    rw [setObjectNotExistsAsync_noop _ _ _ (h op (List.mem_cons_self _ _))]
    exact ih (fun x hx => h x (List.mem_cons_of_mem _ hx))

theorem applyOps_idem (ops : List (String × JsObject)) (store : ObjectStore) :
    applyOps ops (applyOps ops store) = applyOps ops store :=
  applyOps_noop ops _ (applyOps_exists ops store)

theorem applyOps_append (a b : List (String × JsObject)) (store : ObjectStore) :
    applyOps (a ++ b) store = applyOps b (applyOps a store) := by
  simp [applyOps, List.foldl_append]

theorem channelLoop_eq (pre : String) (parts : List String) (store : ObjectStore) :
    channelLoop pre parts store = applyOps (channelOps pre parts) store := by
  induction parts generalizing pre store with
  | nil => rfl
  | cons part rest ih =>
    cases rest with
    | nil => rfl
    | cons next rest =>
      rw [channelLoop, channelOps]
      exact ih _ _

theorem ensureChannelPath_eq (id : String) (store : ObjectStore) :
    ensureChannelPath id store = applyOps (pathOps id) store := by
  unfold ensureChannelPath pathOps
  dsimp only
  generalize (if id ≠ "" then jsTrim id else "") = raw
  by_cases h1 : raw = ""
  · rw [if_pos h1, if_pos h1]
    rfl
  · rw [if_neg h1, if_neg h1]
    by_cases h2 : ((raw.split (fun c => c = '.')).filter (fun p => p ≠ "")).length ≤ 1
    · rw [if_pos h2, if_pos h2]
      rfl
    · rw [if_neg h2, if_neg h2]
      exact channelLoop_eq _ _ _

theorem ensureItemInfoStatesForCompiled_eq (c : CompiledItem) (store : ObjectStore)
    (h : c.outputId ≠ "") :
    ensureItemInfoStatesForCompiled (some c) store
      = applyOps (pathOps (getItemInfoBaseId c.outputId ++ ".compiledOk")
          ++ itemInfoOps (getItemInfoBaseId c.outputId)) store := by
  rw [applyOps_append, ← ensureChannelPath_eq]
  simp only [ensureItemInfoStatesForCompiled, h, if_false]
  rfl

theorem createInfoStates_objects (host : ObjectStore × (String → Option JsVal)) :
    (createInfoStates host).1 = applyOps infoOps host.1 := rfl

theorem spread_absorb (a b : JsObject) : spread (spread a b) b = spread a b := by
  funext k
  unfold spread
  cases b k <;> rfl

theorem spread_self (b : JsObject) : spread b b = b := by
  funext k
  unfold spread
  cases h : b k <;> simp [h]

theorem extendedObject_absorb (codeUnits : String → String → Option JsVal)
    (prev obj : JsObject) (c : JsObject) (hc : obj "common" = some (.obj c)) :
    extendedObject codeUnits (extendedObject codeUnits prev obj) obj
      = extendedObject codeUnits prev obj := by
  funext k
  by_cases hk : k = "common"
  · subst hk
    simp only [extendedObject, mapSet, if_true, hc, spreadOrEmpty, spread_absorb]
  · simp only [extendedObject, mapSet, hk, if_false]
    unfold spread
    simp only [mapSet, hk, if_false]
    cases obj k <;> rfl

theorem extendedObject_self (codeUnits : String → String → Option JsVal)
    (obj : JsObject) (c : JsObject) (hc : obj "common" = some (.obj c)) :
    extendedObject codeUnits obj obj = obj := by
  funext k
  by_cases hk : k = "common"
  · subst hk
    simp only [extendedObject, mapSet, if_true, hc, spreadOrEmpty, spread_self]
  · simp only [extendedObject, mapSet, hk, if_false]
    exact congrFun (spread_self obj) k

theorem mapSet_mapSet {β : Type} (m : String → Option β) (k : String) (v w : β) :
    mapSet (mapSet m k v) k w = mapSet m k w := by
  funext x
  unfold mapSet
  split <;> rfl

theorem outputObject_common (item : Item) (id : String) :
    ∃ c, outputObject item id "common" = some (.obj c) := ⟨_, rfl⟩

theorem ensureOutputState_idem (getItemOutputId : Item → String)
    (codeUnits : String → String → Option JsVal) (item : Item) (store : ObjectStore) :
    ensureOutputState getItemOutputId codeUnits item
        (ensureOutputState getItemOutputId codeUnits item store)
      = ensureOutputState getItemOutputId codeUnits item store := by
  by_cases hid : getItemOutputId item = ""
  · simp only [ensureOutputState, hid, if_true]
  · obtain ⟨c, hc⟩ := outputObject_common item (getItemOutputId item)
    have hstep : ∀ st : ObjectStore,
        ensureOutputState getItemOutputId codeUnits item st
          = mapSet (applyOps (pathOps (getItemOutputId item)) st) (getItemOutputId item)
              (match applyOps (pathOps (getItemOutputId item)) st (getItemOutputId item) with
                | none => outputObject item (getItemOutputId item)
                | some prev =>
                  extendedObject codeUnits prev (outputObject item (getItemOutputId item))) := by
      intro st
      simp only [ensureOutputState, hid, if_false, ensureChannelPath_eq, getObjectAsync]
      cases h : applyOps (pathOps (getItemOutputId item)) st (getItemOutputId item) with
      | none => rfl
      | some prev => simp only [extendObjectAsync, h, Option.getD_some]
    have hpath : ∀ (st : ObjectStore) (o : JsObject),
        applyOps (pathOps (getItemOutputId item))
            (mapSet (applyOps (pathOps (getItemOutputId item)) st) (getItemOutputId item) o)
          = mapSet (applyOps (pathOps (getItemOutputId item)) st) (getItemOutputId item) o := by
      intro st o
      apply applyOps_noop
      intro op hop
      have h := applyOps_exists (pathOps (getItemOutputId item)) st op hop
      unfold mapSet
      split
      · rfl
      · exact h
    rw [hstep store, hstep, hpath, mapSet_mapSet]
    simp only [mapSet, if_true]
    cases applyOps (pathOps (getItemOutputId item)) store (getItemOutputId item) with
    | none => exact congrArg _ (extendedObject_self codeUnits _ c hc)
    | some prev => exact congrArg _ (extendedObject_absorb codeUnits prev _ c hc)

/-- C12: on every object store, running `ensureOutputState` twice for an item
leaves the store that running it once leaves, and so do
`ensureItemInfoStatesForCompiled` for a compiled item and the object creation
of `createInfoStates`; an object that exists before
`ensureItemInfoStatesForCompiled` is still stored, unchanged, after it. -/
theorem registration_idempotent :
    (∀ (getItemOutputId : Item → String) (codeUnits : String → String → Option JsVal)
        (item : Item) (store : ObjectStore),
        ensureOutputState getItemOutputId codeUnits item
            (ensureOutputState getItemOutputId codeUnits item store)
          = ensureOutputState getItemOutputId codeUnits item store)
      ∧ (∀ (compiled : Option CompiledItem) (store : ObjectStore),
          ensureItemInfoStatesForCompiled compiled
              (ensureItemInfoStatesForCompiled compiled store)
            = ensureItemInfoStatesForCompiled compiled store)
      ∧ (∀ host : ObjectStore × (String → Option JsVal),
          (createInfoStates (createInfoStates host)).1 = (createInfoStates host).1)
      ∧ (∀ (compiled : Option CompiledItem) (store : ObjectStore) (id : String) (o : JsObject),
          store id = some o → ensureItemInfoStatesForCompiled compiled store id = some o) := by
  refine ⟨ensureOutputState_idem, fun compiled store => ?_, fun host => ?_,
    fun compiled store id o h => ?_⟩
  · cases compiled with
    | none => rfl
    | some c =>
      by_cases hc : c.outputId = ""
      · simp only [ensureItemInfoStatesForCompiled, hc, if_true]
      · rw [ensureItemInfoStatesForCompiled_eq c _ hc, ensureItemInfoStatesForCompiled_eq c _ hc,
          applyOps_idem]
  · rw [createInfoStates_objects, createInfoStates_objects, applyOps_idem]
  · cases compiled with
    | none => exact h
    | some c =>
      by_cases hc : c.outputId = ""
      · simp only [ensureItemInfoStatesForCompiled, hc, if_true]
        exact h
      · rw [ensureItemInfoStatesForCompiled_eq c _ hc]
        exact applyOps_keeps _ _ _ _ h

/-! ## Clamp ordering in the simulation tick -/

theorem parseSum_houseItem :
    parseSum houseItem.formula
      = .ok (.add (.add (.add (.ident "Enpal") (.ident "Zendure")) (.ident "BKW"))
          (.ident "Lesekopf")) := by
  rfl

theorem specInputIds_simAdapter :
    specInputIds (configItems simAdapter)
      = ["src.enpal", "src.zendure", "src.bkw", "src.gridSigned"] := by
  decide

theorem simAdapter_settings (env : Env) :
    enabledItems simAdapter = [pvItem] ++ houseItem :: []
      ∧ getTickTimeBudgetMs env simAdapter = 4000 := by
  refine ⟨rfl, ?_⟩
  simp only [getTickTimeBudgetMs, getTickIntervalMs, toNumber, mathRound, mathFloor, simAdapter]
  norm_num

theorem tickSnapshot_sim (base : Env) (enpal zendure bkw gridSigned : ℚ) :
    tickSnapshot (specEnv base (simRead enpal zendure bkw gridSigned)) simAdapter
      = [("src.enpal", .num (.fin enpal)), ("src.zendure", .num (.fin zendure)),
          ("src.bkw", .num (.fin bkw)), ("src.gridSigned", .num (.fin gridSigned))] := by
  show specBuildSnapshot (simRead enpal zendure bkw gridSigned) (configItems simAdapter) = _
  unfold specBuildSnapshot
  rw [specInputIds_simAdapter]
  simp [simRead]

theorem specComputeItemValue_house (stringToNumber : String → JsNum)
    (enpal zendure bkw gridSigned : ℚ) :
    specComputeItemValue stringToNumber houseItem
        [("src.enpal", .num (.fin enpal)), ("src.zendure", .num (.fin zendure)),
          ("src.bkw", .num (.fin bkw)), ("src.gridSigned", .num (.fin gridSigned))]
      = .ok (.num (.fin (max 0 enpal + zendure + bkw + gridSigned))) := by
  unfold specComputeItemValue
  rw [parseSum_houseItem]
  simp [evalSum, houseItem, specBindInput, List.lookup, finiteOrZero, toNumber]

theorem specApplyResultRules_house (stringToNumber : String → JsNum) (q : ℚ) :
    specApplyResultRules stringToNumber houseItem (.num (.fin q))
      = .ok (.num (.fin (min 20000 (max 0 q)))) := by
  simp [specApplyResultRules, houseItem, finiteOrZero, toNumber]

theorem evalOutcome_specEnv (base : Env) (read : String → Option JsVal) (item : Item)
    (snapshot : Snapshot) :
    evalOutcome (specEnv base read) item snapshot
      = match specComputeItemValue base.stringToNumber item snapshot with
        | Except.error e => Except.error e
        | Except.ok raw =>
          if item.type = "number" ∨ item.type = "" then
            specApplyResultRules base.stringToNumber item raw
          else Except.ok raw := by
  unfold evalOutcome
  simp only [specEnv]
  cases specComputeItemValue base.stringToNumber item snapshot with
  | error e => rfl
  | ok raw =>
    by_cases h : item.type = "number" ∨ item.type = ""
    · simp only [h, decide_True, if_true]
      cases specApplyResultRules base.stringToNumber item raw <;> rfl
    · simp only [h, decide_False, if_false, Bool.false_eq_true]

/-- C11: in a tick of the simulation adapter whose clock stays within the
budget of 4000 ms up to the second item and whose write of the output does not
raise, for all readings `enpal`, `zendure`, `bkw`, `gridSigned` the formula of
the item `Hausverbrauch` evaluates to `max 0 enpal + zendure + bkw +
gridSigned` (the flagged input is clamped before the sum), and the tick
writes to `house.power` exactly once, the value
`min 20000 (max 0 (max 0 enpal + zendure + bkw + gridSigned))` (the output
clamp acts on the result).  The evaluator is the one modelled from the
specification. -/
theorem house_power_clamped (base : Env) (enpal zendure bkw gridSigned : ℚ)
    (hbudget : ∀ j, j ≤ 1 → ¬ (base.now 89 j - base.now 41 0 > 4000))
    (hwrite : base.writeRaises 110 1 = none) :
    specComputeItemValue base.stringToNumber houseItem
        (tickSnapshot (specEnv base (simRead enpal zendure bkw gridSigned)) simAdapter)
      = .ok (.num (.fin (max 0 enpal + zendure + bkw + gridSigned)))
    ∧ tickWritesTo (specEnv base (simRead enpal zendure bkw gridSigned)) simAdapter "house.power"
      = [("house.power",
          .num (.fin (min 20000 (max 0 (max 0 enpal + zendure + bkw + gridSigned)))))] := by
  obtain ⟨hE, hB⟩ := simAdapter_settings (specEnv base (simRead enpal zendure bkw gridSigned))
  have hraw := specComputeItemValue_house base.stringToNumber enpal zendure bkw gridSigned
  have hv : evalOutcome (specEnv base (simRead enpal zendure bkw gridSigned)) houseItem
      (tickSnapshot (specEnv base (simRead enpal zendure bkw gridSigned)) simAdapter)
      = .ok (.num (.fin (min 20000 (max 0 (max 0 enpal + zendure + bkw + gridSigned))))) := by
    rw [tickSnapshot_sim, evalOutcome_specEnv, hraw]
    show (if houseItem.type = "number" ∨ houseItem.type = "" then _ else _) = _
    rw [if_pos (by decide), specApplyResultRules_house]
  have hid : (specEnv base (simRead enpal zendure bkw gridSigned)).getItemOutputId houseItem
      = "house.power" := by
    show specOutputId houseItem = "house.power"
    decide
  have hclash : NoMetaClash (specEnv base (simRead enpal zendure bkw gridSigned)) simAdapter
      ((specEnv base (simRead enpal zendure bkw gridSigned)).getItemOutputId houseItem) := by
    rw [hid]
    unfold NoMetaClash
    rw [hE]
    refine ⟨by decide, ?_⟩
    intro it hit
    simp only [List.singleton_append, List.mem_cons, List.not_mem_nil, or_false] at hit
    rcases hit with rfl | rfl
    · show "house.power" ∉ metaIdsOf (specOutputId pvItem)
      decide
    · show "house.power" ∉ metaIdsOf (specOutputId houseItem)
      decide
  have h := tick_success_writes (specEnv base (simRead enpal zendure bkw gridSigned)) simAdapter
    [pvItem] [] houseItem _ hE (by rw [hid]; decide)
    (fun j hj hc => by
      rw [hB] at hc
      exact hbudget j hj hc.2)
    (fun it hit => by
      simp only [List.mem_singleton] at hit
      subst hit
      rw [hid]
      show specOutputId pvItem ≠ "house.power"
      decide)
    (fun it hit => absurd hit (List.not_mem_nil _)) hclash hv hwrite
  rw [hid] at h
  refine ⟨?_, h⟩
  rw [tickSnapshot_sim]
  exact hraw

/-- Witness for C11: the readings (-30, 0, 0, -200) publish 0 and the
readings (3000, 1200, 439, -2514) publish 2125. -/
theorem house_power_clamped_witness :
    tickWritesTo (specEnv quietEnv (simRead (-30) 0 0 (-200))) simAdapter "house.power"
        = [("house.power", JsVal.num (.fin 0))]
      ∧ tickWritesTo (specEnv quietEnv (simRead 3000 1200 439 (-2514))) simAdapter "house.power"
        = [("house.power", JsVal.num (.fin 2125))] := by
  have hb : ∀ j, j ≤ 1 → ¬ (quietEnv.now 89 j - quietEnv.now 41 0 > 4000) := by
    intro j _
    simp [quietEnv]
  have h1 := (house_power_clamped quietEnv (-30) 0 0 (-200) hb rfl).2
  have h2 := (house_power_clamped quietEnv 3000 1200 439 (-2514) hb rfl).2
  have e1 : min (20000 : ℚ) (max 0 (max 0 (-30) + 0 + 0 + (-200))) = 0 := by norm_num
  have e2 : min (20000 : ℚ) (max 0 (max 0 3000 + 1200 + 439 + (-2514))) = 2125 := by norm_num
  rw [e1] at h1
  rw [e2] at h2
  exact ⟨h1, h2⟩

end DataSolectrus
